import Mathlib

/-!
# VIBES viewer: shape documents, projection and the scene's axis pair

A shallow embedding of `viewer/vibesgraphicsitem.{h,cpp}` and
`viewer/vibesscene2d.cpp`.

* Qt's JSON values (`QJsonValue`, `QJsonArray`, `QJsonObject`) are an inductive
  type and association lists. The order of the keys of an object is not
  observable through `contains` and `value`, which is all the viewer uses.
* A `QString` is a `String`, read as its sequence of characters. `toUpper` and
  `toLower` map each character: an ASCII character as ASCII does, and a
  character outside ASCII as the case tables of the Qt library do, which are
  not in the source and are a parameter (`QUnicodeTables`).
* The C++ type `double` is an arbitrary type `R`. The code embedded here only
  needs its zero (the result of `toDouble()` on a value that is not a number) and
  its subtraction, so nothing proved below depends on rounding.
* C++ `int` values are `Int`; the sizes that are divided are never negative.
* An object is a record of its fields and every method returns the object after
  the call. The members of a group are stored in the group; the owning group of
  an item (`parentItem()`) is passed to the methods that read it.
* `VibesGraphicsGroup` and `VibesGraphicsBox` are embedded in full. The virtual
  methods of the other subclasses are the fields of `SubclassMethods`, over
  which every statement is quantified; the same record carries the case tables.
* The field `visible` of an item is the argument of the last `setVisible` on that
  item. Qt shows an item when this holds of the item and of every group that
  owns it (`isVisible`).
* Pens and brushes (`VibesDefaults::pen` and `brush`), tool tips, the name
  registry of the scene and its bounding rectangle are left out.
* `Q_ASSERT` is a no-op, as in a release build; the asserted conditions are given
  as separate predicates.
-/

set_option autoImplicit false

/-! ## Qt JSON values -/

/-- A `QJsonValue`. `null` is what `QJsonValue()` builds, `undefined` is what a
lookup of a missing key or an out-of-range index returns. -/
inductive QJsonValue (R : Type) where
  | null
  | bool (b : Bool)
  | double (d : R)
  | string (s : String)
  | array (a : List (QJsonValue R))
  | object (o : List (String × QJsonValue R))
  | undefined

/-- A `QJsonArray`. -/
abbrev QJsonArray (R : Type) := List (QJsonValue R)

/-- A `QJsonObject`: keys with their values. -/
abbrev QJsonObject (R : Type) := List (String × QJsonValue R)

namespace QJsonValue

variable {R : Type}

/-- Method `QJsonValue::isString`. -/
def isString : QJsonValue R → Bool
  | string _ => true
  | _ => false

/-- Method `QJsonValue::isUndefined`. -/
def isUndefined : QJsonValue R → Bool
  | undefined => true
  | _ => false

/-- Method `QJsonValue::toString`: the string, or the empty string for any other value. -/
def toString : QJsonValue R → String
  | string s => s
  | _ => ""

/-- Method `QJsonValue::toArray`: the array, or the empty array for any other value. -/
def toArray : QJsonValue R → QJsonArray R
  | array a => a
  | _ => []

/-- Method `QJsonValue::toDouble`: the number, or `0` for any other value. -/
def toDouble [Zero R] : QJsonValue R → R
  | double d => d
  | _ => 0

end QJsonValue

namespace QJsonArray

variable {R : Type}

/-- Method `QJsonArray::size`. -/
def size (a : QJsonArray R) : Int := (a.length : Int)

/-- Method `QJsonArray::at` (the const `operator[]`): an undefined value when the
index is out of range. -/
def at_ (a : QJsonArray R) (i : Int) : QJsonValue R :=
  if i < 0 ∨ i ≥ size a then QJsonValue.undefined else a.getD i.toNat QJsonValue.undefined

end QJsonArray

namespace QJsonObject

variable {R : Type}

/-- Method `QJsonObject::contains`. -/
def contains : QJsonObject R → String → Bool
  | [], _ => false
  | (k, _) :: o, key => if k = key then true else contains o key

/-- Method `QJsonObject::value` (the const `operator[]`): an undefined value when
the key is missing. -/
def value : QJsonObject R → String → QJsonValue R
  | [], _ => QJsonValue.undefined
  | (k, v) :: o, key => if k = key then v else value o key

/-- Method `QJsonObject::remove`. -/
def remove : QJsonObject R → String → QJsonObject R
  | [], _ => []
  | (k, v) :: o, key => if k = key then remove o key else (k, v) :: remove o key

/-- Replace the value of a key that is present, or add the key. -/
def replace : QJsonObject R → String → QJsonValue R → QJsonObject R
  | [], key, v => [(key, v)]
  | (k, w) :: o, key, v => if k = key then (key, v) :: o else (k, w) :: replace o key v

/-- Method `QJsonObject::insert`, which is also the assignment `json[key] = v`:
inserting an undefined value removes the key. -/
def insert (o : QJsonObject R) (key : String) (v : QJsonValue R) : QJsonObject R :=
  if v.isUndefined then remove o key else replace o key v

end QJsonObject

/-! ## Qt strings -/

namespace QChar

/-- Method `QChar::isSpace`: space, the controls `\t \n \v \f \r`, `U+0085`,
`U+00A0` and the Unicode separators. -/
def isSpace (c : Char) : Bool :=
  let u := c.toNat
  u == 0x20 || (0x09 ≤ u && u ≤ 0x0d) || u == 0x85 || u == 0xa0 || u == 0x1680 ||
    (0x2000 ≤ u && u ≤ 0x200a) || u == 0x2028 || u == 0x2029 || u == 0x202f ||
    u == 0x205f || u == 0x3000

end QChar

namespace QString

/-- Method `QString::trimmed` on the characters of a string. -/
def trimmedChars (s : List Char) : List Char :=
  ((s.dropWhile QChar.isSpace).reverse.dropWhile QChar.isSpace).reverse

/-- Method `QString::trimmed`. -/
def trimmed (s : String) : String := String.mk (trimmedChars s.data)

/-- Position of the first occurrence of a character, counted from `i`. -/
def indexOfFrom (c : Char) : List Char → Int → Int
  | [], _ => -1
  | x :: xs, i => if x = c then i else indexOfFrom c xs (i + 1)

/-- Method `QString::indexOf(QChar)`: `-1` when the character does not occur. -/
def indexOf (s : String) (c : Char) : Int := indexOfFrom c s.data 0

/-- Method `QString::lastIndexOf(QChar)`: `-1` when the character does not occur. -/
def lastIndexOf (s : String) (c : Char) : Int :=
  let i := indexOfFrom c s.data.reverse 0
  if i < 0 then -1 else (s.data.length : Int) - 1 - i

/-- Method `QString::mid(position, n)`, with the clamping of
`QContainerImplHelper::mid`. -/
def mid (s : String) (position n : Int) : String :=
  let len : Int := (s.data.length : Int)
  if position > len then ""
  else if position < 0 then
    if n < 0 ∨ n + position ≥ len then s
    else if n + position ≤ 0 then ""
    else String.mk (s.data.take (n + position).toNat)
  else if n < 0 ∨ n > len - position then String.mk (s.data.drop position.toNat)
  else String.mk ((s.data.drop position.toNat).take n.toNat)

/-- Method `QString::remove(pos, len)`: a negative position counts from the end,
a position outside the string changes nothing, a length that reaches the end
truncates. -/
def remove (s : String) (pos len : Int) : String :=
  let size : Int := (s.data.length : Int)
  let pos := if pos < 0 then pos + size else pos
  if pos < 0 ∨ pos ≥ size then s
  else if len ≥ size - pos then String.mk (s.data.take pos.toNat)
  else if len > 0 then String.mk (s.data.take pos.toNat ++ s.data.drop (pos + len).toNat)
  else s

end QString

/-- The case mappings of the Qt library for the characters outside ASCII, which
the source does not contain: the characters that `QString::toUpper` and
`QString::toLower` put in the place of such a character (one character, or
several, as for `ß`). -/
structure QUnicodeTables where
  upperCase : Char → List Char
  lowerCase : Char → List Char

namespace QString

/-- Method `QString::toUpper`: each character is mapped on its own, the letters
`a`-`z` to `A`-`Z`, the other ASCII characters to themselves, and a character
outside ASCII as the tables of Qt say. -/
def toUpper (t : QUnicodeTables) (s : String) : String :=
  String.mk (s.data.flatMap fun c => if c.toNat < 128 then [c.toUpper] else t.upperCase c)

/-- Method `QString::toLower`: each character is mapped on its own, the letters
`A`-`Z` to `a`-`z`, the other ASCII characters to themselves, and a character
outside ASCII as the tables of Qt say. -/
def toLower (t : QUnicodeTables) (s : String) : String :=
  String.mk (s.data.flatMap fun c => if c.toNat < 128 then [c.toLower] else t.lowerCase c)

end QString

/-! ## `VibesDefaults` -/

namespace VibesDefaults

/-- `VibesDefaults::toPredefinedColorName`: whether the colour was recognised,
and the colour name after the call (the argument is passed by reference). -/
def toPredefinedColorName (t : QUnicodeTables) (color : String) : Bool × String :=
  let colorU := QString.toUpper t color
  let colorL := QString.toLower t color
  if colorL = "none" then (true, "transparent")
  else if colorU = "#0000FF" then (true, "blue")
  else if colorL = "b" then (true, "blue")
  else if colorU = "#00FFFF" then (true, "cyan")
  else if colorL = "c" then (true, "cyan")
  else if colorU = "#00FF00" then (true, "green")
  else if colorL = "g" then (true, "green")
  else if colorU = "#FFFF00" then (true, "yellow")
  else if colorL = "y" then (true, "yellow")
  else if colorU = "#FF0000" then (true, "red")
  else if colorL = "r" then (true, "red")
  else if colorU = "#FF00FF" then (true, "magenta")
  else if colorL = "m" then (true, "magenta")
  else if colorU = "#FFFFFF" then (true, "white")
  else if colorL = "w" then (true, "white")
  else if colorU = "#000000" then (true, "black")
  else if colorL = "k" then (true, "black")
  else if colorU = "#C0C0C0" then (true, "lightGray")
  else if colorU = "#A0A0A4" then (true, "gray")
  else if colorU = "#808080" then (true, "darkGray")
  else if colorU = "#000080" then (true, "darkBlue")
  else if colorU = "#008080" then (true, "darkCyan")
  else if colorU = "#008000" then (true, "darkGreen")
  else if colorU = "#808000" then (true, "darkYellow")
  else if colorU = "#800000" then (true, "darkRed")
  else if colorU = "#800080" then (true, "darkMagenta")
  else (false, color)

end VibesDefaults

/-! ## Graphics items -/

/-- The classes of graphics items, named after the values of the `type()` enum of
`VibesGraphicsItem`. -/
inductive ItemType where
  | VibesGraphicsGroupType
  | VibesGraphicsBoxType
  | VibesGraphicsEllipseType
  | VibesGraphicsPolygonType
  | VibesGraphicsArrowType
  | VibesGraphicsPointType
  | VibesGraphicsPieType
  | VibesGraphicsRingType
  | VibesGraphicsVehicleType
  | VibesGraphicsVehicleAUVType
  | VibesGraphicsVehicleTankType
  | VibesGraphicsVehicleMotorBoatType
  | VibesGraphicsLineType
  | VibesGraphicsBoxesType
  | VibesGraphicsBoxesUnionType
  | VibesGraphicsPointsType
  | VibesGraphicsTextType
  | VibesGraphicsRasterType
  | VibesGraphicsCakeType
  deriving DecidableEq

namespace ItemType

/-- The enum value, counted from `VibesGraphicsItemType = QGraphicsItem::UserType`. -/
def value : ItemType → Int
  | VibesGraphicsGroupType => 1
  | VibesGraphicsBoxType => 2
  | VibesGraphicsEllipseType => 3
  | VibesGraphicsPolygonType => 4
  | VibesGraphicsArrowType => 5
  | VibesGraphicsPointType => 6
  | VibesGraphicsPieType => 7
  | VibesGraphicsRingType => 8
  | VibesGraphicsVehicleType => 9
  | VibesGraphicsVehicleAUVType => 10
  | VibesGraphicsVehicleTankType => 11
  | VibesGraphicsVehicleMotorBoatType => 12
  | VibesGraphicsLineType => 13
  | VibesGraphicsBoxesType => 14
  | VibesGraphicsBoxesUnionType => 15
  | VibesGraphicsPointsType => 16
  | VibesGraphicsTextType => 17
  | VibesGraphicsRasterType => 19
  | VibesGraphicsCakeType => 20

/-- Enum value `VibesGraphicsItemType`, counted from `QGraphicsItem::UserType`. -/
def VibesGraphicsItemType : Int := 0

/-- Enum value `VibesGraphicsLastType`, which ends the types of `VibesGraphicsItem`. -/
def VibesGraphicsLastType : Int := 18

end ItemType

/-- The specialisation of `qgraphicsitem_cast` to `VibesGraphicsItem*`: the cast
succeeds when the type lies between `VibesGraphicsItemType` and
`VibesGraphicsLastType`. -/
def qgraphicsitem_cast (t : ItemType) : Bool :=
  decide (t.value ≥ ItemType.VibesGraphicsItemType) && decide (t.value < ItemType.VibesGraphicsLastType)

/-- Modelled from the spec: the overload `vibesgraphicsitem_cast(QGraphicsItem*)`
that `VibesScene2D` calls is declared outside the sources embedded here. The
scene validates and projects the shapes it creates and re-projects its shapes, so
the overload is taken to be the cast to `VibesGraphicsItem*` of the header. -/
def vibesgraphicsitem_cast (t : ItemType) : Bool := qgraphicsitem_cast t

/-- A `QRectF`, as given to `setRect(x, y, w, h)`. -/
structure QRectF (R : Type) where
  x : R
  y : R
  w : R
  h : R

/-- A `VibesGraphicsItem` together with the `QGraphicsItem` it is.

`type` is the result of `type()`; `visible` is the argument of the last
`setVisible` on the item itself, `true` before any call (the negation of the
bit that Qt names `explicitlyHidden`): it says whether an item without a parent
is visible, and `isVisible` gives the visibility of a member of a group;
`rect` is the rectangle of a `VibesGraphicsBox`
(a `QGraphicsRectItem`); `graphics` is the graphics state of the classes whose
methods are kept abstract (`SubclassMethods`); `childItems` are the members of a
`VibesGraphicsGroup`. The owning group (`parentItem()`) is not stored in the item:
the functions that read it take the chain of owners as an argument. -/
structure VibesGraphicsItem (R G : Type) where
  type : ItemType
  _json : QJsonObject R
  _nbDim : Int
  _dimX : Int
  _dimY : Int
  _name : String
  visible : Bool
  rect : QRectF R
  graphics : G
  childItems : List (VibesGraphicsItem R G)

/-- The virtual methods `parseJsonGraphics` and `computeProjection` of the
subclasses other than `VibesGraphicsGroup` and `VibesGraphicsBox`, kept abstract.
In the source these methods read the document they are given, `_nbDim` and the
object's own graphics, and write `_nbDim` (validation only) and the object's own
graphics; they never write `_json`, `_dimX`, `_dimY` or the name. `init` is the
graphics state of a newly constructed object. `unicode` holds the case tables of
the Qt library, which `parseJson` reaches through `toPredefinedColorName`. -/
structure SubclassMethods (R G : Type) where
  unicode : QUnicodeTables
  init : ItemType → G
  parseJsonGraphics : ItemType → QJsonObject R → Int → G → Bool × Int × G
  computeProjection : ItemType → QJsonObject R → Int → Int → Int → G → Bool × G

namespace VibesGraphicsItem

variable {R G : Type}

/-- The constructor `VibesGraphicsItem::VibesGraphicsItem`, for an object of class
`t`: empty document, `_nbDim = 0`, `_dimX = _dimY = -1`. -/
def new [Zero R] (V : SubclassMethods R G) (t : ItemType) : VibesGraphicsItem R G :=
  { type := t, _json := [], _nbDim := 0, _dimX := -1, _dimY := -1, _name := "",
    visible := true, rect := ⟨0, 0, 0, 0⟩, graphics := V.init t, childItems := [] }

/-- Accessor `json()`. -/
def json (self : VibesGraphicsItem R G) : QJsonObject R := self._json

/-- Accessor `name()`. -/
def name (self : VibesGraphicsItem R G) : String := self._name

/-- Method `setName`: the name registry of the scene is not modelled. -/
def setName (self : VibesGraphicsItem R G) (name : String) : VibesGraphicsItem R G :=
  if name ≠ self.name then { self with _name := name } else self

/-- Virtual `hasDim`, which no subclass overrides. -/
def hasDim (self : VibesGraphicsItem R G) (n : Int) : Bool :=
  decide (n ≥ 0) && decide (n < self._nbDim)

/-- Virtual `maxDim`, which no subclass overrides. -/
def maxDim (self : VibesGraphicsItem R G) : Int := self._nbDim

/-- Method `existsInProj`. -/
def existsInProj (self : VibesGraphicsItem R G) (dimX dimY : Int) : Bool :=
  self.hasDim dimX && self.hasDim dimY

/-- Method `dimension`. -/
def dimension (self : VibesGraphicsItem R G) : Int := self.maxDim

/-- Virtual `propertyIsReadOnly`; no class uses `VIBES_READ_ONLY_PROPERTIES`. -/
def propertyIsReadOnly (_self : VibesGraphicsItem R G) (key : String) : Bool :=
  if key = "type" then true else false

/-- The keys listed by `VIBES_GEOMETRY_CHANGING_PROPERTIES` in each class. -/
def geometryChangingProperties : ItemType → List String
  | .VibesGraphicsGroupType => []
  | .VibesGraphicsBoxType => ["bounds"]
  | .VibesGraphicsBoxesType => ["bounds"]
  | .VibesGraphicsBoxesUnionType => ["bounds"]
  | .VibesGraphicsEllipseType => ["center", "axis", "orientation", "covariance", "sigma"]
  | .VibesGraphicsLineType => ["points"]
  | .VibesGraphicsPolygonType => ["bounds"]
  | .VibesGraphicsTextType => ["position", "text"]
  | .VibesGraphicsVehicleType => ["center", "length", "orientation"]
  | .VibesGraphicsVehicleAUVType => ["center", "length", "orientation"]
  | .VibesGraphicsVehicleTankType => ["center", "length", "orientation"]
  | .VibesGraphicsVehicleMotorBoatType => ["center", "length", "orientation"]
  | .VibesGraphicsArrowType => ["points", "tip_length"]
  | .VibesGraphicsPieType => ["center", "rho", "theta"]
  | .VibesGraphicsPointType => ["point"]
  | .VibesGraphicsPointsType => ["centers"]
  | .VibesGraphicsRingType => ["center", "rho"]
  | .VibesGraphicsRasterType => ["x", "y"]
  | .VibesGraphicsCakeType => ["center", "length", "orientation"]

/-- Virtual `propertyChangesGeometry`. -/
def propertyChangesGeometry (self : VibesGraphicsItem R G) (key : String) : Bool :=
  if (geometryChangingProperties self.type).contains key then true else false

/-- The chain of owners of an item: its `parentItem()`, then the `parentItem()` of
that one, and so on. -/
abbrev ParentChain (R G : Type) := List (VibesGraphicsItem R G)

/-- `VibesGraphicsItem::jsonValue`. The `qgraphicsitem_cast` to
`VibesGraphicsGroup` succeeds when the parent's type is `VibesGraphicsGroupType`. -/
def jsonValue (self : VibesGraphicsItem R G) (owners : ParentChain R G) (key : String) :
    QJsonValue R :=
  if self.json.contains key then self.json.value key
  else
    match owners with
    | [] => QJsonValue.null
    | parentItem :: owners =>
      if parentItem.type = ItemType.VibesGraphicsGroupType then
        jsonValue parentItem owners key
      else QJsonValue.null

/-- `QGraphicsItem::isVisible` for an item whose owners, from its `parentItem()`
outwards, are `owners`. Qt hides the children of an item that is hidden and does
not show a child whose parent is hidden: the item is visible when the last
`setVisible` on it, and on each of its owners, had the argument `true`. -/
def isVisible (self : VibesGraphicsItem R G) (owners : ParentChain R G) : Bool :=
  self.visible && owners.all fun owner => owner.visible

end VibesGraphicsItem

/-! ### Boxes -/

namespace VibesGraphicsBox

variable {R G : Type}

/-- `VibesGraphicsBox::parseJsonGraphics`: the result, and the object after the call. -/
def parseJsonGraphics (self : VibesGraphicsItem R G) (json : QJsonObject R) :
    Bool × VibesGraphicsItem R G :=
  if json.contains "type" then
    let type := (json.value "type").toString
    if type = "box" then
      let bounds := (json.value "bounds").toArray
      if bounds.size < 4 ∨ bounds.size % 2 ≠ 0 then (false, self)
      else (true, { self with _nbDim := bounds.size / 2 })
    else (false, self)
  else (false, self)

/-- The conditions under `Q_ASSERT` in `VibesGraphicsBox::computeProjection`. -/
def computeProjectionAsserts (self : VibesGraphicsItem R G) (dimX dimY : Int) : Bool :=
  let json := self._json
  let bounds := (json.value "bounds").toArray
  json.contains "type" && decide ((json.value "type").toString = "box") &&
    decide (self._nbDim = bounds.size / 2) &&
    decide (bounds.size ≥ 2 * (max dimX dimY + 1))

/-- `VibesGraphicsBox::computeProjection`: the result, and the object after the call. -/
def computeProjection [Zero R] [Sub R] (self : VibesGraphicsItem R G) (dimX dimY : Int) :
    Bool × VibesGraphicsItem R G :=
  let json := self._json
  let bounds := (json.value "bounds").toArray
  let lb_x := (bounds.at_ (2 * dimX)).toDouble
  let ub_x := (bounds.at_ (2 * dimX + 1)).toDouble
  let lb_y := (bounds.at_ (2 * dimY)).toDouble
  let ub_y := (bounds.at_ (2 * dimY + 1)).toDouble
  (true, { self with rect := ⟨lb_x, lb_y, ub_x - lb_x, ub_y - lb_y⟩ })

end VibesGraphicsBox

/-! ### The base class -/

namespace VibesGraphicsItem

variable {R G : Type} [Zero R] [Sub R]

/-- Virtual `computeProjection`, dispatched on the class of the object. -/
def computeProjection (V : SubclassMethods R G) (self : VibesGraphicsItem R G)
    (dimX dimY : Int) : Bool × VibesGraphicsItem R G :=
  match self.type with
  | .VibesGraphicsGroupType => (true, self)
  | .VibesGraphicsBoxType => VibesGraphicsBox.computeProjection self dimX dimY
  | t =>
    let r := V.computeProjection t self._json self._nbDim dimX dimY self.graphics
    (r.1, { self with graphics := r.2 })

/-- `VibesGraphicsItem::setProj`. -/
def setProj (V : SubclassMethods R G) (self : VibesGraphicsItem R G) (dimX dimY : Int) :
    Bool × VibesGraphicsItem R G :=
  let self := { self with _dimX := dimX, _dimY := dimY }
  if self.existsInProj self._dimX self._dimY then
    computeProjection V self self._dimX self._dimY
  else (false, self)

/-- Method `updateProj`. -/
def updateProj (V : SubclassMethods R G) (self : VibesGraphicsItem R G) :
    Bool × VibesGraphicsItem R G :=
  setProj V self self._dimX self._dimY

/-- The processing of the "format" string at the start of
`VibesGraphicsItem::parseJson`, on the document passed by reference. -/
def parseFormat (json : QJsonObject R) : QJsonObject R :=
  if json.contains "format" && (json.value "format").isString then
    let format := (json.value "format").toString
    let format := QString.trimmed format
    let fcStart := QString.indexOf format '['
    let fcEnd := QString.lastIndexOf format ']'
    let extracted : QJsonObject R × String :=
      if fcStart < fcEnd then
        (json.insert "FaceColor"
            (QJsonValue.string (QString.trimmed (QString.mid format (fcStart + 1) (fcEnd - fcStart - 1)))),
          QString.remove format fcStart (fcEnd - fcStart + 1))
      else (json, format)
    let json := extracted.1
    let format := QString.trimmed extracted.2
    let json := if format ≠ "" then json.insert "EdgeColor" (QJsonValue.string format) else json
    json.remove "format"
  else json

/-- The renaming of one colour key of a group's document in
`VibesGraphicsItem::parseJson`. -/
def predefinedColor (t : QUnicodeTables) (json : QJsonObject R) (key : String) :
    QJsonObject R :=
  if json.contains key then
    let color := VibesDefaults.toPredefinedColorName t (json.value key).toString
    if color.1 then json.insert key (QJsonValue.string color.2) else json
  else json

/-- The renaming of the colours of a group's document in
`VibesGraphicsItem::parseJson`. -/
def parseGroupColors (t : QUnicodeTables) (self : VibesGraphicsItem R G) (json : QJsonObject R) :
    QJsonObject R :=
  if self.type = ItemType.VibesGraphicsGroupType then
    predefinedColor t (predefinedColor t json "FaceColor") "EdgeColor"
  else json

/-- The processing of the object name in `VibesGraphicsItem::parseJson`. -/
def parseName (self : VibesGraphicsItem R G) (json : QJsonObject R) : VibesGraphicsItem R G :=
  if json.contains "name" && (json.value "name").isString then
    self.setName (json.value "name").toString
  else self

/-- `VibesGraphicsItem::setJsonValue` from `setJsonValues`: the key-value pair is
wrapped in a `QJsonObject`. -/
def setJsonValueWith (setJsonValues : VibesGraphicsItem R G → QJsonObject R → VibesGraphicsItem R G)
    (self : VibesGraphicsItem R G) (key : String) (value : QJsonValue R) : VibesGraphicsItem R G :=
  let jsonObject : QJsonObject R := QJsonObject.insert [] key value
  setJsonValues self jsonObject

end VibesGraphicsItem

namespace VibesGraphicsGroup

variable {R G : Type} [Zero R] [Sub R]

/-- The body of the loop of `VibesGraphicsGroup::parseJsonGraphics`, on one child;
`setJsonValues` is `VibesGraphicsItem::setJsonValues` as run on a child. -/
def parseJsonGraphicsChild (V : SubclassMethods R G)
    (setJsonValues : VibesGraphicsItem R G → QJsonObject R → VibesGraphicsItem R G)
    (json : QJsonObject R) (child : VibesGraphicsItem R G) : VibesGraphicsItem R G :=
  if qgraphicsitem_cast child.type then
    let item := child
    let item := if (json.value "EdgeColor").toString ≠ "" then
      VibesGraphicsItem.setJsonValueWith setJsonValues item "EdgeColor" (json.value "EdgeColor") else item
    let item := if (json.value "FaceColor").toString ≠ "" then
      VibesGraphicsItem.setJsonValueWith setJsonValues item "FaceColor" (json.value "FaceColor") else item
    let item := if (json.value "LineStyle").toString ≠ "" then
      VibesGraphicsItem.setJsonValueWith setJsonValues item "LineStyle" (json.value "LineStyle") else item
    let item := if (json.value "LineWidth").toString ≠ "" then
      VibesGraphicsItem.setJsonValueWith setJsonValues item "LineWidth" (json.value "LineWidth") else item
    (VibesGraphicsItem.updateProj V item).2
  else child

/-- `VibesGraphicsGroup::parseJsonGraphics`. -/
def parseJsonGraphics (V : SubclassMethods R G)
    (setJsonValues : VibesGraphicsItem R G → QJsonObject R → VibesGraphicsItem R G)
    (self : VibesGraphicsItem R G) (json : QJsonObject R) : Bool × VibesGraphicsItem R G :=
  (true, { self with childItems := self.childItems.map (parseJsonGraphicsChild V setJsonValues json) })

end VibesGraphicsGroup

namespace VibesGraphicsItem

variable {R G : Type} [Zero R] [Sub R]

/-- Virtual `parseJsonGraphics`, dispatched on the class of the object. -/
def parseJsonGraphicsWith (V : SubclassMethods R G)
    (setJsonValues : VibesGraphicsItem R G → QJsonObject R → VibesGraphicsItem R G)
    (self : VibesGraphicsItem R G) (json : QJsonObject R) : Bool × VibesGraphicsItem R G :=
  match self.type with
  | .VibesGraphicsGroupType => VibesGraphicsGroup.parseJsonGraphics V setJsonValues self json
  | .VibesGraphicsBoxType => VibesGraphicsBox.parseJsonGraphics self json
  | t =>
    let r := V.parseJsonGraphics t json self._nbDim self.graphics
    (r.1, { self with _nbDim := r.2.1, graphics := r.2.2 })

/-- `VibesGraphicsItem::parseJson`: the result, the document after the call (it is
passed by reference) and the object after the call. -/
def parseJsonWith (V : SubclassMethods R G)
    (setJsonValues : VibesGraphicsItem R G → QJsonObject R → VibesGraphicsItem R G)
    (self : VibesGraphicsItem R G) (json : QJsonObject R) :
    Bool × QJsonObject R × VibesGraphicsItem R G :=
  let json := parseFormat json
  let json := parseGroupColors V.unicode self json
  let self := parseName self json
  let r := parseJsonGraphicsWith V setJsonValues self json
  (r.1, json, r.2)

/-- The loop of `VibesGraphicsItem::setJsonValues` over the properties to set: the
document, and whether a projection is needed. -/
def setJsonValuesLoop (self : VibesGraphicsItem R G) :
    QJsonObject R → QJsonObject R × Bool → QJsonObject R × Bool
  | [], acc => acc
  | (key, value) :: values, acc =>
    if self.propertyIsReadOnly key then setJsonValuesLoop self values acc
    else
      setJsonValuesLoop self values
        (acc.1.insert key value, if self.propertyChangesGeometry key then true else acc.2)

/-- `VibesGraphicsItem::setJsonValues`, given the same method for the members of a
group. -/
def setJsonValuesWith (V : SubclassMethods R G)
    (setJsonValues : VibesGraphicsItem R G → QJsonObject R → VibesGraphicsItem R G)
    (self : VibesGraphicsItem R G) (values : QJsonObject R) : VibesGraphicsItem R G :=
  let loop := setJsonValuesLoop self values (self._json, false)
  let bNeedProjection := loop.2
  let self := { self with _json := loop.1 }
  -- parseJson(_json): the stored document itself is passed by reference
  let parsed := parseJsonWith V setJsonValues self self._json
  let self := { parsed.2.2 with _json := parsed.2.1 }
  let self := if bNeedProjection then (computeProjection V self self._dimX self._dimY).2 else self
  if self.type ≠ ItemType.VibesGraphicsGroupType then (updateProj V self).2 else self

/-- `VibesGraphicsItem::setJsonValues` with groups nested at most `n` deep below
the object. -/
def setJsonValuesDepth (V : SubclassMethods R G) :
    Nat → VibesGraphicsItem R G → QJsonObject R → VibesGraphicsItem R G
  | 0 => setJsonValuesWith V (fun child _ => child)
  | n + 1 => setJsonValuesWith V (setJsonValuesDepth V n)

end VibesGraphicsItem

namespace VibesGraphicsItem

variable {R G : Type}

mutual
/-- How deep groups are nested below an item: `0` for an item without members. -/
def depth : VibesGraphicsItem R G → Nat
  | ⟨_, _, _, _, _, _, _, _, _, childItems⟩ => depthList childItems
/-- One more than the largest `depth` in a list of members, `0` for no member. -/
def depthList : List (VibesGraphicsItem R G) → Nat
  | [] => 0
  | child :: childItems => max (depth child + 1) (depthList childItems)
end

variable [Zero R] [Sub R]

/-- `VibesGraphicsItem::setJsonValues`. -/
def setJsonValues (V : SubclassMethods R G) (self : VibesGraphicsItem R G)
    (values : QJsonObject R) : VibesGraphicsItem R G :=
  setJsonValuesDepth V self.depth self values

/-- `VibesGraphicsItem::setJsonValue`. -/
def setJsonValue (V : SubclassMethods R G) (self : VibesGraphicsItem R G) (key : String)
    (value : QJsonValue R) : VibesGraphicsItem R G :=
  setJsonValueWith (setJsonValues V) self key value

/-- `VibesGraphicsItem::parseJson`. -/
def parseJson (V : SubclassMethods R G) (self : VibesGraphicsItem R G) (json : QJsonObject R) :
    Bool × QJsonObject R × VibesGraphicsItem R G :=
  parseJsonWith V (setJsonValues V) self json

/-- `VibesGraphicsItem::setJson(json, dimX, dimY)`: the result, and the object
after the call. -/
def setJson (V : SubclassMethods R G) (self : VibesGraphicsItem R G) (json : QJsonObject R)
    (dimX dimY : Int) : Bool × VibesGraphicsItem R G :=
  let parsed := parseJson V self json
  if !parsed.1 then (false, parsed.2.2)
  else
    let self := { parsed.2.2 with _json := parsed.2.1 }
    (true, (setProj V self dimX dimY).2)

end VibesGraphicsItem

namespace VibesGraphicsGroup

variable {R G : Type} [Zero R] [Sub R]

/-- `VibesGraphicsGroup::addToGroup` for a non-null item; `scene` is the axis pair
of the scene the group is on, if it is on one. The item added is the last member. -/
def addToGroup (V : SubclassMethods R G) (self item : VibesGraphicsItem R G)
    (scene : Option (Int × Int)) : VibesGraphicsItem R G :=
  let _nbDim := max self._nbDim item.dimension
  let item :=
    match scene with
    | some (dimX, dimY) => (VibesGraphicsItem.setProj V item dimX dimY).2
    | none => item
  { self with _nbDim := _nbDim, childItems := self.childItems ++ [item] }

end VibesGraphicsGroup

/-! ## The scene -/

/-- The signals of `VibesScene2D`. -/
inductive Signal where
  | changedDimX (dimX : Int)
  | changedDimY (dimY : Int)
  deriving DecidableEq

/-- The state of a `VibesScene2D`: the axis pair, the number of dimensions and the
items of the scene. -/
structure VibesScene2D (R G : Type) where
  _dimX : Int
  _dimY : Int
  _nbDim : Int
  items : List (VibesGraphicsItem R G)

/-- What a call of `setDimX`, `setDimY` or `setDims` produces: the value
returned, the signals emitted in order, and the scene after the call. -/
structure DimChange (R G : Type) where
  result : Bool
  emitted : List Signal
  scene : VibesScene2D R G

namespace VibesScene2D

variable {R G : Type}

/-- The constructor `VibesScene2D::VibesScene2D`. -/
def new : VibesScene2D R G := { _dimX := 0, _dimY := 1, _nbDim := 2, items := [] }

/-- Accessor `dimX()`. -/
def dimX (self : VibesScene2D R G) : Int := self._dimX

/-- Accessor `dimY()`. -/
def dimY (self : VibesScene2D R G) : Int := self._dimY

/-- Accessor `nbDim()`. -/
def nbDim (self : VibesScene2D R G) : Int := self._nbDim

variable [Zero R] [Sub R]

mutual
/-- The body of the loop of `VibesScene2D::updateDims` on one item of `items()`,
which lists the members of the groups as well. The call of `setVisible` is
recorded in the field `visible` of the item on which it is made; whether a member
of a group is then visible also depends on the group (`isVisible`). -/
def updateDimsItem (V : SubclassMethods R G) (dimX dimY : Int) :
    VibesGraphicsItem R G → VibesGraphicsItem R G
  | ⟨type, json, nbDim, dX, dY, name, visible, rect, graphics, childItems⟩ =>
    let item : VibesGraphicsItem R G :=
      ⟨type, json, nbDim, dX, dY, name, visible, rect, graphics,
        updateDimsItems V dimX dimY childItems⟩
    if vibesgraphicsitem_cast item.type then
      let r := VibesGraphicsItem.setProj V item dimX dimY
      if r.1 then { r.2 with visible := true } else { r.2 with visible := false }
    else item
/-- The loop of `VibesScene2D::updateDims`. -/
def updateDimsItems (V : SubclassMethods R G) (dimX dimY : Int) :
    List (VibesGraphicsItem R G) → List (VibesGraphicsItem R G)
  | [] => []
  | item :: items => updateDimsItem V dimX dimY item :: updateDimsItems V dimX dimY items
end

/-- `VibesScene2D::updateDims`. -/
def updateDims (V : SubclassMethods R G) (self : VibesScene2D R G) : VibesScene2D R G :=
  { self with items := updateDimsItems V self.dimX self.dimY self.items }

/-- `VibesScene2D::addJsonShapeItem`: the item returned (`none` for a null
pointer), and the scene after the call. -/
def addJsonShapeItem (V : SubclassMethods R G) (self : VibesScene2D R G) (shape : QJsonObject R) :
    Option (VibesGraphicsItem R G) × VibesScene2D R G :=
  let item : Option (VibesGraphicsItem R G) :=
    if shape.contains "type" then
      let type := (shape.value "type").toString
      if type = "box" then some (VibesGraphicsItem.new V ItemType.VibesGraphicsBoxType)
      else if type = "ellipse" then some (VibesGraphicsItem.new V ItemType.VibesGraphicsEllipseType)
      else if type = "point" then none
      else if type = "points" then none
      else none
    else none
  match item with
  | some vibesItem =>
    if vibesgraphicsitem_cast vibesItem.type then
      let r := vibesItem.setJson V shape self.dimX self.dimY
      if !r.1 then (none, self)
      else
        let self := { self with _nbDim := max self._nbDim r.2.dimension }
        (some r.2, { self with items := self.items ++ [r.2] })
    else (some vibesItem, { self with items := self.items ++ [vibesItem] })
  | none => (none, self)

/-- `VibesScene2D::setDimX`. -/
def setDimX (V : SubclassMethods R G) (self : VibesScene2D R G) (dimX : Int) : DimChange R G :=
  if dimX ≥ 0 ∧ dimX < self.nbDim ∧ dimX ≠ self.dimX ∧ dimX ≠ self.dimY then
    let self := { self with _dimX := dimX }
    { result := true, emitted := [Signal.changedDimX dimX], scene := updateDims V self }
  else
    { result := false,
      emitted := if dimX ≠ self.dimX then [Signal.changedDimX self.dimX] else [],
      scene := self }

/-- `VibesScene2D::setDimY`. -/
def setDimY (V : SubclassMethods R G) (self : VibesScene2D R G) (dimY : Int) : DimChange R G :=
  if dimY ≥ 0 ∧ dimY < self.nbDim ∧ dimY ≠ self.dimY ∧ dimY ≠ self.dimX then
    let self := { self with _dimY := dimY }
    { result := true, emitted := [Signal.changedDimY dimY], scene := updateDims V self }
  else
    { result := false,
      emitted := if dimY ≠ self.dimY then [Signal.changedDimY self.dimY] else [],
      scene := self }

/-- `VibesScene2D::setDims`. -/
def setDims (V : SubclassMethods R G) (self : VibesScene2D R G) (dimX dimY : Int) :
    DimChange R G :=
  if dimX = self.dimX then setDimY V self dimY
  else if dimY = self.dimY then setDimX V self dimX
  else if dimY ≥ 0 ∧ dimY < self.nbDim ∧ dimX ≥ 0 ∧ dimX < self.nbDim ∧ dimX ≠ dimY then
    let self := { self with _dimX := dimX, _dimY := dimY }
    { result := true, emitted := [Signal.changedDimX dimX, Signal.changedDimY dimY],
      scene := updateDims V self }
  else
    { result := false,
      emitted := (if dimX ≠ self.dimX then [Signal.changedDimX self.dimX] else []) ++
        (if dimY ≠ self.dimY then [Signal.changedDimY self.dimY] else []),
      scene := self }

end VibesScene2D

/-! ## The factory and the matrix test -/

/-- Method `QJsonValue::isArray`. -/
def QJsonValue.isArray {R : Type} : QJsonValue R → Bool
  | QJsonValue.array _ => true
  | _ => false

namespace VibesGraphicsItem

variable {R G : Type}

/-- `VibesGraphicsItem::newWithType`: the object constructed for a type name,
`none` for the null pointer. -/
def newWithType [Zero R] (V : SubclassMethods R G) (type : String) :
    Option (VibesGraphicsItem R G) :=
  if type = "group" then some (new V ItemType.VibesGraphicsGroupType)
  else if type = "box" then some (new V ItemType.VibesGraphicsBoxType)
  else if type = "boxes" then some (new V ItemType.VibesGraphicsBoxesType)
  else if type = "boxes union" then some (new V ItemType.VibesGraphicsBoxesUnionType)
  else if type = "ellipse" then some (new V ItemType.VibesGraphicsEllipseType)
  else if type = "pie" then some (new V ItemType.VibesGraphicsPieType)
  else if type = "ring" then some (new V ItemType.VibesGraphicsRingType)
  else if type = "point" then some (new V ItemType.VibesGraphicsPointType)
  else if type = "points" then some (new V ItemType.VibesGraphicsPointsType)
  else if type = "line" then some (new V ItemType.VibesGraphicsLineType)
  else if type = "arrow" then some (new V ItemType.VibesGraphicsArrowType)
  else if type = "polygon" then some (new V ItemType.VibesGraphicsPolygonType)
  else if type = "text" then some (new V ItemType.VibesGraphicsTextType)
  else if type = "vehicle" then some (new V ItemType.VibesGraphicsVehicleType)
  else if type = "vehicle_auv" then some (new V ItemType.VibesGraphicsVehicleAUVType)
  else if type = "vehicle_tank" then some (new V ItemType.VibesGraphicsVehicleTankType)
  else if type = "vehicle_motor_boat" then some (new V ItemType.VibesGraphicsVehicleMotorBoatType)
  else if type = "raster" then some (new V ItemType.VibesGraphicsRasterType)
  else if type = "cake" then some (new V ItemType.VibesGraphicsCakeType)
  else none

/-- The `while` loop of `VibesGraphicsItem::isJsonMatrix` over the lines after the
first one: every line is an array of `nbCols` values. -/
def isJsonMatrixLoop (nbCols : Int) : List (QJsonValue R) → Bool
  | [] => true
  | line :: lines =>
    if !line.isArray then false
    else if QJsonArray.size line.toArray ≠ nbCols then false
    else isJsonMatrixLoop nbCols lines

/-- `VibesGraphicsItem::isJsonMatrix`: the result, `nbRows` and `nbCols`. -/
def isJsonMatrix (value : QJsonValue R) : Bool × Int × Int :=
  if !value.isArray then (false, 0, 0)
  else
    let lines := value.toArray
    let nbRows := QJsonArray.size lines
    match lines with
    | [] => (false, nbRows, 0)
    | line :: rest =>
      if !line.isArray then (false, nbRows, 0)
      else
        let nbCols := QJsonArray.size line.toArray
        if nbCols = 0 then (false, nbRows, nbCols)
        else if isJsonMatrixLoop nbCols rest then (true, nbRows, nbCols)
        else (false, nbRows, nbCols)

end VibesGraphicsItem

/-! ### Ellipses -/

/-- A `QPointF`. -/
structure QPointF (R : Type) where
  x : R
  y : R

/-- The state of a `QGraphicsEllipseItem` that `VibesGraphicsEllipse` sets: the
rectangle, the rotation, the position, and the start and span angles in
sixteenths of a degree. -/
structure QGraphicsEllipseItem (R : Type) where
  rect : QRectF R
  rotation : R
  pos : QPointF R
  startAngle : Int
  spanAngle : Int

/-- The functions on `double` that the ellipse takes from the C library and from
the language, kept abstract: `sqrt`, `atan2`, `pow`, the constant `M_1_PI`, the
conversion `static_cast<int>` and the comparison `==`. -/
structure CMath (R : Type) where
  sqrt : R → R
  atan2 : R → R → R
  pow : R → R → R
  M_1_PI : R
  toInt : R → Int
  eq : R → R → Bool

namespace VibesGraphicsEllipse

variable {R : Type}

/-- A newly constructed `VibesGraphicsEllipse`: a full ellipse with a null
rectangle. The field `graphics` is the `QGraphicsEllipseItem`. -/
def new [Zero R] : VibesGraphicsItem R (QGraphicsEllipseItem R) :=
  { type := ItemType.VibesGraphicsEllipseType, _json := [], _nbDim := 0, _dimX := -1, _dimY := -1,
    _name := "", visible := true, rect := ⟨0, 0, 0, 0⟩,
    graphics := ⟨⟨0, 0, 0, 0⟩, 0, ⟨0, 0⟩, 0, 5760⟩, childItems := [] }

/-- `VibesGraphicsEllipse::parseJsonGraphics`: the result, and the object after the
call. The size of the covariance array is compared with the square of the size
of the center. -/
def parseJsonGraphics (self : VibesGraphicsItem R (QGraphicsEllipseItem R)) (json : QJsonObject R) :
    Bool × VibesGraphicsItem R (QGraphicsEllipseItem R) :=
  if json.contains "type" then
    let type := (json.value "type").toString
    if type = "ellipse" then
      let center := (json.value "center").toArray
      if center.size ≥ 2 then
        if json.contains "axis" && json.contains "orientation" then
          if center.size ≠ 2 then (false, self)
          else if (json.value "axis").toArray.size ≠ 2 then (false, self)
          else (true, { self with _nbDim := center.size })
        else if json.contains "angles" then
          if (json.value "angles").toArray.size ≠ 2 then (false, self)
          else (true, { self with _nbDim := center.size })
        else if json.contains "covariance" then
          let covariance := (json.value "covariance").toArray
          if covariance.size ≠ center.size ^ 2 then (false, self)
          else (true, { self with _nbDim := center.size })
        else (false, self)
      else (false, self)
    else (false, self)
  else (false, self)

variable [Zero R] [Add R] [Sub R] [Mul R] [Div R] [Neg R] [IntCast R]

/-- `VibesGraphicsEllipse::axisAngleFromCovarianceK`: the values given to `wx`,
`wy` and `angle`. -/
def axisAngleFromCovarianceK (m : CMath R) (sxx syy sxy k : R) : R × R × R :=
  let r : R × R × (R × R) × (R × R) :=
    if m.eq sxy 0 then
      -- uncorrelated case
      (sxx, syy, (((1 : Int) : R), 0), (0, ((1 : Int) : R)))
    else
      -- correlated case
      let det := sxx * syy - m.pow sxy ((2 : Int) : R)
      let trace := sxx + syy
      let rightTerm := m.sqrt (m.pow (sxx + syy) ((2 : Int) : R) / ((4 : Int) : R) - det)
      let eval1 := trace / ((2 : Int) : R) + rightTerm
      let eval2 := trace / ((2 : Int) : R) - rightTerm
      (eval1, eval2,
        (((1 : Int) : R), (eval1 - sxy - sxx) / (sxy + syy - eval1)),
        (((1 : Int) : R), (eval2 - sxy - sxx) / (sxy + syy - eval2)))
  let eval1 := r.1
  let eval2 := r.2.1
  let evect1 := r.2.2.1
  let evect2 := r.2.2.2
  let angle :=
    if !(m.eq evect1.1 evect1.1) || !(m.eq evect1.2 evect1.2) then
      m.atan2 evect2.2 evect2.1 * ((180 : Int) : R) * m.M_1_PI - ((90 : Int) : R)
    else m.atan2 evect1.2 evect1.1 * ((180 : Int) : R) * m.M_1_PI
  (k * m.sqrt eval1, k * m.sqrt eval2, angle)

/-- The conditions under `Q_ASSERT` in `VibesGraphicsEllipse::computeProjection`:
those before the branches, the one on the axes in the axis and orientation
branch, the one on the size of the covariance array in the covariance branch. -/
def computeProjectionAsserts (self : VibesGraphicsItem R (QGraphicsEllipseItem R))
    (dimX dimY : Int) : Bool :=
  let json := self._json
  let center := (json.value "center").toArray
  json.contains "type" && decide ((json.value "type").toString = "ellipse") &&
    decide (center.size ≥ 2) && decide (self._nbDim = center.size) &&
    decide (center.size ≥ max dimX dimY + 1) &&
    ((json.contains "axis" && json.contains "orientation") || json.contains "covariance") &&
    (if json.contains "axis" && json.contains "orientation" then
      decide ((dimX = 0 ∧ dimY = 1) ∨ (dimX = 1 ∧ dimY = 0))
    else if json.contains "covariance" then
      decide ((json.value "covariance").toArray.size = center.size * center.size)
    else true)

/-- `VibesGraphicsEllipse::computeProjection`: the result, and the object after the
call. -/
def computeProjection (m : CMath R) (self : VibesGraphicsItem R (QGraphicsEllipseItem R))
    (dimX dimY : Int) : Bool × VibesGraphicsItem R (QGraphicsEllipseItem R) :=
  let json := self._json
  let center := (json.value "center").toArray
  let x := (center.at_ dimX).toDouble
  let y := (center.at_ dimY).toDouble
  let angle_min : Int := 0
  let angle_max : Int := 5760
  let axes : Option (R × R × R) :=
    if json.contains "axis" && json.contains "orientation" then
      let axis := (json.value "axis").toArray
      let wx := (axis.at_ 0).toDouble
      let wy := (axis.at_ 1).toDouble
      if dimX = 0 ∧ dimY = 1 then some (wx, wy, (json.value "orientation").toDouble)
      else if dimX = 1 ∧ dimY = 0 then
        some (wx, wy, ((90 : Int) : R) - (json.value "orientation").toDouble)
      else none
    else if json.contains "covariance" then
      let k := if json.contains "sigma" then (json.value "sigma").toDouble else ((5 : Int) : R)
      let covariance := (json.value "covariance").toArray
      let sxx := (covariance.at_ (dimX + center.size * dimX)).toDouble
      let sxy := (covariance.at_ (dimX + center.size * dimY)).toDouble
      let syy := (covariance.at_ (dimY + center.size * dimY)).toDouble
      some (axisAngleFromCovarianceK m sxx syy sxy k)
    else none
  match axes with
  | none => (false, self)
  | some (wx, wy, angle) =>
    let angles : Int × Int :=
      if json.contains "angles" then
        let bounds := (json.value "angles").toArray
        (m.toInt ((bounds.at_ 0).toDouble * ((16 : Int) : R)),
          m.toInt ((bounds.at_ 1).toDouble * ((16 : Int) : R)))
      else (angle_min, angle_max)
    (true, { self with graphics :=
      { rect := ⟨-wx, -wy, ((2 : Int) : R) * wx, ((2 : Int) : R) * wy⟩
        rotation := angle
        pos := ⟨x, y⟩
        startAngle := angles.1
        spanAngle := angles.2 - angles.1 } })

end VibesGraphicsEllipse

/-! ### Lines -/

/-- A `QPolygonF`: its points in order. -/
abbrev QPolygonF (R : Type) := List (QPointF R)

/-- A `QPainterPath`, as the list of its subpaths. -/
abbrev QPainterPath (R : Type) := List (QPolygonF R)

/-- Method `QPainterPath::addPolygon`: the polygon is added as one open subpath;
an empty polygon adds nothing. -/
def QPainterPath.addPolygon {R : Type} (path : QPainterPath R) (polygon : QPolygonF R) :
    QPainterPath R :=
  if polygon.isEmpty then path else path ++ [polygon]

namespace VibesGraphicsLine

variable {R : Type}

/-- A newly constructed `VibesGraphicsLine`, with an empty path. The field
`graphics` is the path of the `QGraphicsPathItem`. -/
def new [Zero R] : VibesGraphicsItem R (QPainterPath R) :=
  { type := ItemType.VibesGraphicsLineType, _json := [], _nbDim := 0, _dimX := -1, _dimY := -1,
    _name := "", visible := true, rect := ⟨0, 0, 0, 0⟩, graphics := [], childItems := [] }

/-- `VibesGraphicsLine::parseJsonGraphics`: the result, and the object after the call. -/
def parseJsonGraphics (self : VibesGraphicsItem R (QPainterPath R)) (json : QJsonObject R) :
    Bool × VibesGraphicsItem R (QPainterPath R) :=
  if json.contains "type" then
    let type := (json.value "type").toString
    if type = "line" then
      let m := VibesGraphicsItem.isJsonMatrix (json.value "points")
      let nbCols := m.2.2
      if !m.1 then (false, self)
      else if nbCols < 2 then (false, self)
      else (true, { self with _nbDim := nbCols })
    else (false, self)
  else (false, self)

/-- `VibesGraphicsLine::computeProjection`: the result, and the object after the
call. -/
def computeProjection [Zero R] (self : VibesGraphicsItem R (QPainterPath R)) (dimX dimY : Int) :
    Bool × VibesGraphicsItem R (QPainterPath R) :=
  let json := self._json
  let polygon : QPolygonF R :=
    (json.value "points").toArray.map fun value =>
      let coords := value.toArray
      ⟨(coords.at_ dimX).toDouble, (coords.at_ dimY).toDouble⟩
  let path : QPainterPath R := QPainterPath.addPolygon [] polygon
  (true, { self with graphics := path })

end VibesGraphicsLine

/-! ### Polygons -/

namespace VibesGraphicsPolygon

variable {R : Type}

/-- A newly constructed `VibesGraphicsPolygon`, with an empty polygon. The field
`graphics` is the polygon of the `QGraphicsPolygonItem`, which is drawn closed. -/
def new [Zero R] : VibesGraphicsItem R (QPolygonF R) :=
  { type := ItemType.VibesGraphicsPolygonType, _json := [], _nbDim := 0, _dimX := -1, _dimY := -1,
    _name := "", visible := true, rect := ⟨0, 0, 0, 0⟩, graphics := [], childItems := [] }

/-- `VibesGraphicsPolygon::parseJsonGraphics`: the result, and the object after the
call. The matrix is read from the key "bounds". -/
def parseJsonGraphics (self : VibesGraphicsItem R (QPolygonF R)) (json : QJsonObject R) :
    Bool × VibesGraphicsItem R (QPolygonF R) :=
  if json.contains "type" then
    let type := (json.value "type").toString
    if type = "polygon" then
      let m := VibesGraphicsItem.isJsonMatrix (json.value "bounds")
      let nbCols := m.2.2
      if !m.1 then (false, self)
      else if nbCols < 2 then (false, self)
      else (true, { self with _nbDim := nbCols })
    else (false, self)
  else (false, self)

/-- `VibesGraphicsPolygon::computeProjection`: the result, and the object after the
call. -/
def computeProjection [Zero R] (self : VibesGraphicsItem R (QPolygonF R)) (dimX dimY : Int) :
    Bool × VibesGraphicsItem R (QPolygonF R) :=
  let json := self._json
  let polygon : QPolygonF R :=
    (json.value "bounds").toArray.map fun value =>
      let coords := value.toArray
      ⟨(coords.at_ dimX).toDouble, (coords.at_ dimY).toDouble⟩
  (true, { self with graphics := polygon })

end VibesGraphicsPolygon

/-! ### Sets of boxes -/

namespace VibesGraphicsBoxes

variable {R : Type}

/-- A newly constructed `VibesGraphicsBoxes`, a `QGraphicsItemGroup` without
children. The field `graphics` is the list of the rectangles of its children, all
of them `QGraphicsRectItem`s, in the order in which they were added. -/
def new [Zero R] : VibesGraphicsItem R (List (QRectF R)) :=
  { type := ItemType.VibesGraphicsBoxesType, _json := [], _nbDim := 0, _dimX := -1, _dimY := -1,
    _name := "", visible := true, rect := ⟨0, 0, 0, 0⟩, graphics := [], childItems := [] }

/-- `VibesGraphicsBoxes::parseJsonGraphics`: the result, and the object after the
call. The loop over the children only sets pens and brushes. -/
def parseJsonGraphics (self : VibesGraphicsItem R (List (QRectF R))) (json : QJsonObject R) :
    Bool × VibesGraphicsItem R (List (QRectF R)) :=
  if json.contains "type" then
    let type := (json.value "type").toString
    if type = "boxes" then
      let m := VibesGraphicsItem.isJsonMatrix (json.value "bounds")
      let nbCols := m.2.2
      if !m.1 then (false, self)
      else if nbCols % 2 ≠ 0 then (false, self)
      else if nbCols < 4 then (false, self)
      else (true, { self with _nbDim := nbCols / 2 })
    else (false, self)
  else (false, self)

/-- The body of the loop of `VibesGraphicsBoxes::computeProjection`: the rectangle
of the `QGraphicsRectItem` created for one line of "bounds". -/
def projectedRect [Zero R] [Sub R] (dimX dimY : Int) (value : QJsonValue R) : QRectF R :=
  let box := value.toArray
  let lb_x := (box.at_ (2 * dimX)).toDouble
  let ub_x := (box.at_ (2 * dimX + 1)).toDouble
  let lb_y := (box.at_ (2 * dimY)).toDouble
  let ub_y := (box.at_ (2 * dimY + 1)).toDouble
  ⟨lb_x, lb_y, ub_x - lb_x, ub_y - lb_y⟩

/-- The loop of `VibesGraphicsBoxes::computeProjection` over the lines of
"bounds": each rectangle is added to the group after the children it has. -/
def computeProjectionLoop [Zero R] [Sub R] (dimX dimY : Int) :
    List (QJsonValue R) → List (QRectF R) → List (QRectF R)
  | [], rects => rects
  | value :: values, rects =>
    computeProjectionLoop dimX dimY values (rects ++ [projectedRect dimX dimY value])

/-- `VibesGraphicsBoxes::computeProjection`: the result, and the object after the
call. All the children are deleted before the loop. -/
def computeProjection [Zero R] [Sub R] (self : VibesGraphicsItem R (List (QRectF R)))
    (dimX dimY : Int) : Bool × VibesGraphicsItem R (List (QRectF R)) :=
  let json := self._json
  let rects : List (QRectF R) := []
  (true, { self with graphics :=
    (computeProjectionLoop dimX dimY (json.value "bounds").toArray rects) })

end VibesGraphicsBoxes

namespace VibesGraphicsBoxesUnion

variable {R : Type}

/-- A newly constructed `VibesGraphicsBoxesUnion`, with an empty path. The field
`graphics` is the path of the `QGraphicsPathItem`, as the list of the rectangles
that have been united into it, in order. -/
def new [Zero R] : VibesGraphicsItem R (List (QRectF R)) :=
  { type := ItemType.VibesGraphicsBoxesUnionType, _json := [], _nbDim := 0, _dimX := -1,
    _dimY := -1, _name := "", visible := true, rect := ⟨0, 0, 0, 0⟩, graphics := [],
    childItems := [] }

/-- `VibesGraphicsBoxesUnion::parseJsonGraphics`: the result, and the object after
the call. -/
def parseJsonGraphics (self : VibesGraphicsItem R (List (QRectF R))) (json : QJsonObject R) :
    Bool × VibesGraphicsItem R (List (QRectF R)) :=
  if json.contains "type" then
    let type := (json.value "type").toString
    if type = "boxes union" then
      let m := VibesGraphicsItem.isJsonMatrix (json.value "bounds")
      let nbCols := m.2.2
      if !m.1 then (false, self)
      else if nbCols % 2 ≠ 0 then (false, self)
      else if nbCols < 4 then (false, self)
      else (true, { self with _nbDim := nbCols / 2 })
    else (false, self)
  else (false, self)

/-- The body of the loop of `VibesGraphicsBoxesUnion::computeProjection`: the
rectangle of `rect_path` for one line of "bounds". -/
def projectedRect [Zero R] [Sub R] (dimX dimY : Int) (value : QJsonValue R) : QRectF R :=
  let box := value.toArray
  let lb_x := (box.at_ (2 * dimX)).toDouble
  let ub_x := (box.at_ (2 * dimX + 1)).toDouble
  let lb_y := (box.at_ (2 * dimY)).toDouble
  let ub_y := (box.at_ (2 * dimY + 1)).toDouble
  ⟨lb_x, lb_y, ub_x - lb_x, ub_y - lb_y⟩

/-- The loop of `VibesGraphicsBoxesUnion::computeProjection`: `path |= rect_path`
for each line of "bounds". -/
def computeProjectionLoop [Zero R] [Sub R] (dimX dimY : Int) :
    List (QJsonValue R) → List (QRectF R) → List (QRectF R)
  | [], path => path
  | value :: values, path =>
    computeProjectionLoop dimX dimY values (path ++ [projectedRect dimX dimY value])

/-- `VibesGraphicsBoxesUnion::computeProjection`: the result, and the object after
the call. -/
def computeProjection [Zero R] [Sub R] (self : VibesGraphicsItem R (List (QRectF R)))
    (dimX dimY : Int) : Bool × VibesGraphicsItem R (List (QRectF R)) :=
  let json := self._json
  let path : List (QRectF R) := []
  (true, { self with graphics :=
    (computeProjectionLoop dimX dimY (json.value "bounds").toArray path) })

end VibesGraphicsBoxesUnion

/-! ### Sets of points -/

/-- Method `QJsonValue::isBool`. -/
def QJsonValue.isBool {R : Type} : QJsonValue R → Bool
  | QJsonValue.bool _ => true
  | _ => false

/-- Method `QJsonValue::isDouble`. -/
def QJsonValue.isDouble {R : Type} : QJsonValue R → Bool
  | QJsonValue.double _ => true
  | _ => false

/-- Method `QJsonValue::toBool(defaultValue)`. -/
def QJsonValue.toBoolOr {R : Type} : QJsonValue R → Bool → Bool
  | QJsonValue.bool b, _ => b
  | _, defaultValue => defaultValue

/-- Method `QJsonValue::toDouble(defaultValue)`. -/
def QJsonValue.toDoubleOr {R : Type} : QJsonValue R → R → R
  | QJsonValue.double d, _ => d
  | _, defaultValue => defaultValue

/-- A child of a `VibesGraphicsPoints`, a `QGraphicsEllipseItem`: its rectangle, its
position and its flag `ItemIgnoresTransformations`. -/
structure PointDisk (R : Type) where
  rect : QRectF R
  pos : QPointF R
  ignoresTransformations : Bool

/-- The graphics state of a `VibesGraphicsPoints`, a `QGraphicsItemGroup`: its flag
`ItemIsMovable` and its children, in the order in which they were added. -/
structure PointsGraphics (R : Type) where
  movable : Bool
  disks : List (PointDisk R)

namespace VibesGraphicsPoints

variable {R : Type}

/-- A newly constructed `VibesGraphicsPoints`: not movable, no child. -/
def new [Zero R] : VibesGraphicsItem R (PointsGraphics R) :=
  { type := ItemType.VibesGraphicsPointsType, _json := [], _nbDim := 0, _dimX := -1, _dimY := -1,
    _name := "", visible := true, rect := ⟨0, 0, 0, 0⟩, graphics := ⟨false, []⟩, childItems := [] }

/-- `VibesGraphicsPoints::parseJsonGraphics`: the result, and the object after the
call. `centers[0]` is read whatever the size of `centers`, an undefined value when
there is no center. The loop over the children only sets pens and brushes. -/
def parseJsonGraphics (m : CMath R) [Zero R] (self : VibesGraphicsItem R (PointsGraphics R))
    (json : QJsonObject R) : Bool × VibesGraphicsItem R (PointsGraphics R) :=
  if json.contains "type" then
    let type := (json.value "type").toString
    if type = "points" then
      let centers := (json.value "centers").toArray
      let _nbDim := (centers.at_ 0).toArray.size
      let movable :=
        if json.contains "Draggable" then
          if (json.value "Draggable").isBool then (json.value "Draggable").toBoolOr false
          else if (json.value "Draggable").isDouble then
            decide (m.toInt ((json.value "Draggable").toDoubleOr 0) = 1)
          else self.graphics.movable
        else self.graphics.movable
      (true, { self with _nbDim := _nbDim, graphics := { self.graphics with movable := movable } })
    else (false, self)
  else (false, self)

variable [Zero R] [Neg R] [Mul R] [Div R] [IntCast R]

/-- The literal `0.01`, the radius of a point by default. -/
def defaultRadius : R := ((1 : Int) : R) / ((100 : Int) : R)

/-- The radius that `VibesGraphicsPoints::computeProjection` gives to the point
`i`: `radiuses[i]` when the document has "Radiuses" (an undefined value, read as
`0`, when the array has no such entry), else `radius`. -/
def projectedRadius (json : QJsonObject R) (i : Int) : R :=
  let radius : R := defaultRadius
  let radiusesExist := json.contains "Radiuses"
  let radiuses : QJsonArray R := if radiusesExist then (json.value "Radiuses").toArray else []
  let radius :=
    if !radiusesExist then
      if json.contains "Radius" then (json.value "Radius").toDoubleOr defaultRadius else radius
    else radius
  if radiusesExist then (radiuses.at_ i).toDouble else radius

/-- The body of the loop of `VibesGraphicsPoints::computeProjection`: the disk
created for the center `i`. -/
def projectedDisk (json : QJsonObject R) (dimX dimY : Int) (i : Int) : PointDisk R :=
  let centers := (json.value "centers").toArray
  let point := (centers.at_ i).toArray
  let x := (point.at_ dimX).toDouble
  let y := (point.at_ dimY).toDouble
  let r := projectedRadius json i
  { rect := ⟨-r, -r, ((2 : Int) : R) * r, ((2 : Int) : R) * r⟩
    pos := ⟨x, y⟩
    ignoresTransformations :=
      if json.contains "FixedScale" then (json.value "FixedScale").toBoolOr true else true }

/-- `VibesGraphicsPoints::computeProjection`: the result, and the object after the
call. All the children are deleted, then the loop `for (i = 0; i < centers.size();
i++)` adds one disk per center to the group. -/
def computeProjection (self : VibesGraphicsItem R (PointsGraphics R)) (dimX dimY : Int) :
    Bool × VibesGraphicsItem R (PointsGraphics R) :=
  let json := self._json
  let centers := (json.value "centers").toArray
  let disks : List (PointDisk R) :=
    (List.range centers.length).foldl
      (fun disks (i : Nat) => disks ++ [projectedDisk json dimX dimY (i : Int)]) []
  (true, { self with graphics := { self.graphics with disks := disks } })

end VibesGraphicsPoints

/-! ### Rings, pies and arrows -/

/-- One call that builds a `QPainterPath`. -/
inductive PathCall (R : Type) where
  | moveTo (p : QPointF R)
  | lineTo (p : QPointF R)
  | arcTo (rect : QRectF R) (startAngle sweepLength : R)
  | addEllipse (rect : QRectF R)
  | addPolygon (polygon : QPolygonF R)

/-- A child of a ring, of a pie or of an arrow: a `QGraphicsPathItem` with its path,
as the calls that built it, or a `QGraphicsPolygonItem` with its polygon. -/
inductive ChildPrimitive (R : Type) where
  | path (calls : List (PathCall R))
  | polygon (points : QPolygonF R)

/-- The functions `cos`, `sin` and `atan2` and the constant `M_PI` of the C
library, kept abstract. -/
structure CTrig (R : Type) where
  cos : R → R
  sin : R → R
  atan2 : R → R → R
  M_PI : R

/-- The constructor `QRectF(topLeft, bottomRight)`. -/
def QRectF.ofCorners {R : Type} [Sub R] (topLeft bottomRight : QPointF R) : QRectF R :=
  ⟨topLeft.x, topLeft.y, bottomRight.x - topLeft.x, bottomRight.y - topLeft.y⟩

namespace VibesGraphicsRing

variable {R : Type}

/-- A newly constructed `VibesGraphicsRing`, a `QGraphicsItemGroup` without
children. The field `graphics` is the list of its children. -/
def new [Zero R] : VibesGraphicsItem R (List (ChildPrimitive R)) :=
  { type := ItemType.VibesGraphicsRingType, _json := [], _nbDim := 0, _dimX := -1, _dimY := -1,
    _name := "", visible := true, rect := ⟨0, 0, 0, 0⟩, graphics := [], childItems := [] }

/-- `VibesGraphicsRing::parseJsonGraphics`: the result, and the object after the
call. -/
def parseJsonGraphics (self : VibesGraphicsItem R (List (ChildPrimitive R)))
    (json : QJsonObject R) : Bool × VibesGraphicsItem R (List (ChildPrimitive R)) :=
  if json.contains "type" then
    let type := (json.value "type").toString
    if type = "ring" ∧ json.contains "center" = true ∧ json.contains "rho" = true then
      let center := (json.value "center").toArray
      if center.size ≠ 2 then (false, self)
      else if (json.value "rho").toArray.size ≠ 2 then (false, self)
      else (true, { self with _nbDim := center.size })
    else (false, self)
  else (false, self)

/-- The conditions under `Q_ASSERT` in `VibesGraphicsRing::computeProjection`. -/
def computeProjectionAsserts [Zero R] [LE R] [DecidableRel (fun a b : R => a ≤ b)]
    (self : VibesGraphicsItem R (List (ChildPrimitive R))) : Bool :=
  let json := self._json
  let rho := (json.value "rho").toArray
  json.contains "type" && decide ((json.value "type").toString = "ring") &&
    decide ((rho.at_ 0).toDouble ≥ 0) && decide ((rho.at_ 1).toDouble ≥ (rho.at_ 0).toDouble)

/-- `VibesGraphicsRing::computeProjection`: the result, and the object after the
call. An object that has children only gets their pens and brushes set. -/
def computeProjection [Zero R] [Sub R] [Mul R] [IntCast R]
    (self : VibesGraphicsItem R (List (ChildPrimitive R))) (_dimX _dimY : Int) :
    Bool × VibesGraphicsItem R (List (ChildPrimitive R)) :=
  let json := self._json
  let center := (json.value "center").toArray
  let rho := (json.value "rho").toArray
  if self.graphics.length > 0 then (true, self)
  else
    let cx := (center.at_ 0).toDouble
    let cy := (center.at_ 1).toDouble
    let rho_m := (rho.at_ 0).toDouble
    let rho_p := (rho.at_ 1).toDouble
    let boundingBoxP : QRectF R :=
      ⟨cx - rho_p, cy - rho_p, ((2 : Int) : R) * rho_p, ((2 : Int) : R) * rho_p⟩
    let boundingBoxM : QRectF R :=
      ⟨cx - rho_m, cy - rho_m, ((2 : Int) : R) * rho_m, ((2 : Int) : R) * rho_m⟩
    let path : List (PathCall R) := [PathCall.addEllipse boundingBoxP, PathCall.addEllipse boundingBoxM]
    (true, { self with graphics := self.graphics ++ [ChildPrimitive.path path] })

end VibesGraphicsRing

namespace VibesGraphicsPie

variable {R : Type}

/-- A newly constructed `VibesGraphicsPie`, a `QGraphicsItemGroup` without
children. The field `graphics` is the list of its children. -/
def new [Zero R] : VibesGraphicsItem R (List (ChildPrimitive R)) :=
  { type := ItemType.VibesGraphicsPieType, _json := [], _nbDim := 0, _dimX := -1, _dimY := -1,
    _name := "", visible := true, rect := ⟨0, 0, 0, 0⟩, graphics := [], childItems := [] }

/-- `VibesGraphicsPie::parseJsonGraphics`: the result, and the object after the
call. -/
def parseJsonGraphics (self : VibesGraphicsItem R (List (ChildPrimitive R)))
    (json : QJsonObject R) : Bool × VibesGraphicsItem R (List (ChildPrimitive R)) :=
  if json.contains "type" then
    let type := (json.value "type").toString
    if type = "pie" ∧ json.contains "center" = true then
      let center := (json.value "center").toArray
      if center.size ≠ 2 then (false, self)
      else if json.contains "rho" then
        if (json.value "rho").toArray.size ≠ 2 then (false, self)
        else (true, { self with _nbDim := center.size })
      else if json.contains "theta" then
        if (json.value "theta").toArray.size ≠ 2 then (false, self)
        else (true, { self with _nbDim := center.size })
      else (true, { self with _nbDim := center.size })
    else (false, self)
  else (false, self)

/-- The conditions under `Q_ASSERT` in `VibesGraphicsPie::computeProjection`. -/
def computeProjectionAsserts [Zero R] [LE R] [DecidableRel (fun a b : R => a ≤ b)]
    (self : VibesGraphicsItem R (List (ChildPrimitive R))) : Bool :=
  let json := self._json
  let rho := (json.value "rho").toArray
  json.contains "type" && decide ((json.value "type").toString = "pie") &&
    decide ((rho.at_ 0).toDouble ≥ 0) && decide ((rho.at_ 1).toDouble ≥ (rho.at_ 0).toDouble)

/-- `VibesGraphicsPie::computeProjection`: the result, and the object after the
call. An object that has children only gets their pens and brushes set. -/
def computeProjection [Zero R] [Add R] [Sub R] [Mul R] [Div R] [Neg R] [IntCast R] (t : CTrig R)
    (self : VibesGraphicsItem R (List (ChildPrimitive R))) (_dimX _dimY : Int) :
    Bool × VibesGraphicsItem R (List (ChildPrimitive R)) :=
  let json := self._json
  let center := (json.value "center").toArray
  let rho := (json.value "rho").toArray
  let theta := (json.value "theta").toArray
  if self.graphics.length > 0 then (true, self)
  else
    let cx := (center.at_ 0).toDouble
    let cy := (center.at_ 1).toDouble
    let rho_m := (rho.at_ 0).toDouble
    let rho_p := (rho.at_ 1).toDouble
    let theta_m := -(theta.at_ 0).toDouble
    let theta_p := -(theta.at_ 1).toDouble
    -- angles are in degree and clock-wise
    let m1_x := cx + rho_m * t.cos (-theta_m * t.M_PI / ((180 : Int) : R))
    let m1_y := cy + rho_m * t.sin (-theta_m * t.M_PI / ((180 : Int) : R))
    let m2_x := cx + rho_m * t.cos (-theta_p * t.M_PI / ((180 : Int) : R))
    let m2_y := cy + rho_m * t.sin (-theta_p * t.M_PI / ((180 : Int) : R))
    let m4_x := cx + rho_p * t.cos (-theta_m * t.M_PI / ((180 : Int) : R))
    let m4_y := cy + rho_p * t.sin (-theta_m * t.M_PI / ((180 : Int) : R))
    let dtheta := theta_p - theta_m
    let path : List (PathCall R) :=
      [PathCall.moveTo ⟨m1_x, m1_y⟩,
        PathCall.lineTo ⟨m4_x, m4_y⟩,
        PathCall.arcTo (QRectF.ofCorners ⟨cx - rho_p, cy - rho_p⟩ ⟨cx + rho_p, cy + rho_p⟩)
          theta_m dtheta,
        PathCall.lineTo ⟨m2_x, m2_y⟩,
        PathCall.arcTo (QRectF.ofCorners ⟨cx - rho_m, cy - rho_m⟩ ⟨cx + rho_m, cy + rho_m⟩)
          theta_p (-dtheta)]
    (true, { self with graphics := self.graphics ++ [ChildPrimitive.path path] })

end VibesGraphicsPie

namespace VibesGraphicsArrow

variable {R : Type}

/-- A newly constructed `VibesGraphicsArrow`, a `QGraphicsItemGroup` without
children. The field `graphics` is the list of its children. -/
def new [Zero R] : VibesGraphicsItem R (List (ChildPrimitive R)) :=
  { type := ItemType.VibesGraphicsArrowType, _json := [], _nbDim := 0, _dimX := -1, _dimY := -1,
    _name := "", visible := true, rect := ⟨0, 0, 0, 0⟩, graphics := [], childItems := [] }

/-- `VibesGraphicsArrow::parseJsonGraphics`: the result, and the object after the
call. -/
def parseJsonGraphics [Zero R] [LT R] [DecidableRel (fun a b : R => a < b)]
    (self : VibesGraphicsItem R (List (ChildPrimitive R))) (json : QJsonObject R) :
    Bool × VibesGraphicsItem R (List (ChildPrimitive R)) :=
  if json.contains "type" then
    let type := (json.value "type").toString
    if type = "arrow" then
      let m := VibesGraphicsItem.isJsonMatrix (json.value "points")
      let nbCols := m.2.2
      if !m.1 then (false, self)
      else if (json.value "tip_length").toDouble < 0 then (false, self)
      else if nbCols < 2 then (false, self)
      else (true, { self with _nbDim := nbCols })
    else (false, self)
  else (false, self)

/-- The conditions under `Q_ASSERT` in `VibesGraphicsArrow::computeProjection`. -/
def computeProjectionAsserts [Zero R] [LT R] [DecidableRel (fun a b : R => a < b)]
    (self : VibesGraphicsItem R (List (ChildPrimitive R))) : Bool :=
  let json := self._json
  json.contains "type" && decide ((json.value "type").toString = "arrow") &&
    (VibesGraphicsItem.isJsonMatrix (json.value "points")).1 &&
    decide ((json.value "tip_length").toDouble > 0)

/-- The loop over the points in `VibesGraphicsArrow::computeProjection`:
`before_last_x`, `before_last_y`, `last_x`, `last_y` and `line` after the points. -/
def bodyLoop [Zero R] (dimX dimY : Int) :
    List (QJsonValue R) → R × R × R × R × QPolygonF R → R × R × R × R × QPolygonF R
  | [], state => state
  | value :: values, (_, _, last_x, last_y, line) =>
    let coords := value.toArray
    let before_last_x := last_x
    let before_last_y := last_y
    let last_x := (coords.at_ dimX).toDouble
    let last_y := (coords.at_ dimY).toDouble
    bodyLoop dimX dimY values (before_last_x, before_last_y, last_x, last_y, line ++ [⟨last_x, last_y⟩])

/-- `VibesGraphicsArrow::computeProjection`: the result, and the object after the
call. An object that has children only gets their pens and brushes set. -/
def computeProjection [Zero R] [Add R] [Sub R] [Mul R] [Div R] [Neg R] [IntCast R] (t : CTrig R)
    (self : VibesGraphicsItem R (List (ChildPrimitive R))) (dimX dimY : Int) :
    Bool × VibesGraphicsItem R (List (ChildPrimitive R)) :=
  let json := self._json
  if self.graphics.length > 0 then (true, self)
  else
    -- body
    let state := bodyLoop dimX dimY (json.value "points").toArray (0, 0, 0, 0, [])
    let before_last_x := state.1
    let before_last_y := state.2.1
    let last_x := state.2.2.1
    let last_y := state.2.2.2.1
    let line := state.2.2.2.2
    let path : List (PathCall R) := [PathCall.addPolygon line]
    let children := self.graphics ++ [ChildPrimitive.path path]
    -- tip
    let tip_length := (json.value "tip_length").toDouble
    let dx := before_last_x - last_x
    let dy := before_last_y - last_y
    let arrow_angle := t.atan2 dy dx
    let tip_angle := ((160 : Int) : R) * t.M_PI / ((180 : Int) : R)
    let x := last_x
    let y := last_y
    let tip : QPolygonF R :=
      [⟨x, y⟩,
        ⟨x - t.cos (tip_angle + arrow_angle) * tip_length,
          y - t.sin (tip_angle + arrow_angle) * tip_length⟩,
        ⟨x + t.cos arrow_angle * tip_length * ((2 : Int) : R) / ((3 : Int) : R),
          y + t.sin arrow_angle * tip_length * ((2 : Int) : R) / ((3 : Int) : R)⟩,
        ⟨x - t.cos (-tip_angle + arrow_angle) * tip_length,
          y - t.sin (-tip_angle + arrow_angle) * tip_length⟩]
    (true, { self with graphics := children ++ [ChildPrimitive.polygon tip] })

end VibesGraphicsArrow

/-! ### Vehicles -/

/-- The state of a `QGraphicsPolygonItem` child that `VibesGraphicsVehicle` sets:
the polygon, in the coordinates of the item, the transform origin point, the
rotation in degrees and the scale. -/
structure QGraphicsPolygonItem (R : Type) where
  polygon : QPolygonF R
  transformOriginPoint : QPointF R
  rotation : R
  scale : R

/-- The sum `p + q` of two `QPointF`. -/
def QPointF.add {R : Type} [Add R] (p q : QPointF R) : QPointF R := ⟨p.x + q.x, p.y + q.y⟩

/-- Where Qt draws the point `p` of an item that has no position of its own: with
transform origin `o`, rotation `R` by the angle of the item, in degrees, and scale
`s`, at `o + s·R(p − o)`. -/
def QGraphicsPolygonItem.mapToParent {R : Type} [Add R] [Sub R] [Mul R] [Div R] [IntCast R]
    (t : CTrig R) (item : QGraphicsPolygonItem R) (p : QPointF R) : QPointF R :=
  let o := item.transformOriginPoint
  let a := item.rotation * t.M_PI / ((180 : Int) : R)
  let dx := p.x - o.x
  let dy := p.y - o.y
  ⟨o.x + item.scale * (t.cos a * dx - t.sin a * dy),
    o.y + item.scale * (t.sin a * dx + t.cos a * dy)⟩

/-- The vertices of the polygon of an item as Qt draws them. -/
def QGraphicsPolygonItem.renderedVertices {R : Type} [Add R] [Sub R] [Mul R] [Div R] [IntCast R]
    (t : CTrig R) (item : QGraphicsPolygonItem R) : List (QPointF R) :=
  item.polygon.map (item.mapToParent t)

namespace VibesGraphicsVehicle

variable {R : Type}

/-- A newly constructed `VibesGraphicsVehicle`, a `QGraphicsItemGroup` without
children. The field `graphics` is the list of its children, all of them
`QGraphicsPolygonItem`s. -/
def new [Zero R] : VibesGraphicsItem R (List (QGraphicsPolygonItem R)) :=
  { type := ItemType.VibesGraphicsVehicleType, _json := [], _nbDim := 0, _dimX := -1,
    _dimY := -1, _name := "", visible := true, rect := ⟨0, 0, 0, 0⟩, graphics := [],
    childItems := [] }

/-- `VibesGraphicsVehicle::parseJsonGraphics`: the result, and the object after the
call. -/
def parseJsonGraphics [Zero R] [LT R] [DecidableRel (fun a b : R => a < b)]
    (self : VibesGraphicsItem R (List (QGraphicsPolygonItem R))) (json : QJsonObject R) :
    Bool × VibesGraphicsItem R (List (QGraphicsPolygonItem R)) :=
  if json.contains "type" then
    let type := (json.value "type").toString
    if type = "vehicle" then
      if json.contains "center" && json.contains "length" && json.contains "orientation" then
        let center_size := (json.value "center").toArray.size
        if center_size = 2 ∧ (json.value "length").toDouble > 0 then
          (true, { self with _nbDim := center_size })
        else (false, self)
      else (false, self)
    else (false, self)
  else (false, self)

/-- The conditions under `Q_ASSERT` in `VibesGraphicsVehicle::computeProjection`. -/
def computeProjectionAsserts [Zero R] [LT R] [DecidableRel (fun a b : R => a < b)]
    (self : VibesGraphicsItem R (List (QGraphicsPolygonItem R))) : Bool :=
  let json := self._json
  let center := (json.value "center").toArray
  let length := (json.value "length").toDouble
  json.contains "type" && decide ((json.value "type").toString = "vehicle") &&
    decide (center.size = 2) && decide (self._nbDim = center.size) && decide (length > 0)

/-- `VibesGraphicsVehicle::computeProjection`: the result, and the object after the
call. An object that has children gets their transform origin, rotation and scale
set (and their pens and brushes); otherwise the triangle is built around the
center and added as the only child. -/
def computeProjection [Zero R] [Add R] [Div R] [IntCast R]
    (self : VibesGraphicsItem R (List (QGraphicsPolygonItem R))) (dimX dimY : Int) :
    Bool × VibesGraphicsItem R (List (QGraphicsPolygonItem R)) :=
  let json := self._json
  let center := (json.value "center").toArray
  let length := (json.value "length").toDouble
  let orientation := (json.value "orientation").toDouble
  let centerPoint : QPointF R := ⟨(center.at_ dimX).toDouble, (center.at_ dimY).toDouble⟩
  if self.graphics.length > 0 then
    (true, { self with graphics := self.graphics.map fun graphics_polygon =>
      { graphics_polygon with
        transformOriginPoint := centerPoint
        rotation := orientation
        scale := length / ((4 : Int) : R) } })
  else
    let polygon : QPolygonF R :=
      [QPointF.add ⟨((-1 : Int) : R), ((1 : Int) : R)⟩ centerPoint,
        QPointF.add ⟨((3 : Int) : R), 0⟩ centerPoint,
        QPointF.add ⟨((-1 : Int) : R), ((-1 : Int) : R)⟩ centerPoint]
    let graphics_polygon : QGraphicsPolygonItem R :=
      { polygon := polygon
        transformOriginPoint := centerPoint
        rotation := orientation
        scale := length / ((4 : Int) : R) }
    (true, { self with graphics := self.graphics ++ [graphics_polygon] })

end VibesGraphicsVehicle

/-! ### Pen widths -/

namespace VibesDefaults

variable {R : Type}

/-- The function `std::max(a, b)`: `(a < b) ? b : a`. -/
def std_max [LT R] [DecidableRel (fun a b : R => a < b)] (a b : R) : R :=
  if a < b then b else a

/-- `VibesDefaults::parsePenWidth`. The conversion `QString::toDouble` of the Qt
library is a parameter: it gives the number that the string denotes and `0` for
a string that denotes none. -/
def parsePenWidth [Zero R] [LT R] [DecidableRel (fun a b : R => a < b)]
    (toDouble : String → R) (width : String) : R :=
  std_max 0 (toDouble width)

end VibesDefaults

/-! ### A method table with the ellipses -/

/-- The method table whose entries for `VibesGraphicsEllipse` are the methods of
that class; the other classes are not in the table and reject every document. -/
def SubclassMethods.ellipses {R : Type} [Zero R] [Add R] [Sub R] [Mul R] [Div R] [Neg R]
    [IntCast R] (m : CMath R) (t : QUnicodeTables) :
    SubclassMethods R (QGraphicsEllipseItem R) where
  unicode := t
  init := fun _ => VibesGraphicsEllipse.new.graphics
  parseJsonGraphics := fun t json _nbDim graphics =>
    if t = ItemType.VibesGraphicsEllipseType then
      let r := VibesGraphicsEllipse.parseJsonGraphics
        { VibesGraphicsEllipse.new with _nbDim := _nbDim, graphics := graphics } json
      (r.1, r.2._nbDim, r.2.graphics)
    else (false, _nbDim, graphics)
  computeProjection := fun t json _nbDim dimX dimY graphics =>
    if t = ItemType.VibesGraphicsEllipseType then
      let r := VibesGraphicsEllipse.computeProjection m
        { VibesGraphicsEllipse.new with _json := json, _nbDim := _nbDim, graphics := graphics }
        dimX dimY
      (r.1, r.2.graphics)
    else (false, graphics)

/-- `VibesGraphicsGroup::clear`: the members that cast to `VibesGraphicsItem*` are
deleted; `_nbDim` is not touched. -/
def VibesGraphicsGroup.clear {R G : Type} (self : VibesGraphicsItem R G) : VibesGraphicsItem R G :=
  { self with childItems := self.childItems.filter fun child => !qgraphicsitem_cast child.type }

/-! ## Sequences of calls -/

/-- One call that updates the properties of a shape. -/
inductive JsonUpdate (R : Type) where
  | setJsonValue (key : String) (value : QJsonValue R)
  | setJsonValues (values : QJsonObject R)

namespace VibesGraphicsItem

variable {R G : Type} [Zero R] [Sub R]

/-- The object after one update call. -/
def applyUpdate (V : SubclassMethods R G) (self : VibesGraphicsItem R G) :
    JsonUpdate R → VibesGraphicsItem R G
  | .setJsonValue key value => self.setJsonValue V key value
  | .setJsonValues values => self.setJsonValues V values

/-- The object after a sequence of update calls. -/
def applyUpdates (V : SubclassMethods R G) (self : VibesGraphicsItem R G)
    (updates : List (JsonUpdate R)) : VibesGraphicsItem R G :=
  updates.foldl (applyUpdate V) self

/-- Two versions of `setJsonValues` for the members of a group agree on the items
of depth below `d`, and the first one keeps the depth. -/
def AgreeBelow (d : Nat)
    (f f' : VibesGraphicsItem R G → QJsonObject R → VibesGraphicsItem R G) : Prop :=
  ∀ c : VibesGraphicsItem R G, c.depth < d →
    ∀ values, f c values = f' c values ∧ (f c values).depth = c.depth

end VibesGraphicsItem

/-- One call on a group or on one of its members. -/
inductive GroupCall (R G : Type) where
  | addToGroup (item : VibesGraphicsItem R G) (scene : Option (Int × Int))
  | setJsonValues (member : Nat) (values : QJsonObject R)
  | clear

namespace VibesGraphicsGroup

variable {R G : Type}

/-- The members of a group after a method has been run on the member at a
position; nothing changes when there is no such member. -/
def updateMember (f : VibesGraphicsItem R G → VibesGraphicsItem R G) :
    Nat → List (VibesGraphicsItem R G) → List (VibesGraphicsItem R G)
  | _, [] => []
  | 0, child :: childItems => f child :: childItems
  | n + 1, child :: childItems => child :: updateMember f n childItems

/-- The largest dimension among the members of a group, `0` without members. -/
def membersDimension : List (VibesGraphicsItem R G) → Int
  | [] => 0
  | child :: childItems => max child.dimension (membersDimension childItems)

/-- The largest of `n` and the dimensions that the items added by a sequence of
calls had when they were added. -/
def addedDimension : List (GroupCall R G) → Int → Int
  | [], n => n
  | GroupCall.addToGroup item _ :: calls, n => addedDimension calls (max n item.dimension)
  | _ :: calls, n => addedDimension calls n

variable [Zero R] [Sub R]

/-- The group after one call: `addToGroup`, `setJsonValues` on a member, or
`clear`. -/
def applyCall (V : SubclassMethods R G) (self : VibesGraphicsItem R G) :
    GroupCall R G → VibesGraphicsItem R G
  | GroupCall.addToGroup item scene => addToGroup V self item scene
  | GroupCall.setJsonValues member values =>
    { self with childItems :=
        updateMember (fun child => child.setJsonValues V values) member self.childItems }
  | GroupCall.clear => clear self

/-- The group after a sequence of calls. -/
def applyCalls (V : SubclassMethods R G) (self : VibesGraphicsItem R G)
    (calls : List (GroupCall R G)) : VibesGraphicsItem R G :=
  calls.foldl (applyCall V) self

end VibesGraphicsGroup

/-- The four style keys that a group pushes to its members. -/
def styleKeys : List String := ["EdgeColor", "FaceColor", "LineStyle", "LineWidth"]

/-- The colours of a document are names that `toPredefinedColorName` leaves as
they are. -/
def PredefinedColors {R : Type} (t : QUnicodeTables) (json : QJsonObject R) : Prop :=
  (VibesDefaults.toPredefinedColorName t (json.value "FaceColor").toString).1 = false ∧
    (VibesDefaults.toPredefinedColorName t (json.value "EdgeColor").toString).1 = false

namespace VibesScene2D

variable {R G : Type} [Zero R] [Sub R]

/-- The scenes that a newly constructed scene can become through `setDimX`,
`setDimY`, `setDims` and `addJsonShapeItem`, with any arguments. -/
inductive Reachable (V : SubclassMethods R G) : VibesScene2D R G → Prop where
  | new : Reachable V VibesScene2D.new
  | setDimX (s : VibesScene2D R G) (dimX : Int) :
      Reachable V s → Reachable V (s.setDimX V dimX).scene
  | setDimY (s : VibesScene2D R G) (dimY : Int) :
      Reachable V s → Reachable V (s.setDimY V dimY).scene
  | setDims (s : VibesScene2D R G) (dimX dimY : Int) :
      Reachable V s → Reachable V (s.setDims V dimX dimY).scene
  | addJsonShapeItem (s : VibesScene2D R G) (shape : QJsonObject R) :
      Reachable V s → Reachable V (s.addJsonShapeItem V shape).2

/-- The invariant of the axis pair: two different axes, both in `[0, nbDim)`. -/
def DimsValid (s : VibesScene2D R G) : Prop :=
  s.dimX ≠ s.dimY ∧ 0 ≤ s.dimX ∧ s.dimX < s.nbDim ∧ 0 ≤ s.dimY ∧ s.dimY < s.nbDim

end VibesScene2D

/-! ## A method table and documents for the examples -/

/-- Case tables that leave every character outside ASCII as it is, for the
examples, whose strings have no such character. -/
def QUnicodeTables.unchanged : QUnicodeTables where
  upperCase := fun c => [c]
  lowerCase := fun c => [c]

/-- A method table in which the classes kept abstract have no graphics state and
reject every document. -/
def SubclassMethods.rejecting : SubclassMethods Int Unit where
  unicode := QUnicodeTables.unchanged
  init := fun _ => ()
  parseJsonGraphics := fun _ _ nbDim g => (false, nbDim, g)
  computeProjection := fun _ _ _ _ _ g => (false, g)

/-- An array of numbers. -/
def QJsonArray.ofNumbers (xs : List Int) : QJsonValue Int :=
  QJsonValue.array (xs.map QJsonValue.double)

/-- The document `{"type":"box","bounds":[...]}`. -/
def boxDocument (bounds : List Int) : QJsonObject Int :=
  [("type", QJsonValue.string "box"), ("bounds", QJsonArray.ofNumbers bounds)]

/-- A `VibesGraphicsBox` initialised with `setJson` from `boxDocument bounds`
at the axis pair `(0, 1)`. -/
def boxItem (bounds : List Int) : VibesGraphicsItem Int Unit :=
  ((VibesGraphicsItem.new SubclassMethods.rejecting ItemType.VibesGraphicsBoxType).setJson
    SubclassMethods.rejecting (boxDocument bounds) 0 1).2

/-- A `VibesGraphicsGroup` initialised with `setJson` from `{"type":"group"}`. -/
def groupItem : VibesGraphicsItem Int Unit :=
  ((VibesGraphicsItem.new SubclassMethods.rejecting ItemType.VibesGraphicsGroupType).setJson
    SubclassMethods.rejecting [("type", QJsonValue.string "group")] 0 1).2

/-- A `VibesGraphicsGroup` initialised with `setJson` from
`{"type":"group", key: value}`. -/
def styledGroup (key value : String) : VibesGraphicsItem Int Unit :=
  ((VibesGraphicsItem.new SubclassMethods.rejecting ItemType.VibesGraphicsGroupType).setJson
    SubclassMethods.rejecting
    [("type", QJsonValue.string "group"), (key, QJsonValue.string value)] 0 1).2

/-- Scenario D: the group whose document sets FaceColor = "red", after two boxes
without FaceColor have been added with `addToGroup`. -/
def redGroup : VibesGraphicsItem Int Unit :=
  VibesGraphicsGroup.addToGroup SubclassMethods.rejecting
    (VibesGraphicsGroup.addToGroup SubclassMethods.rejecting (styledGroup "FaceColor" "red")
      (boxItem [0, 1, 0, 1]) none)
    (boxItem [2, 3, 2, 3]) none

/-- The group `redGroup` after it has been added to a group that sets
LineWidth = "2". -/
def outerGroup : VibesGraphicsItem Int Unit :=
  VibesGraphicsGroup.addToGroup SubclassMethods.rejecting (styledGroup "LineWidth" "2")
    redGroup none

/-- The document that `setJsonValues` validates when the box `[0,1,0,1]` is
updated with `{"bounds": [1,2,3]}`. -/
def rejectedUpdate : QJsonObject Int :=
  (VibesGraphicsItem.setJsonValuesLoop (boxItem [0, 1, 0, 1])
    [("bounds", QJsonArray.ofNumbers [1, 2, 3])] ((boxItem [0, 1, 0, 1])._json, false)).1

/-- The scene obtained from a new scene by adding the 3-dimensional box
`[0,1,0,1,0,1]` and then calling `setDims(2, 0)`. -/
def exampleScene : VibesScene2D Int Unit :=
  (((VibesScene2D.new.addJsonShapeItem SubclassMethods.rejecting
      (boxDocument [0, 1, 0, 1, 0, 1])).2).setDims SubclassMethods.rejecting 2 0).scene

/-- The document `{"type":"line","points":[[0,0],[1,1]]}`. -/
def lineDocument : QJsonObject Int :=
  [("type", QJsonValue.string "line"),
    ("points", QJsonValue.array [QJsonArray.ofNumbers [0, 0], QJsonArray.ofNumbers [1, 1]])]

/-- The document `{"type":"ellipse","center":[...],"axis":[...],"orientation":...}`. -/
def ellipseDocument (center axis : List Int) (orientation : Int) : QJsonObject Int :=
  [("type", QJsonValue.string "ellipse"), ("center", QJsonArray.ofNumbers center),
    ("axis", QJsonArray.ofNumbers axis), ("orientation", QJsonValue.double orientation)]

/-- A `VibesGraphicsEllipse` whose stored document is `ellipseDocument` and whose
dimension is the one validation gives. -/
def ellipseItem (center axis : List Int) (orientation : Int) :
    VibesGraphicsItem Int (QGraphicsEllipseItem Int) :=
  { (VibesGraphicsEllipse.parseJsonGraphics VibesGraphicsEllipse.new
      (ellipseDocument center axis orientation)).2 with
    _json := ellipseDocument center axis orientation }

/-- The functions of `CMath` on the integers, for the examples, none of which
reaches them: the integer square root, and `0` for `atan2`, `pow` and `M_1_PI`. -/
def CMath.integers : CMath Int where
  sqrt := Int.sqrt
  atan2 := fun _ _ => 0
  pow := fun _ _ => 0
  M_1_PI := 0
  toInt := fun x => x
  eq := fun x y => decide (x = y)

/-- A new group to which the 3-dimensional box `[0,1,0,1,0,1]` is added. -/
def groupWithBox : VibesGraphicsItem Int Unit :=
  VibesGraphicsGroup.addToGroup SubclassMethods.rejecting groupItem (boxItem [0, 1, 0, 1, 0, 1]) none

/-- The box `[0,1,0,1]` after `setJsonValues({"FaceColor":"blue"})`. -/
def blueBox : VibesGraphicsItem Int Unit :=
  (boxItem [0, 1, 0, 1]).setJsonValues SubclassMethods.rejecting
    [("FaceColor", QJsonValue.string "blue")]

/-- A new group to which `blueBox` and then a box without FaceColor are added. -/
def mixedGroup : VibesGraphicsItem Int Unit :=
  VibesGraphicsGroup.addToGroup SubclassMethods.rejecting
    (VibesGraphicsGroup.addToGroup SubclassMethods.rejecting groupItem blueBox none)
    (boxItem [2, 3, 2, 3]) none

/-- The document `{"type":"points","centers":[...],"Radiuses":[...]}`. -/
def pointsDocument {R : Type} (centers : List (List R)) (radiuses : List R) : QJsonObject R :=
  [("type", QJsonValue.string "points"),
    ("centers", QJsonValue.array (centers.map fun c => QJsonValue.array (c.map QJsonValue.double))),
    ("Radiuses", QJsonValue.array (radiuses.map QJsonValue.double))]

/-- The document `{"type":"ring","center":[...],"rho":[...]}`. -/
def ringDocument (center rho : List Int) : QJsonObject Int :=
  [("type", QJsonValue.string "ring"), ("center", QJsonArray.ofNumbers center),
    ("rho", QJsonArray.ofNumbers rho)]

/-- A `VibesGraphicsRing` whose stored document is `ringDocument` and whose
dimension is the one validation gives. -/
def ringItem (center rho : List Int) : VibesGraphicsItem Int (List (ChildPrimitive Int)) :=
  { (VibesGraphicsRing.parseJsonGraphics VibesGraphicsRing.new (ringDocument center rho)).2 with
    _json := ringDocument center rho }

/-- The functions of `CTrig` on the integers, for the examples: `cos` is `1`,
`sin` and `atan2` are `0`, `M_PI` is `3`. -/
def CTrig.integers : CTrig Int where
  cos := fun _ => 1
  sin := fun _ => 0
  atan2 := fun _ _ => 0
  M_PI := 3

/-- The document `{"type":"ellipse","center":[...],"angles":[...]}`, without axes
and without covariance. -/
def anglesDocument (center angles : List Int) : QJsonObject Int :=
  [("type", QJsonValue.string "ellipse"), ("center", QJsonArray.ofNumbers center),
    ("angles", QJsonArray.ofNumbers angles)]

/-- The scene obtained from a new scene by adding the 3-dimensional box
`[0,1,0,1,0,1]` and the ellipse `{"center":[0,0,0],"angles":[0,90]}`. -/
def anglesScene : VibesScene2D Int (QGraphicsEllipseItem Int) :=
  ((VibesScene2D.new.addJsonShapeItem
      (SubclassMethods.ellipses CMath.integers QUnicodeTables.unchanged)
      [("type", QJsonValue.string "box"),
        ("bounds", QJsonArray.ofNumbers [0, 1, 0, 1, 0, 1])]).2.addJsonShapeItem
    (SubclassMethods.ellipses CMath.integers QUnicodeTables.unchanged)
    (anglesDocument [0, 0, 0] [0, 90])).2

/-- The scene obtained from a new scene by adding the 3-dimensional box
`[0,1,0,1,0,1]` and then calling `setDims(0, 2)`. -/
def sideScene : VibesScene2D Int Unit :=
  (((VibesScene2D.new.addJsonShapeItem SubclassMethods.rejecting
      (boxDocument [0, 1, 0, 1, 0, 1])).2).setDims SubclassMethods.rejecting 0 2).scene

/-- The document `{"type":"polygon", key: [...]}` with the matrix of vertices under
the key `key`. -/
def polygonDocument (key : String) (points : List (List Int)) : QJsonObject Int :=
  [("type", QJsonValue.string "polygon"), (key, QJsonValue.array (points.map QJsonArray.ofNumbers))]

/-- The document `{"type": type, "bounds": [...]}` of a set of boxes. -/
def boxesDocument (type : String) (bounds : List (List Int)) : QJsonObject Int :=
  [("type", QJsonValue.string type), ("bounds", QJsonValue.array (bounds.map QJsonArray.ofNumbers))]

/-- The scene obtained from a new scene by adding the 3-dimensional box
`[0,1,0,1,0,1]` and then the 2-dimensional box `[0,1,0,1]`. -/
def twoBoxScene : VibesScene2D Int Unit :=
  ((VibesScene2D.new.addJsonShapeItem SubclassMethods.rejecting
      (boxDocument [0, 1, 0, 1, 0, 1])).2.addJsonShapeItem SubclassMethods.rejecting
    (boxDocument [0, 1, 0, 1])).2

/-- The document `{"type":"arrow","points":[...]}`, without "tip_length". -/
def arrowDocument (points : List (List Int)) : QJsonObject Int :=
  [("type", QJsonValue.string "arrow"), ("points", QJsonValue.array (points.map QJsonArray.ofNumbers))]

/-- The document `{"type":"arrow","points":[...],"tip_length":...}`. -/
def arrowTipDocument (points : List (List Int)) (tip_length : Int) : QJsonObject Int :=
  arrowDocument points ++ [("tip_length", QJsonValue.double tip_length)]

/-- The document `{"type":"vehicle","center":[...],"length":...,"orientation":...}`. -/
def vehicleDocument (center : List Int) (length orientation : Int) : QJsonObject Int :=
  [("type", QJsonValue.string "vehicle"), ("center", QJsonArray.ofNumbers center),
    ("length", QJsonValue.double length), ("orientation", QJsonValue.double orientation)]

/-- A `VibesGraphicsVehicle` that has just been constructed and given the document
`vehicleDocument` by validation, before any projection. -/
def vehicleItem (center : List Int) (length orientation : Int) :
    VibesGraphicsItem Int (List (QGraphicsPolygonItem Int)) :=
  { (VibesGraphicsVehicle.parseJsonGraphics VibesGraphicsVehicle.new
      (vehicleDocument center length orientation)).2 with
    _json := vehicleDocument center length orientation }

/-- The vehicle built at the center `(0, 0)` with length 4 and orientation 0 and
projected on the axes `(0, 1)`, after its document has been replaced by the one
with the center `(10, 0)`, and before the next projection. -/
def movedVehicle : VibesGraphicsItem Int (List (QGraphicsPolygonItem Int)) :=
  { (VibesGraphicsVehicle.computeProjection (vehicleItem [0, 0] 4 0) 0 1).2 with
    _json := vehicleDocument [10, 0] 4 0 }

/-- The box `[0,1,0,1]` with the name "a". -/
def namedBox : VibesGraphicsItem Int Unit :=
  (boxItem [0, 1, 0, 1]).setName "a"

/-- The document `{"type":"box","bounds":[0,1],"name":"b"}`, whose "bounds" is too
short for a box. -/
def renamingDocument : QJsonObject Int :=
  [("type", QJsonValue.string "box"), ("bounds", QJsonArray.ofNumbers [0, 1]),
    ("name", QJsonValue.string "b")]

/-- A `VibesGraphicsEllipse` whose stored document is `anglesDocument` and whose
dimension is the one validation gives. -/
def anglesItem (center angles : List Int) : VibesGraphicsItem Int (QGraphicsEllipseItem Int) :=
  { (VibesGraphicsEllipse.parseJsonGraphics VibesGraphicsEllipse.new
      (anglesDocument center angles)).2 with
    _json := anglesDocument center angles }

/-- A `VibesGraphicsArrow` whose stored document is `arrowDocument` and whose
dimension is the one validation gives. -/
def arrowItem (points : List (List Int)) : VibesGraphicsItem Int (List (ChildPrimitive Int)) :=
  { (VibesGraphicsArrow.parseJsonGraphics VibesGraphicsArrow.new (arrowDocument points)).2 with
    _json := arrowDocument points }

/-- The document `{"type":"ellipse","center":[...],"covariance":[...]}`. -/
def covarianceDocument (center covariance : List Int) : QJsonObject Int :=
  [("type", QJsonValue.string "ellipse"), ("center", QJsonArray.ofNumbers center),
    ("covariance", QJsonArray.ofNumbers covariance)]

/-! ## Lookups in documents -/

namespace QJsonObject

variable {R : Type}

theorem contains_of_value_ne (o : QJsonObject R) (key : String)
    (h : o.value key ≠ QJsonValue.undefined) : o.contains key = true := by
  induction o with
  | nil => simp [value] at h
  | cons p o ih =>
    obtain ⟨k, w⟩ := p
    by_cases hk : k = key
    · simp [contains, hk]
    · simp only [value, hk, if_false] at h
      simp [contains, hk, ih h]

theorem value_remove_ne (o : QJsonObject R) (key k : String) (h : key ≠ k) :
    (o.remove key).value k = o.value k := by
  induction o with
  | nil => rfl
  | cons p o ih =>
    obtain ⟨k', w⟩ := p
    by_cases hk : k' = key
    · subst hk
      simp [remove, value, h, ih]
    · by_cases hk2 : k' = k
      · subst hk2
        simp [remove, value, hk]
      · simp [remove, value, hk, hk2, ih]

theorem contains_remove_ne (o : QJsonObject R) (key k : String) (h : key ≠ k) :
    (o.remove key).contains k = o.contains k := by
  induction o with
  | nil => rfl
  | cons p o ih =>
    obtain ⟨k', w⟩ := p
    by_cases hk : k' = key
    · subst hk
      simp [remove, contains, h, ih]
    · by_cases hk2 : k' = k
      · subst hk2
        simp [remove, contains, hk]
      · simp [remove, contains, hk, hk2, ih]

theorem contains_remove_self (o : QJsonObject R) (key : String) :
    (o.remove key).contains key = false := by
  induction o with
  | nil => rfl
  | cons p o ih =>
    obtain ⟨k', w⟩ := p
    by_cases hk : k' = key <;> simp [remove, contains, hk, ih]

theorem value_replace_ne (o : QJsonObject R) (key k : String) (v : QJsonValue R) (h : key ≠ k) :
    (o.replace key v).value k = o.value k := by
  induction o with
  | nil => simp [replace, value, h]
  | cons p o ih =>
    obtain ⟨k', w⟩ := p
    by_cases hk : k' = key
    · subst hk
      simp [replace, value, h]
    · by_cases hk2 : k' = k
      · subst hk2
        simp [replace, value, hk]
      · simp [replace, value, hk, hk2, ih]

theorem contains_replace_ne (o : QJsonObject R) (key k : String) (v : QJsonValue R) (h : key ≠ k) :
    (o.replace key v).contains k = o.contains k := by
  induction o with
  | nil => simp [replace, contains, h]
  | cons p o ih =>
    obtain ⟨k', w⟩ := p
    by_cases hk : k' = key
    · subst hk
      simp [replace, contains, h]
    · by_cases hk2 : k' = k
      · subst hk2
        simp [replace, contains, hk]
      · simp [replace, contains, hk, hk2, ih]

theorem value_replace_self (o : QJsonObject R) (key : String) (v : QJsonValue R) :
    (o.replace key v).value key = v := by
  induction o with
  | nil => simp [replace, value]
  | cons p o ih =>
    obtain ⟨k', w⟩ := p
    by_cases hk : k' = key <;> simp [replace, value, hk, ih]

theorem contains_replace_self (o : QJsonObject R) (key : String) (v : QJsonValue R) :
    (o.replace key v).contains key = true := by
  induction o with
  | nil => simp [replace, contains]
  | cons p o ih =>
    obtain ⟨k', w⟩ := p
    by_cases hk : k' = key <;> simp [replace, contains, hk, ih]

theorem value_insert_ne (o : QJsonObject R) (key k : String) (v : QJsonValue R) (h : key ≠ k) :
    (o.insert key v).value k = o.value k := by
  unfold insert
  split
  · exact value_remove_ne o key k h
  · exact value_replace_ne o key k v h

theorem contains_insert_ne (o : QJsonObject R) (key k : String) (v : QJsonValue R) (h : key ≠ k) :
    (o.insert key v).contains k = o.contains k := by
  unfold insert
  split
  · exact contains_remove_ne o key k h
  · exact contains_replace_ne o key k v h

theorem value_insert_self (o : QJsonObject R) (key : String) (v : QJsonValue R)
    (hv : v.isUndefined = false) : (o.insert key v).value key = v := by
  simp [insert, hv, value_replace_self]

theorem contains_insert_self (o : QJsonObject R) (key : String) (v : QJsonValue R)
    (hv : v.isUndefined = false) : (o.insert key v).contains key = true := by
  simp [insert, hv, contains_replace_self]

end QJsonObject

/-! ## Box validation and projection -/

namespace VibesGraphicsBox

variable {R G : Type}

/-- C2. For every document whose "type" is "box", `VibesGraphicsBox::parseJsonGraphics`
succeeds if and only if the "bounds" array has an even length that is at least 4,
and on success the dimension of the shape is half that length. -/
theorem parseJsonGraphics_box_iff (self : VibesGraphicsItem R G) (json : QJsonObject R)
    (htype : json.value "type" = QJsonValue.string "box") :
    ((parseJsonGraphics self json).1 = true ↔
        ((json.value "bounds").toArray.size % 2 = 0 ∧ (json.value "bounds").toArray.size ≥ 4)) ∧
      ((parseJsonGraphics self json).1 = true →
        (parseJsonGraphics self json).2.dimension = (json.value "bounds").toArray.size / 2) := by
  have hc : json.contains "type" = true :=
    QJsonObject.contains_of_value_ne json "type" (by rw [htype]; exact fun h => by cases h)
  by_cases hb : (json.value "bounds").toArray.size < 4 ∨ (json.value "bounds").toArray.size % 2 ≠ 0
  · simp only [parseJsonGraphics, hc, htype, QJsonValue.toString, if_true, hb]
    constructor
    · constructor
      · intro h; cases h
      · rintro ⟨h1, h2⟩; rcases hb with hb | hb
        · omega
        · exact absurd h1 hb
    · intro h; cases h
  · simp only [parseJsonGraphics, hc, htype, QJsonValue.toString, if_true, hb, if_false]
    push_neg at hb
    exact ⟨⟨fun _ => ⟨hb.2, hb.1⟩, fun _ => trivial⟩, fun _ => rfl⟩

/-- The document `{"type":"box","bounds":[0,1,0,1]}` passes box validation and
gives dimension 2; with three bounds the document is rejected. -/
theorem parseJsonGraphics_box_iff_witness :
    (boxDocument [0, 1, 0, 1]).value "type" = QJsonValue.string "box" ∧
      (parseJsonGraphics (VibesGraphicsItem.new SubclassMethods.rejecting
        ItemType.VibesGraphicsBoxType) (boxDocument [0, 1, 0, 1])).1 = true ∧
      (parseJsonGraphics (VibesGraphicsItem.new SubclassMethods.rejecting
        ItemType.VibesGraphicsBoxType) (boxDocument [0, 1, 0, 1])).2.dimension = 2 ∧
      (parseJsonGraphics (VibesGraphicsItem.new SubclassMethods.rejecting
        ItemType.VibesGraphicsBoxType) (boxDocument [1, 2, 3])).1 = false :=
  have h := parseJsonGraphics_box_iff
    (VibesGraphicsItem.new SubclassMethods.rejecting ItemType.VibesGraphicsBoxType)
    (boxDocument [0, 1, 0, 1]) rfl
  ⟨rfl, h.1.2 (by decide), (h.2 (h.1.2 (by decide))).trans (by decide), by decide⟩

/-- C3. For every validated box (validation of the stored document succeeds and
leaves the object as it is, so `N` is half the number of bounds `b`) and all
axes `dimX`, `dimY` below `N`, the four indices read are inside `b`, and
projection returns true and sets the rectangle to origin
`(b[2 dimX], b[2 dimY])`, width `b[2 dimX + 1] - b[2 dimX]` and height
`b[2 dimY + 1] - b[2 dimY]`, changing nothing else. -/
theorem computeProjection_rect [Zero R] [Sub R] (self : VibesGraphicsItem R G) (dimX dimY : Nat)
    (hvalid : parseJsonGraphics self self._json = (true, self))
    (hX : (dimX : Int) < self.dimension) (hY : (dimY : Int) < self.dimension) :
    ∃ (hx : 2 * dimX + 1 < ((self._json.value "bounds").toArray).length)
      (hy : 2 * dimY + 1 < ((self._json.value "bounds").toArray).length),
      computeProjection self dimX dimY =
        (true, { self with rect :=
          { x := (((self._json.value "bounds").toArray).get ⟨2 * dimX, by omega⟩).toDouble
            y := (((self._json.value "bounds").toArray).get ⟨2 * dimY, by omega⟩).toDouble
            w := (((self._json.value "bounds").toArray).get ⟨2 * dimX + 1, hx⟩).toDouble -
              (((self._json.value "bounds").toArray).get ⟨2 * dimX, by omega⟩).toDouble
            h := (((self._json.value "bounds").toArray).get ⟨2 * dimY + 1, hy⟩).toDouble -
              (((self._json.value "bounds").toArray).get ⟨2 * dimY, by omega⟩).toDouble } }) := by
  -- validation fixes the dimension to half the number of bounds
  have hN : self._nbDim = ((self._json.value "bounds").toArray).size / 2 ∧
      ((self._json.value "bounds").toArray).size % 2 = 0 := by
    unfold parseJsonGraphics at hvalid
    split at hvalid
    · simp only at hvalid
      split at hvalid
      · split at hvalid
        · cases hvalid
        · rename_i hb
          push_neg at hb
          have h2 := congrArg (fun p => p.2._nbDim) hvalid
          simp only at h2
          exact ⟨h2.symm, hb.2⟩
      · cases hvalid
    · cases hvalid
  obtain ⟨hN1, hN2⟩ := hN
  simp only [VibesGraphicsItem.dimension, VibesGraphicsItem.maxDim] at hX hY
  have hsize : ((self._json.value "bounds").toArray).size
      = (((self._json.value "bounds").toArray).length : Int) := rfl
  have hx : 2 * dimX + 1 < ((self._json.value "bounds").toArray).length := by omega
  have hy : 2 * dimY + 1 < ((self._json.value "bounds").toArray).length := by omega
  refine ⟨hx, hy, ?_⟩
  have hat : ∀ k : Nat, ∀ hk : k < ((self._json.value "bounds").toArray).length,
      QJsonArray.at_ ((self._json.value "bounds").toArray) (k : Int)
        = ((self._json.value "bounds").toArray).get ⟨k, hk⟩ := by
    intro k hk
    have h1 : ¬ ((k : Int) < 0 ∨ (k : Int) ≥ QJsonArray.size ((self._json.value "bounds").toArray)) := by
      rw [hsize]; omega
    simp only [QJsonArray.at_, h1, if_false, Int.toNat_ofNat]
    simp [List.getD, List.getElem?_eq_getElem hk]
  have e1 : (2 * (dimX : Int)) = ((2 * dimX : Nat) : Int) := by push_cast; ring
  have e2 : (2 * (dimX : Int) + 1) = ((2 * dimX + 1 : Nat) : Int) := by push_cast; ring
  have e3 : (2 * (dimY : Int)) = ((2 * dimY : Nat) : Int) := by push_cast; ring
  have e4 : (2 * (dimY : Int) + 1) = ((2 * dimY + 1 : Nat) : Int) := by push_cast; ring
  simp only [computeProjection]
  rw [e2, e1, e4, e3, hat _ hx, hat _ hy, hat (2 * dimX) (by omega), hat (2 * dimY) (by omega)]

/-- Scenario A: the box `{"type":"box","bounds":[0,1,0,1]}` has `N = 2` and is
projected at `(0, 1)` onto the rectangle of origin `(0, 0)`, width 1 and height 1. -/
theorem computeProjection_rect_witness :
    (boxItem [0, 1, 0, 1]).dimension = 2 ∧
      (computeProjection (boxItem [0, 1, 0, 1]) 0 1).1 = true ∧
      (computeProjection (boxItem [0, 1, 0, 1]) 0 1).2.rect.x = 0 ∧
      (computeProjection (boxItem [0, 1, 0, 1]) 0 1).2.rect.y = 0 ∧
      (computeProjection (boxItem [0, 1, 0, 1]) 0 1).2.rect.w = 1 ∧
      (computeProjection (boxItem [0, 1, 0, 1]) 0 1).2.rect.h = 1 := by
  obtain ⟨_, _, h⟩ := computeProjection_rect (boxItem [0, 1, 0, 1]) 0 1 rfl (by decide) (by decide)
  have h : computeProjection (boxItem [0, 1, 0, 1]) 0 1 = _ := h
  rw [h]
  exact ⟨by decide, rfl, rfl, rfl, rfl, rfl⟩

/-- In exact arithmetic the rectangle set by the projection ends at the upper
bounds read: `x + w` and `y + h` are the values at `2 dimX + 1` and `2 dimY + 1`. -/
theorem computeProjection_rect_edges {S : Type} [AddCommGroup S] (self : VibesGraphicsItem S G)
    (dimX dimY : Int) :
    (computeProjection self dimX dimY).2.rect.x + (computeProjection self dimX dimY).2.rect.w
        = (((self._json.value "bounds").toArray).at_ (2 * dimX + 1)).toDouble ∧
      (computeProjection self dimX dimY).2.rect.y + (computeProjection self dimX dimY).2.rect.h
        = (((self._json.value "bounds").toArray).at_ (2 * dimY + 1)).toDouble := by
  simp [computeProjection]

end VibesGraphicsBox

/-! ## The axis pair of the scene -/

namespace VibesScene2D

variable {R G : Type} [Zero R] [Sub R]

theorem dimsValid_setDimX (V : SubclassMethods R G) (s : VibesScene2D R G) (d : Int)
    (h : DimsValid s) : DimsValid (s.setDimX V d).scene := by
  unfold setDimX
  split
  · rename_i hc
    simp only [DimsValid, dimX, dimY, nbDim, updateDims] at h hc ⊢
    omega
  · exact h

theorem dimsValid_setDimY (V : SubclassMethods R G) (s : VibesScene2D R G) (d : Int)
    (h : DimsValid s) : DimsValid (s.setDimY V d).scene := by
  unfold setDimY
  split
  · rename_i hc
    simp only [DimsValid, dimX, dimY, nbDim, updateDims] at h hc ⊢
    omega
  · exact h

theorem dimsValid_setDims (V : SubclassMethods R G) (s : VibesScene2D R G) (dx dy : Int)
    (h : DimsValid s) : DimsValid (s.setDims V dx dy).scene := by
  unfold setDims
  split
  · exact dimsValid_setDimY V s dy h
  · split
    · exact dimsValid_setDimX V s dx h
    · split
      · rename_i hc
        simp only [DimsValid, dimX, dimY, nbDim, updateDims] at h hc ⊢
        omega
      · exact h

theorem dimsValid_addJsonShapeItem (V : SubclassMethods R G) (s : VibesScene2D R G)
    (shape : QJsonObject R) (h : DimsValid s) : DimsValid (s.addJsonShapeItem V shape).2 := by
  unfold addJsonShapeItem
  simp only
  split
  · split
    · split
      · exact h
      · simp only [DimsValid, dimX, dimY, nbDim] at h ⊢
        omega
    · exact h
  · exact h

theorem Reachable.dimsValid (V : SubclassMethods R G) (s : VibesScene2D R G)
    (h : Reachable V s) : DimsValid s := by
  induction h with
  | new => simp [DimsValid, VibesScene2D.new, dimX, dimY, nbDim]
  | setDimX s d _ ih => exact dimsValid_setDimX V s d ih
  | setDimY s d _ ih => exact dimsValid_setDimY V s d ih
  | setDims s dx dy _ ih => exact dimsValid_setDims V s dx dy ih
  | addJsonShapeItem s shape _ ih => exact dimsValid_addJsonShapeItem V s shape ih

theorem exampleScene_reachable : Reachable SubclassMethods.rejecting exampleScene :=
  Reachable.setDims _ 2 0 (Reachable.addJsonShapeItem _ _ Reachable.new)

/-- C1. Starting from a newly constructed scene, after any finite sequence of
`setDimX`, `setDimY`, `setDims` and `addJsonShapeItem` calls with arbitrary
arguments, `dimX ≠ dimY` and both axes lie in `[0, nbDim)`. -/
theorem reachable_axis_pair_valid (V : SubclassMethods R G) (s : VibesScene2D R G)
    (h : Reachable V s) :
    s.dimX ≠ s.dimY ∧ 0 ≤ s.dimX ∧ s.dimX < s.nbDim ∧ 0 ≤ s.dimY ∧ s.dimY < s.nbDim :=
  Reachable.dimsValid V s h

/-- After adding a 3-dimensional box and `setDims(2, 0)` the scene has the axis
pair `(2, 0)` with `nbDim = 3`, and the invariant holds there. -/
theorem reachable_axis_pair_valid_witness :
    (exampleScene.dimX = 2 ∧ exampleScene.dimY = 0 ∧ exampleScene.nbDim = 3) ∧
      (exampleScene.dimX ≠ exampleScene.dimY ∧ 0 ≤ exampleScene.dimX ∧
        exampleScene.dimX < exampleScene.nbDim ∧ 0 ≤ exampleScene.dimY ∧
        exampleScene.dimY < exampleScene.nbDim) :=
  ⟨by decide, reachable_axis_pair_valid SubclassMethods.rejecting exampleScene
    (Reachable.setDims _ 2 0 (Reachable.addJsonShapeItem _ _ Reachable.new))⟩

/-- C9, as the code has it. A refused change is announced when it asks for a
value other than the current one: a refused `setDimX(d)` with `d ≠ dimX` emits
`changedDimX(dimX)`, a refused `setDimY(d)` with `d ≠ dimY` emits
`changedDimY(dimY)`, and a refused `setDims(dx, dy)` with `(dx, dy)` other than
the current pair emits at least one signal, each carrying the current value.
A request equal to the current value returns false and emits nothing. -/
theorem refused_change_announced (V : SubclassMethods R G) (s : VibesScene2D R G) :
    (∀ d, (s.setDimX V d).result = false → d ≠ s.dimX →
        (s.setDimX V d).emitted = [Signal.changedDimX s.dimX]) ∧
    (∀ d, (s.setDimY V d).result = false → d ≠ s.dimY →
        (s.setDimY V d).emitted = [Signal.changedDimY s.dimY]) ∧
    (∀ dx dy, (s.setDims V dx dy).result = false → (dx ≠ s.dimX ∨ dy ≠ s.dimY) →
        (s.setDims V dx dy).emitted ≠ [] ∧
        ∀ sig ∈ (s.setDims V dx dy).emitted,
          sig = Signal.changedDimX s.dimX ∨ sig = Signal.changedDimY s.dimY) ∧
    ((s.setDimX V s.dimX).result = false ∧ (s.setDimX V s.dimX).emitted = []) ∧
    ((s.setDimY V s.dimY).result = false ∧ (s.setDimY V s.dimY).emitted = []) ∧
    ((s.setDims V s.dimX s.dimY).result = false ∧ (s.setDims V s.dimX s.dimY).emitted = []) := by
  have hX : ∀ d, (s.setDimX V d).result = false → d ≠ s.dimX →
      (s.setDimX V d).emitted = [Signal.changedDimX s.dimX] := by
    intro d hr hd
    unfold setDimX at hr ⊢
    split
    · rename_i hc; simp [hc] at hr
    · simp [hd]
  have hY : ∀ d, (s.setDimY V d).result = false → d ≠ s.dimY →
      (s.setDimY V d).emitted = [Signal.changedDimY s.dimY] := by
    intro d hr hd
    unfold setDimY at hr ⊢
    split
    · rename_i hc; simp [hc] at hr
    · simp [hd]
  have hX0 : (s.setDimX V s.dimX).result = false ∧ (s.setDimX V s.dimX).emitted = [] := by
    simp [setDimX]
  have hY0 : (s.setDimY V s.dimY).result = false ∧ (s.setDimY V s.dimY).emitted = [] := by
    simp [setDimY]
  refine ⟨hX, hY, ?_, hX0, hY0, ?_⟩
  · intro dx dy hr hne
    by_cases h1 : dx = s.dimX
    · have hdy : dy ≠ s.dimY := by
        rcases hne with h | h
        · exact absurd h1 h
        · exact h
      have e : s.setDims V dx dy = s.setDimY V dy := by simp [setDims, h1]
      rw [e] at hr ⊢
      rw [hY dy hr hdy]
      simp
    · by_cases h2 : dy = s.dimY
      · have e : s.setDims V dx dy = s.setDimX V dx := by simp [setDims, h1, h2]
        rw [e] at hr ⊢
        rw [hX dx hr h1]
        simp
      · unfold setDims at hr ⊢
        simp only [h1, h2, if_false] at hr ⊢
        split
        · rename_i hc; simp [hc] at hr
        · simp [h1, h2]
  · have e : s.setDims V s.dimX s.dimY = s.setDimY V s.dimY := by simp [setDims]
    rw [e]; exact hY0

/-- On a new scene (axes `(0, 1)`, `nbDim = 2`) the refused `setDimX(5)` emits
`changedDimX(0)` and the refused `setDims(3, 3)` emits both signals. -/
theorem refused_change_announced_witness :
    ((VibesScene2D.new : VibesScene2D Int Unit).setDimX SubclassMethods.rejecting 5).result = false ∧
      (5 : Int) ≠ (VibesScene2D.new : VibesScene2D Int Unit).dimX ∧
      ((VibesScene2D.new : VibesScene2D Int Unit).setDimX SubclassMethods.rejecting 5).emitted
        = [Signal.changedDimX 0] ∧
      ((VibesScene2D.new : VibesScene2D Int Unit).setDims SubclassMethods.rejecting 3 3).emitted
        = [Signal.changedDimX 0, Signal.changedDimY 1] :=
  ⟨by decide, by decide,
    (refused_change_announced SubclassMethods.rejecting VibesScene2D.new).1 5
      (by decide) (by decide),
    by decide⟩

/-- C9 fails as stated: on a new scene `setDimX(0)` asks for the current value; it
returns false and emits no signal. -/
theorem refused_change_silent_counterexample :
    ((VibesScene2D.new : VibesScene2D Int Unit).setDimX SubclassMethods.rejecting 0).result = false ∧
      ((VibesScene2D.new : VibesScene2D Int Unit).setDimX SubclassMethods.rejecting 0).emitted = [] := by
  decide

/-- C10. In every reachable scene `setDims(0, 0)` returns false, leaves the scene
(so `dimX` and `dimY`) unchanged and emits at least one signal, each signal
carrying the current value of its axis. -/
theorem setDims_zero_zero_refused (V : SubclassMethods R G) (s : VibesScene2D R G)
    (h : Reachable V s) :
    (s.setDims V 0 0).result = false ∧ (s.setDims V 0 0).scene = s ∧
      (s.setDims V 0 0).emitted ≠ [] ∧
      ∀ sig ∈ (s.setDims V 0 0).emitted,
        sig = Signal.changedDimX s.dimX ∨ sig = Signal.changedDimY s.dimY := by
  have hv := Reachable.dimsValid V s h
  simp only [DimsValid] at hv
  by_cases h1 : (0 : Int) = s.dimX
  · have hy : (0 : Int) ≠ s.dimY := fun e => hv.1 (h1.symm.trans e)
    have hc : ¬ ((0 : Int) ≥ 0 ∧ 0 < s.nbDim ∧ 0 ≠ s.dimY ∧ 0 ≠ s.dimX) := fun c => c.2.2.2 h1
    have e : s.setDims V 0 0 = ⟨false, [Signal.changedDimY s.dimY], s⟩ := by
      simp only [setDims, if_pos h1, setDimY, if_neg hc, if_pos hy]
    rw [e]
    simp
  · by_cases h2 : (0 : Int) = s.dimY
    · have hc : ¬ ((0 : Int) ≥ 0 ∧ 0 < s.nbDim ∧ 0 ≠ s.dimX ∧ 0 ≠ s.dimY) := fun c => c.2.2.2 h2
      have e : s.setDims V 0 0 = ⟨false, [Signal.changedDimX s.dimX], s⟩ := by
        simp only [setDims, if_neg h1, if_pos h2, setDimX, if_neg hc, if_pos h1]
      rw [e]
      simp
    · have hc : ¬ ((0 : Int) ≥ 0 ∧ 0 < s.nbDim ∧ (0 : Int) ≥ 0 ∧ 0 < s.nbDim ∧ (0 : Int) ≠ 0) :=
        fun c => c.2.2.2.2 rfl
      have e : s.setDims V 0 0 =
          ⟨false, [Signal.changedDimX s.dimX, Signal.changedDimY s.dimY], s⟩ := by
        simp only [setDims, if_neg h1, if_neg h2, if_neg hc, if_pos h1, if_pos h2]
        rfl
      rw [e]
      simp

/-- In the scene with axes `(2, 0)`, `setDims(0, 0)` is refused, changes nothing
and emits `changedDimX(2)`. -/
theorem setDims_zero_zero_refused_witness :
    (exampleScene.setDims SubclassMethods.rejecting 0 0).result = false ∧
      (exampleScene.setDims SubclassMethods.rejecting 0 0).scene = exampleScene ∧
      (exampleScene.setDims SubclassMethods.rejecting 0 0).emitted = [Signal.changedDimX 2] :=
  have h := setDims_zero_zero_refused SubclassMethods.rejecting exampleScene exampleScene_reachable
  ⟨h.1, h.2.1, by decide⟩

end VibesScene2D

/-! ## What an update of properties does to the stored document -/

namespace QJsonObject

variable {R : Type}

theorem value_of_not_contains (o : QJsonObject R) (key : String) (h : o.contains key = false) :
    o.value key = QJsonValue.undefined := by
  induction o with
  | nil => rfl
  | cons p o ih =>
    obtain ⟨k, w⟩ := p
    by_cases hk : k = key
    · simp [contains, hk] at h
    · simp only [contains, hk, if_false] at h
      simp [value, hk, ih h]

end QJsonObject

namespace VibesGraphicsItem

section Document

variable {R G : Type}

theorem parseName_frame (self : VibesGraphicsItem R G) (json : QJsonObject R) :
    (parseName self json)._json = self._json ∧ (parseName self json).type = self.type := by
  unfold parseName setName
  split
  · split <;> exact ⟨rfl, rfl⟩
  · exact ⟨rfl, rfl⟩

/-- The loop of `setJsonValues` never writes a read-only key. -/
theorem setJsonValuesLoop_readOnly (self : VibesGraphicsItem R G) (values : QJsonObject R)
    (acc : QJsonObject R × Bool) (k : String) (hk : self.propertyIsReadOnly k = true) :
    (setJsonValuesLoop self values acc).1.value k = acc.1.value k ∧
      (setJsonValuesLoop self values acc).1.contains k = acc.1.contains k := by
  induction values generalizing acc with
  | nil => exact ⟨rfl, rfl⟩
  | cons p values ih =>
    obtain ⟨key, value⟩ := p
    unfold setJsonValuesLoop
    split
    · exact ih acc
    · rename_i hro
      have hne : key ≠ k := fun e => hro (e ▸ hk)
      have h := ih (acc.1.insert key value, if self.propertyChangesGeometry key then true else acc.2)
      rw [h.1, h.2]
      exact ⟨QJsonObject.value_insert_ne _ _ _ _ hne, QJsonObject.contains_insert_ne _ _ _ _ hne⟩

/-- The "format" processing only writes the keys "FaceColor", "EdgeColor" and
"format". -/
theorem parseFormat_other (json : QJsonObject R) (k : String)
    (h1 : k ≠ "FaceColor") (h2 : k ≠ "EdgeColor") (h3 : k ≠ "format") :
    (parseFormat json).value k = json.value k ∧
      (parseFormat json).contains k = json.contains k := by
  have fF : ∀ (o : QJsonObject R) (v : QJsonValue R), (o.insert "FaceColor" v).value k = o.value k :=
    fun o v => QJsonObject.value_insert_ne o _ k v (Ne.symm h1)
  have cF : ∀ (o : QJsonObject R) (v : QJsonValue R),
      (o.insert "FaceColor" v).contains k = o.contains k :=
    fun o v => QJsonObject.contains_insert_ne o _ k v (Ne.symm h1)
  have fE : ∀ (o : QJsonObject R) (v : QJsonValue R), (o.insert "EdgeColor" v).value k = o.value k :=
    fun o v => QJsonObject.value_insert_ne o _ k v (Ne.symm h2)
  have cE : ∀ (o : QJsonObject R) (v : QJsonValue R),
      (o.insert "EdgeColor" v).contains k = o.contains k :=
    fun o v => QJsonObject.contains_insert_ne o _ k v (Ne.symm h2)
  have fR : ∀ (o : QJsonObject R), (o.remove "format").value k = o.value k :=
    fun o => QJsonObject.value_remove_ne o _ k (Ne.symm h3)
  have cR : ∀ (o : QJsonObject R), (o.remove "format").contains k = o.contains k :=
    fun o => QJsonObject.contains_remove_ne o _ k (Ne.symm h3)
  unfold parseFormat
  split
  · simp only [fR, cR]
    split_ifs <;> simp only [fE, cE, fF, cF, and_self]
  · exact ⟨rfl, rfl⟩

/-- A document without a "format" string is left as it is. -/
theorem parseFormat_of_no_format (json : QJsonObject R)
    (h : (json.value "format").isString = false) : parseFormat json = json := by
  unfold parseFormat
  simp [h]

/-- After the "format" processing the document holds no "format" string. -/
theorem parseFormat_no_format (json : QJsonObject R) :
    ((parseFormat json).value "format").isString = false := by
  unfold parseFormat
  split
  · simp only
    rw [QJsonObject.value_of_not_contains _ _ (QJsonObject.contains_remove_self _ _)]
    rfl
  · rename_i h
    by_cases hc : json.contains "format" = true
    · simpa [hc] using h
    · rw [QJsonObject.value_of_not_contains _ _ (by simpa using hc)]
      rfl

theorem predefinedColor_other (t : QUnicodeTables) (json : QJsonObject R) (key k : String)
    (h : key ≠ k) :
    (predefinedColor t json key).value k = json.value k ∧
      (predefinedColor t json key).contains k = json.contains k := by
  unfold predefinedColor
  split
  · simp only
    split
    · exact ⟨QJsonObject.value_insert_ne _ _ _ _ h, QJsonObject.contains_insert_ne _ _ _ _ h⟩
    · exact ⟨rfl, rfl⟩
  · exact ⟨rfl, rfl⟩

/-- The renaming of group colours only writes "FaceColor" and "EdgeColor". -/
theorem parseGroupColors_other (t : QUnicodeTables) (self : VibesGraphicsItem R G)
    (json : QJsonObject R) (k : String) (h1 : k ≠ "FaceColor") (h2 : k ≠ "EdgeColor") :
    (parseGroupColors t self json).value k = json.value k ∧
      (parseGroupColors t self json).contains k = json.contains k := by
  unfold parseGroupColors
  split
  · have a := predefinedColor_other t (predefinedColor t json "FaceColor") "EdgeColor" k
      (Ne.symm h2)
    have b := predefinedColor_other t json "FaceColor" k (Ne.symm h1)
    exact ⟨a.1.trans b.1, a.2.trans b.2⟩
  · exact ⟨rfl, rfl⟩

/-- A colour that `toPredefinedColorName` does not recognise is left as it is. -/
theorem predefinedColor_unrecognised (t : QUnicodeTables) (json : QJsonObject R) (key : String)
    (h : (VibesDefaults.toPredefinedColorName t (json.value key).toString).1 = false) :
    predefinedColor t json key = json := by
  unfold predefinedColor
  simp [h]

end Document

section Frame

variable {R G : Type} [Zero R] [Sub R]

theorem computeProjection_frame (V : SubclassMethods R G) (self : VibesGraphicsItem R G)
    (dimX dimY : Int) :
    (computeProjection V self dimX dimY).2._json = self._json ∧
      (computeProjection V self dimX dimY).2.type = self.type := by
  unfold computeProjection
  split <;> exact ⟨rfl, rfl⟩

theorem setProj_frame (V : SubclassMethods R G) (self : VibesGraphicsItem R G) (dimX dimY : Int) :
    (setProj V self dimX dimY).2._json = self._json ∧
      (setProj V self dimX dimY).2.type = self.type := by
  unfold setProj
  simp only
  split
  · exact computeProjection_frame V _ _ _
  · exact ⟨rfl, rfl⟩

theorem parseJsonGraphicsWith_frame (V : SubclassMethods R G)
    (f : VibesGraphicsItem R G → QJsonObject R → VibesGraphicsItem R G)
    (self : VibesGraphicsItem R G) (json : QJsonObject R) :
    (parseJsonGraphicsWith V f self json).2._json = self._json ∧
      (parseJsonGraphicsWith V f self json).2.type = self.type := by
  unfold parseJsonGraphicsWith
  split
  · exact ⟨rfl, rfl⟩
  · unfold VibesGraphicsBox.parseJsonGraphics
    split
    · simp only
      split
      · split <;> exact ⟨rfl, rfl⟩
      · exact ⟨rfl, rfl⟩
    · exact ⟨rfl, rfl⟩
  · exact ⟨rfl, rfl⟩

/-- The stored document after `setJsonValues`: the properties that are not
read-only are written, then the "format" string and, for a group, the colour
names are rewritten. Validation and projection do not touch the document. -/
theorem setJsonValuesWith_json (V : SubclassMethods R G)
    (f : VibesGraphicsItem R G → QJsonObject R → VibesGraphicsItem R G)
    (self : VibesGraphicsItem R G) (values : QJsonObject R) :
    (setJsonValuesWith V f self values)._json
      = parseGroupColors V.unicode self (parseFormat (setJsonValuesLoop self values (self._json, false)).1) := by
  unfold setJsonValuesWith
  simp only
  have h1 : ∀ s : VibesGraphicsItem R G,
      (if s.type ≠ ItemType.VibesGraphicsGroupType then (updateProj V s).2 else s)._json = s._json := by
    intro s
    split
    · exact (setProj_frame V s _ _).1
    · rfl
  rw [h1]
  split
  · rw [(computeProjection_frame V _ _ _).1]
    rfl
  · rfl

theorem setJsonValuesWith_type (V : SubclassMethods R G)
    (f : VibesGraphicsItem R G → QJsonObject R → VibesGraphicsItem R G)
    (self : VibesGraphicsItem R G) (values : QJsonObject R) :
    (setJsonValuesWith V f self values).type = self.type := by
  unfold setJsonValuesWith
  simp only
  have h1 : ∀ s : VibesGraphicsItem R G,
      (if s.type ≠ ItemType.VibesGraphicsGroupType then (updateProj V s).2 else s).type = s.type := by
    intro s
    split
    · exact (setProj_frame V s _ _).2
    · rfl
  rw [h1]
  have h2 : ∀ s : VibesGraphicsItem R G, ∀ j : QJsonObject R,
      ({ (parseJsonWith V f s j).2.2 with _json := (parseJsonWith V f s j).2.1 } :
        VibesGraphicsItem R G).type = s.type := by
    intro s j
    show (parseJsonGraphicsWith V f (parseName s _) _).2.type = s.type
    rw [(parseJsonGraphicsWith_frame V f _ _).2, (parseName_frame _ _).2]
  split
  · rw [(computeProjection_frame V _ _ _).2]
    exact h2 _ _
  · exact h2 _ _

theorem setJsonValues_json (V : SubclassMethods R G) (self : VibesGraphicsItem R G)
    (values : QJsonObject R) :
    (setJsonValues V self values)._json
      = parseGroupColors V.unicode self (parseFormat (setJsonValuesLoop self values (self._json, false)).1) := by
  unfold setJsonValues
  cases self.depth with
  | zero => exact setJsonValuesWith_json V _ self values
  | succ n => exact setJsonValuesWith_json V _ self values

theorem setJsonValues_type (V : SubclassMethods R G) (self : VibesGraphicsItem R G)
    (values : QJsonObject R) : (setJsonValues V self values).type = self.type := by
  unfold setJsonValues
  cases self.depth with
  | zero => exact setJsonValuesWith_type V _ self values
  | succ n => exact setJsonValuesWith_type V _ self values

/-- After `setJsonValues` the stored document holds no "format" string. -/
theorem setJsonValues_no_format (V : SubclassMethods R G) (self : VibesGraphicsItem R G)
    (values : QJsonObject R) :
    ((setJsonValues V self values)._json.value "format").isString = false := by
  rw [setJsonValues_json,
    (parseGroupColors_other V.unicode self _ "format" (by decide) (by decide)).1]
  exact parseFormat_no_format _

/-- After `setJson` the stored document holds no "format" string, if it held
none before: an accepted document has been through the "format" processing, a
rejected one is not stored. -/
theorem setJson_no_format (V : SubclassMethods R G) (self : VibesGraphicsItem R G)
    (json : QJsonObject R) (dimX dimY : Int)
    (h : (self._json.value "format").isString = false) :
    ((setJson V self json dimX dimY).2._json.value "format").isString = false := by
  unfold setJson
  simp only
  split
  · have e : (parseJson V self json).2.2._json = self._json := by
      unfold parseJson parseJsonWith
      simp only
      rw [(parseJsonGraphicsWith_frame V _ _ _).1, (parseName_frame _ _).1]
    rw [e]
    exact h
  · rw [(setProj_frame V _ _ _).1]
    show ((parseGroupColors V.unicode self (parseFormat json)).value "format").isString = false
    rw [(parseGroupColors_other V.unicode self _ "format" (by decide) (by decide)).1]
    exact parseFormat_no_format _

end Frame

end VibesGraphicsItem

/-! ## Updating the properties of a shape -/

namespace VibesGraphicsItem

variable {R G : Type} [Zero R] [Sub R]

theorem setJsonValues_type_key (V : SubclassMethods R G) (self : VibesGraphicsItem R G)
    (values : QJsonObject R) :
    (setJsonValues V self values)._json.value "type" = self._json.value "type" ∧
      (setJsonValues V self values)._json.contains "type" = self._json.contains "type" := by
  rw [setJsonValues_json]
  have a := parseGroupColors_other V.unicode self
    (parseFormat (setJsonValuesLoop self values (self._json, false)).1) "type"
    (by decide) (by decide)
  have b := parseFormat_other (setJsonValuesLoop self values (self._json, false)).1 "type"
    (by decide) (by decide) (by decide)
  have c := setJsonValuesLoop_readOnly self values (self._json, false) "type" rfl
  exact ⟨a.1.trans (b.1.trans c.1), a.2.trans (b.2.trans c.2)⟩

theorem applyUpdates_type_key (V : SubclassMethods R G) (updates : List (JsonUpdate R))
    (self : VibesGraphicsItem R G) :
    (applyUpdates V self updates)._json.value "type" = self._json.value "type" ∧
      (applyUpdates V self updates)._json.contains "type" = self._json.contains "type" := by
  induction updates generalizing self with
  | nil => exact ⟨rfl, rfl⟩
  | cons u updates ih =>
    have h := ih (applyUpdate V self u)
    have hu : (applyUpdate V self u)._json.value "type" = self._json.value "type" ∧
        (applyUpdate V self u)._json.contains "type" = self._json.contains "type" := by
      cases u with
      | setJsonValue key value => exact setJsonValues_type_key V self _
      | setJsonValues values => exact setJsonValues_type_key V self values
    exact ⟨h.1.trans hu.1, h.2.trans hu.2⟩

/-- C6. For every shape whose document contains a "type" and every sequence of
`setJsonValue` / `setJsonValues` calls (batches with a "type" entry included),
`jsonValue("type")` afterwards still returns the original type, whatever groups
own the shape. -/
theorem type_immutable (V : SubclassMethods R G) (self : VibesGraphicsItem R G)
    (updates : List (JsonUpdate R)) (owners : ParentChain R G)
    (h : self._json.contains "type" = true) :
    (applyUpdates V self updates).jsonValue owners "type" = self._json.value "type" ∧
      (applyUpdates V self updates).jsonValue owners "type" = self.jsonValue owners "type" := by
  have hk := applyUpdates_type_key V updates self
  have e1 : (applyUpdates V self updates).jsonValue owners "type" = self._json.value "type" := by
    unfold jsonValue
    simp only [json, hk.2, h, if_true]
    exact hk.1
  have e2 : self.jsonValue owners "type" = self._json.value "type" := by
    unfold jsonValue
    simp only [json, h, if_true]
  exact ⟨e1, e1.trans e2.symm⟩

/-- A box keeps the type "box" after `setJsonValue("type", "ellipse")` followed by
a batch that sets "type" and "FaceColor". -/
theorem type_immutable_witness :
    (boxItem [0, 1, 0, 1])._json.contains "type" = true ∧
      (applyUpdates SubclassMethods.rejecting (boxItem [0, 1, 0, 1])
        [JsonUpdate.setJsonValue "type" (QJsonValue.string "ellipse"),
         JsonUpdate.setJsonValues [("type", QJsonValue.string "group"),
           ("FaceColor", QJsonValue.string "red")]]).jsonValue [] "type"
        = QJsonValue.string "box" :=
  ⟨by decide, (type_immutable SubclassMethods.rejecting (boxItem [0, 1, 0, 1]) _ []
    (by decide)).1.trans rfl⟩

/-- C5, as the code has it. On a shape whose stored document holds no "format"
string, for every key `k` that is not read-only and every value `v`,
`setJsonValues({k: v})` followed by `jsonValue(k)` returns `v`, unless `k` is
"format" and `v` is a string, or the shape is a group, `k` is "FaceColor" or
"EdgeColor" and `v` is a colour that `toPredefinedColorName` recognises, with the
case mappings of Qt (`V.unicode`). -/
theorem setJsonValues_jsonValue (V : SubclassMethods R G) (self : VibesGraphicsItem R G)
    (owners : ParentChain R G) (k : String) (v : QJsonValue R)
    (hro : self.propertyIsReadOnly k = false)
    (hv : v.isUndefined = false)
    (hstored : (self._json.value "format").isString = false)
    (hformat : ¬ (k = "format" ∧ v.isString = true))
    (hcolor : ¬ (self.type = ItemType.VibesGraphicsGroupType ∧ (k = "FaceColor" ∨ k = "EdgeColor") ∧
      (VibesDefaults.toPredefinedColorName V.unicode v.toString).1 = true)) :
    (self.setJsonValues V [(k, v)]).jsonValue owners k = v := by
  -- the document after the loop
  have hloop : (setJsonValuesLoop self [(k, v)] (self._json, false)).1 = self._json.insert k v := by
    simp [setJsonValuesLoop, hro]
  have hval : (self._json.insert k v).value k = v := QJsonObject.value_insert_self _ _ _ hv
  have hcon : (self._json.insert k v).contains k = true := QJsonObject.contains_insert_self _ _ _ hv
  -- it holds no "format" string, so the "format" processing leaves it alone
  have hfmt : ((self._json.insert k v).value "format").isString = false := by
    by_cases hk : k = "format"
    · subst hk
      rw [hval]
      cases hs : v.isString
      · rfl
      · exact absurd ⟨rfl, hs⟩ hformat
    · rw [QJsonObject.value_insert_ne _ _ _ _ hk]
      exact hstored
  -- the colour renaming of a group leaves the key alone
  have hgroup : (parseGroupColors V.unicode self (self._json.insert k v)).value k = v ∧
      (parseGroupColors V.unicode self (self._json.insert k v)).contains k = true := by
    by_cases hF : k = "FaceColor"
    · subst hF
      unfold parseGroupColors
      split
      · rename_i ht
        have hu : (VibesDefaults.toPredefinedColorName V.unicode v.toString).1 = false := by
          cases hc : (VibesDefaults.toPredefinedColorName V.unicode v.toString).1
          · rfl
          · exact absurd ⟨ht, Or.inl rfl, hc⟩ hcolor
        rw [predefinedColor_unrecognised V.unicode (self._json.insert "FaceColor" v) "FaceColor"
          (by rw [hval]; exact hu)]
        have o := predefinedColor_other V.unicode (self._json.insert "FaceColor" v) "EdgeColor"
          "FaceColor" (by decide)
        exact ⟨o.1.trans hval, o.2.trans hcon⟩
      · exact ⟨hval, hcon⟩
    · by_cases hE : k = "EdgeColor"
      · subst hE
        unfold parseGroupColors
        split
        · rename_i ht
          have hu : (VibesDefaults.toPredefinedColorName V.unicode v.toString).1 = false := by
            cases hc : (VibesDefaults.toPredefinedColorName V.unicode v.toString).1
            · rfl
            · exact absurd ⟨ht, Or.inr rfl, hc⟩ hcolor
          have o := predefinedColor_other V.unicode (self._json.insert "EdgeColor" v) "FaceColor"
            "EdgeColor" (by decide)
          rw [predefinedColor_unrecognised V.unicode
            (predefinedColor V.unicode (self._json.insert "EdgeColor" v) "FaceColor") "EdgeColor"
            (by rw [o.1, hval]; exact hu)]
          exact ⟨o.1.trans hval, o.2.trans hcon⟩
        · exact ⟨hval, hcon⟩
      · have o := parseGroupColors_other V.unicode self (self._json.insert k v) k hF hE
        exact ⟨o.1.trans hval, o.2.trans hcon⟩
  have hjson : (self.setJsonValues V [(k, v)])._json = parseGroupColors V.unicode self (self._json.insert k v) := by
    rw [setJsonValues_json, hloop, parseFormat_of_no_format _ hfmt]
  unfold jsonValue
  simp only [json, hjson, hgroup.2, if_true]
  exact hgroup.1

/-- A box updated with `{"FaceColor": "blue"}` reports "blue"; so does a group,
"blue" not being a name that is rewritten. -/
theorem setJsonValues_jsonValue_witness :
    ((boxItem [0, 1, 0, 1]).setJsonValues SubclassMethods.rejecting
        [("FaceColor", QJsonValue.string "blue")]).jsonValue [] "FaceColor"
      = QJsonValue.string "blue" ∧
    (groupItem.setJsonValues SubclassMethods.rejecting
        [("FaceColor", QJsonValue.string "blue")]).jsonValue [] "FaceColor"
      = QJsonValue.string "blue" :=
  ⟨setJsonValues_jsonValue SubclassMethods.rejecting (boxItem [0, 1, 0, 1]) [] "FaceColor"
      (QJsonValue.string "blue") rfl rfl rfl (by decide) (by decide),
    setJsonValues_jsonValue SubclassMethods.rejecting groupItem [] "FaceColor"
      (QJsonValue.string "blue") rfl rfl rfl (by decide) (by decide)⟩

/-- C5 fails as stated. After `setJsonValues({"format": "[r]b"})` on a box,
`jsonValue("format")` is the null value (the key is gone, its parts are in
"FaceColor" and "EdgeColor"); after `setJsonValues({"FaceColor": "r"})` on a group,
`jsonValue("FaceColor")` is "red". -/
theorem setJsonValues_jsonValue_counterexample :
    (((boxItem [0, 1, 0, 1]).setJsonValues SubclassMethods.rejecting
        [("format", QJsonValue.string "[r]b")]).jsonValue [] "format" = QJsonValue.null ∧
      ((boxItem [0, 1, 0, 1]).setJsonValues SubclassMethods.rejecting
        [("format", QJsonValue.string "[r]b")]).jsonValue [] "format" ≠ QJsonValue.string "[r]b" ∧
      ((boxItem [0, 1, 0, 1]).setJsonValues SubclassMethods.rejecting
        [("format", QJsonValue.string "[r]b")]).jsonValue [] "FaceColor" = QJsonValue.string "r" ∧
      ((boxItem [0, 1, 0, 1]).setJsonValues SubclassMethods.rejecting
        [("format", QJsonValue.string "[r]b")]).jsonValue [] "EdgeColor" = QJsonValue.string "b") ∧
    ((groupItem.setJsonValues SubclassMethods.rejecting
        [("FaceColor", QJsonValue.string "r")]).jsonValue [] "FaceColor" = QJsonValue.string "red" ∧
      (groupItem.setJsonValues SubclassMethods.rejecting
        [("FaceColor", QJsonValue.string "r")]).jsonValue [] "FaceColor" ≠ QJsonValue.string "r") := by
  have e1 : ((boxItem [0, 1, 0, 1]).setJsonValues SubclassMethods.rejecting
      [("format", QJsonValue.string "[r]b")]).jsonValue [] "format" = QJsonValue.null := rfl
  have e2 : (groupItem.setJsonValues SubclassMethods.rejecting
      [("FaceColor", QJsonValue.string "r")]).jsonValue [] "FaceColor" = QJsonValue.string "red" := rfl
  refine ⟨⟨e1, ?_, rfl, rfl⟩, e2, ?_⟩
  · rw [e1]; exact fun h => by cases h
  · rw [e2]; intro h; injection h with h; exact absurd h (by decide)

/-- C4 at the failing input: the box with bounds `[0,1,0,1]` is updated with
bounds `[1,2,3]`. The merged document fails validation (`parseJson` returns
false), and yet the stored document now holds the bounds `[1,2,3]`; the
dimension is still 2, so the condition `_nbDim == bounds.size() / 2` asserted by
the projection no longer holds, and the rectangle has been set from the rejected
bounds. -/
theorem setJsonValues_commits_rejected_document :
    ((boxItem [0, 1, 0, 1]).parseJson SubclassMethods.rejecting rejectedUpdate).1 = false ∧
      (boxItem [0, 1, 0, 1])._json.value "bounds" = QJsonArray.ofNumbers [0, 1, 0, 1] ∧
      ((boxItem [0, 1, 0, 1]).setJsonValues SubclassMethods.rejecting
        [("bounds", QJsonArray.ofNumbers [1, 2, 3])])._json.value "bounds"
        = QJsonArray.ofNumbers [1, 2, 3] ∧
      ((boxItem [0, 1, 0, 1]).setJsonValues SubclassMethods.rejecting
        [("bounds", QJsonArray.ofNumbers [1, 2, 3])])._json ≠ (boxItem [0, 1, 0, 1])._json ∧
      ((boxItem [0, 1, 0, 1]).setJsonValues SubclassMethods.rejecting
        [("bounds", QJsonArray.ofNumbers [1, 2, 3])]).dimension = 2 ∧
      VibesGraphicsBox.computeProjectionAsserts ((boxItem [0, 1, 0, 1]).setJsonValues
        SubclassMethods.rejecting [("bounds", QJsonArray.ofNumbers [1, 2, 3])]) 0 1 = false ∧
      ((boxItem [0, 1, 0, 1]).setJsonValues SubclassMethods.rejecting
        [("bounds", QJsonArray.ofNumbers [1, 2, 3])]).rect = ⟨1, 3, 1, -3⟩ := by
  refine ⟨by decide, rfl, rfl, ?_, by decide, by decide, rfl⟩
  intro h
  exact absurd (congrArg (fun j => (QJsonObject.value j "bounds").toArray.length) h) (by decide)

end VibesGraphicsItem

/-! ## Property lookup through the owning groups -/

namespace VibesGraphicsItem

variable {R G : Type}

theorem jsonValue_own (self : VibesGraphicsItem R G) (owners : ParentChain R G) (key : String)
    (h : self.json.contains key = true) : self.jsonValue owners key = self.json.value key := by
  unfold jsonValue
  simp [h]

theorem jsonValue_delegate (self g : VibesGraphicsItem R G) (rest : ParentChain R G) (key : String)
    (h : self.json.contains key = false) (hg : g.type = ItemType.VibesGraphicsGroupType) :
    self.jsonValue (g :: rest) key = g.jsonValue rest key := by
  rw [jsonValue]
  simp [h, hg]

theorem jsonValue_undefined (self : VibesGraphicsItem R G) (owners : ParentChain R G)
    (key : String) (h : self.json.contains key = false)
    (hall : ∀ g ∈ owners, g.json.contains key = false) :
    self.jsonValue owners key = QJsonValue.null := by
  induction owners generalizing self with
  | nil => unfold jsonValue; simp [h]
  | cons g rest ih =>
    by_cases hg : g.type = ItemType.VibesGraphicsGroupType
    · rw [jsonValue_delegate self g rest key h hg]
      exact ih g (hall g (List.mem_cons_self g rest))
        (fun g' hg' => hall g' (List.mem_cons_of_mem g hg'))
    · rw [jsonValue]
      simp [h, hg]

/-- C7, as the code has it. `jsonValue(key)` returns the shape's own value when
its document contains the key, whatever its owners define. Otherwise, when the
shape is a member of a group, it returns what `jsonValue(key)` returns on that
group: the group's value when the group defines the key, and else the answer of
the group's own owner. It returns the null value `QJsonValue()` when the shape
has no owner, when its owner is not a `VibesGraphicsGroup`, and when no item up
the chain of owners defines the key. -/
theorem jsonValue_resolution (self : VibesGraphicsItem R G) (owners : ParentChain R G)
    (key : String) :
    (self.json.contains key = true → self.jsonValue owners key = self.json.value key) ∧
    (self.json.contains key = false →
      (∀ g rest, owners = g :: rest → g.type = ItemType.VibesGraphicsGroupType →
        self.jsonValue owners key = g.jsonValue rest key ∧
        (g.json.contains key = true → self.jsonValue owners key = g.json.value key)) ∧
      (owners = [] → self.jsonValue owners key = QJsonValue.null) ∧
      (∀ g rest, owners = g :: rest → g.type ≠ ItemType.VibesGraphicsGroupType →
        self.jsonValue owners key = QJsonValue.null) ∧
      ((∀ g ∈ owners, g.json.contains key = false) →
        self.jsonValue owners key = QJsonValue.null)) := by
  refine ⟨jsonValue_own self owners key, fun h => ⟨?_, ?_, ?_, jsonValue_undefined self owners key h⟩⟩
  · intro g rest ho hg
    subst ho
    have e := jsonValue_delegate self g rest key h hg
    exact ⟨e, fun hc => e.trans (jsonValue_own g rest key hc)⟩
  · intro ho
    subst ho
    unfold jsonValue
    simp [h]
  · intro g rest ho hg
    subst ho
    rw [jsonValue]
    simp [h, hg]

/-- C8, as the code has it. The lookup goes on past the immediate owner: for a
shape inside the group `g1` that is itself a member of the group `g2`, if
neither the shape nor `g1` defines the key while `g2` does, `jsonValue(key)` on
the shape returns the value of `g2`. -/
theorem jsonValue_second_level (self g1 g2 : VibesGraphicsItem R G) (rest : ParentChain R G)
    (key : String)
    (hself : self.json.contains key = false)
    (h1 : g1.type = ItemType.VibesGraphicsGroupType) (hg1 : g1.json.contains key = false)
    (h2 : g2.type = ItemType.VibesGraphicsGroupType) (hg2 : g2.json.contains key = true) :
    self.jsonValue (g1 :: g2 :: rest) key = g2.json.value key := by
  rw [jsonValue_delegate self g1 (g2 :: rest) key hself h1,
    jsonValue_delegate g1 g2 rest key hg1 h2]
  exact jsonValue_own g2 rest key hg2

end VibesGraphicsItem

namespace VibesGraphicsItem

/-- Scenario D: the two boxes of `redGroup` do not set FaceColor themselves and
both report "red"; a box that sets FaceColor = "blue" reports "blue" in the same
group; a box without owner reports the null value. -/
theorem jsonValue_resolution_witness :
    redGroup.childItems.length = 2 ∧
      (∀ child ∈ redGroup.childItems, child.json.contains "FaceColor" = false ∧
        child.jsonValue [redGroup] "FaceColor" = QJsonValue.string "red") ∧
      ((boxItem [0, 1, 0, 1]).setJsonValues SubclassMethods.rejecting
        [("FaceColor", QJsonValue.string "blue")]).jsonValue [redGroup] "FaceColor"
        = QJsonValue.string "blue" ∧
      (boxItem [0, 1, 0, 1]).jsonValue [] "FaceColor" = QJsonValue.null := by
  refine ⟨rfl, ?_, ?_, ?_⟩
  · intro child hchild
    have hkids : redGroup.childItems = [boxItem [0, 1, 0, 1], boxItem [2, 3, 2, 3]] := rfl
    rw [hkids] at hchild
    have hc : child.json.contains "FaceColor" = false := by
      rcases List.mem_cons.1 hchild with e | hchild
      · subst e; rfl
      · rcases List.mem_cons.1 hchild with e | hchild
        · subst e; rfl
        · cases hchild
    exact ⟨hc, (((jsonValue_resolution child [redGroup] "FaceColor").2 hc).1 redGroup [] rfl rfl).2
      rfl⟩
  · exact (jsonValue_resolution _ [redGroup] "FaceColor").1 rfl
  · exact ((jsonValue_resolution (boxItem [0, 1, 0, 1]) [] "FaceColor").2 rfl).2.1 rfl

/-- C7 fails as stated. A box without EdgeColor in a group without EdgeColor is
not a member of a group that defines the key, and `jsonValue("EdgeColor")` is not
an undefined value: it is "green", taken from the group that owns the group. -/
theorem jsonValue_resolution_counterexample :
    (boxItem [0, 1, 0, 1]).json.contains "EdgeColor" = false ∧
      groupItem.type = ItemType.VibesGraphicsGroupType ∧
      groupItem.json.contains "EdgeColor" = false ∧
      (boxItem [0, 1, 0, 1]).jsonValue [groupItem, styledGroup "EdgeColor" "green"] "EdgeColor"
        = QJsonValue.string "green" ∧
      (boxItem [0, 1, 0, 1]).jsonValue [groupItem, styledGroup "EdgeColor" "green"] "EdgeColor"
        ≠ QJsonValue.null ∧
      (boxItem [0, 1, 0, 1]).jsonValue [groupItem, styledGroup "EdgeColor" "green"] "EdgeColor"
        ≠ QJsonValue.undefined := by
  have e : (boxItem [0, 1, 0, 1]).jsonValue [groupItem, styledGroup "EdgeColor" "green"] "EdgeColor"
      = QJsonValue.string "green" := rfl
  refine ⟨rfl, rfl, rfl, e, ?_, ?_⟩
  · rw [e]; exact fun h => by cases h
  · rw [e]; exact fun h => by cases h

/-- The first box of `redGroup`, read inside `outerGroup`, finds LineWidth = "2"
two levels up. -/
theorem jsonValue_second_level_witness :
    (boxItem [0, 1, 0, 1]).jsonValue [redGroup, outerGroup] "LineWidth" = QJsonValue.string "2" :=
  (jsonValue_second_level (boxItem [0, 1, 0, 1]) redGroup outerGroup [] "LineWidth"
    rfl rfl rfl rfl rfl).trans rfl

/-- C8 fails as stated. With a box inside `redGroup` inside `outerGroup`, neither
the box nor `redGroup` defines "LineWidth" while `outerGroup` does, and
`jsonValue("LineWidth")` on the box is "2", not an undefined value. -/
theorem jsonValue_one_level_counterexample :
    (boxItem [0, 1, 0, 1]).json.contains "LineWidth" = false ∧
      redGroup.json.contains "LineWidth" = false ∧
      outerGroup.json.contains "LineWidth" = true ∧
      (boxItem [0, 1, 0, 1]).jsonValue [redGroup, outerGroup] "LineWidth" ≠ QJsonValue.null ∧
      (boxItem [0, 1, 0, 1]).jsonValue [redGroup, outerGroup] "LineWidth" ≠ QJsonValue.undefined := by
  have e : (boxItem [0, 1, 0, 1]).jsonValue [redGroup, outerGroup] "LineWidth"
      = QJsonValue.string "2" := rfl
  refine ⟨rfl, rfl, rfl, ?_, ?_⟩
  · rw [e]; exact fun h => by cases h
  · rw [e]; exact fun h => by cases h

end VibesGraphicsItem

/-! ## The nesting depth is enough to reach every member -/

namespace VibesGraphicsItem

section Depth

variable {R G : Type}

theorem depth_eq (self : VibesGraphicsItem R G) : self.depth = depthList self.childItems := by
  cases self
  simp [depth]

theorem depth_congr (a b : VibesGraphicsItem R G) (h : a.childItems = b.childItems) :
    a.depth = b.depth := by
  rw [depth_eq, depth_eq, h]

theorem depth_lt_of_mem (cs : List (VibesGraphicsItem R G)) (c : VibesGraphicsItem R G)
    (h : c ∈ cs) : c.depth < depthList cs := by
  induction cs with
  | nil => cases h
  | cons x xs ih =>
    simp only [depthList]
    rcases List.mem_cons.1 h with e | h
    · subst e; omega
    · have := ih h; omega

theorem depthList_map (cs : List (VibesGraphicsItem R G))
    (g : VibesGraphicsItem R G → VibesGraphicsItem R G)
    (h : ∀ c ∈ cs, (g c).depth = c.depth) : depthList (cs.map g) = depthList cs := by
  induction cs with
  | nil => rfl
  | cons x xs ih =>
    simp only [List.map, depthList]
    rw [h x (List.mem_cons_self x xs), ih (fun c hc => h c (List.mem_cons_of_mem x hc))]

theorem parseName_childItems (self : VibesGraphicsItem R G) (json : QJsonObject R) :
    (parseName self json).childItems = self.childItems := by
  unfold parseName setName
  split
  · split <;> rfl
  · rfl

end Depth

section Fuel

variable {R G : Type} [Zero R] [Sub R]

theorem computeProjection_childItems (V : SubclassMethods R G) (self : VibesGraphicsItem R G)
    (dimX dimY : Int) : (computeProjection V self dimX dimY).2.childItems = self.childItems := by
  unfold computeProjection
  split <;> rfl

theorem setProj_childItems (V : SubclassMethods R G) (self : VibesGraphicsItem R G)
    (dimX dimY : Int) : (setProj V self dimX dimY).2.childItems = self.childItems := by
  unfold setProj
  simp only
  split
  · exact computeProjection_childItems V _ _ _
  · rfl

theorem parseJsonGraphicsChild_agree (V : SubclassMethods R G) (d : Nat)
    (f f' : VibesGraphicsItem R G → QJsonObject R → VibesGraphicsItem R G)
    (h : AgreeBelow d f f') (json : QJsonObject R) (c : VibesGraphicsItem R G) (hc : c.depth < d) :
    VibesGraphicsGroup.parseJsonGraphicsChild V f json c
        = VibesGraphicsGroup.parseJsonGraphicsChild V f' json c ∧
      (VibesGraphicsGroup.parseJsonGraphicsChild V f json c).depth = c.depth := by
  -- one conditional `setJsonValue` keeps the agreement and the depth
  have step : ∀ (key : String) (a b : VibesGraphicsItem R G), a = b → a.depth = c.depth →
      (if (json.value key).toString ≠ "" then setJsonValueWith f a key (json.value key) else a)
        = (if (json.value key).toString ≠ "" then setJsonValueWith f' b key (json.value key) else b) ∧
      (if (json.value key).toString ≠ "" then setJsonValueWith f a key (json.value key) else a).depth
        = c.depth := by
    intro key a b hab ha
    subst hab
    split
    · have := h a (by omega) (QJsonObject.insert [] key (json.value key))
      exact ⟨this.1, this.2.trans ha⟩
    · exact ⟨rfl, ha⟩
  unfold VibesGraphicsGroup.parseJsonGraphicsChild
  split
  · have s1 := step "EdgeColor" c c rfl rfl
    have s2 := step "FaceColor" _ _ s1.1 s1.2
    have s3 := step "LineStyle" _ _ s2.1 s2.2
    have s4 := step "LineWidth" _ _ s3.1 s3.2
    simp only
    rw [s4.1]
    refine ⟨rfl, ?_⟩
    rw [← s4.1]
    exact (depth_congr _ _ (setProj_childItems V _ _ _)).trans s4.2
  · exact ⟨rfl, rfl⟩

theorem parseJsonGraphicsWith_agree (V : SubclassMethods R G)
    (f f' : VibesGraphicsItem R G → QJsonObject R → VibesGraphicsItem R G)
    (self : VibesGraphicsItem R G) (h : AgreeBelow self.depth f f') (json : QJsonObject R) :
    parseJsonGraphicsWith V f self json = parseJsonGraphicsWith V f' self json ∧
      (parseJsonGraphicsWith V f self json).2.depth = self.depth := by
  unfold parseJsonGraphicsWith
  split
  · have hmap : ∀ c ∈ self.childItems,
        VibesGraphicsGroup.parseJsonGraphicsChild V f json c
          = VibesGraphicsGroup.parseJsonGraphicsChild V f' json c ∧
        (VibesGraphicsGroup.parseJsonGraphicsChild V f json c).depth = c.depth := by
      intro c hc
      exact parseJsonGraphicsChild_agree V self.depth f f' h json c
        (by rw [depth_eq self]; exact depth_lt_of_mem _ c hc)
    unfold VibesGraphicsGroup.parseJsonGraphics
    constructor
    · rw [List.map_congr_left (fun c hc => (hmap c hc).1)]
    · rw [depth_eq, depth_eq self]
      exact depthList_map _ _ (fun c hc => (hmap c hc).2)
  · refine ⟨rfl, ?_⟩
    unfold VibesGraphicsBox.parseJsonGraphics
    split
    · simp only
      split
      · split
        · rfl
        · exact depth_congr _ _ rfl
      · rfl
    · rfl
  · exact ⟨rfl, depth_congr _ _ rfl⟩

theorem setJsonValuesWith_agree (V : SubclassMethods R G)
    (f f' : VibesGraphicsItem R G → QJsonObject R → VibesGraphicsItem R G)
    (self : VibesGraphicsItem R G) (h : AgreeBelow self.depth f f') (values : QJsonObject R) :
    setJsonValuesWith V f self values = setJsonValuesWith V f' self values ∧
      (setJsonValuesWith V f self values).depth = self.depth := by
  have hp : ∀ (s : VibesGraphicsItem R G) (j : QJsonObject R), s.depth = self.depth →
      parseJsonWith V f s j = parseJsonWith V f' s j ∧
        (parseJsonWith V f s j).2.2.depth = self.depth := by
    intro s j hs
    unfold parseJsonWith
    simp only
    have hd : (parseName s (parseGroupColors V.unicode s (parseFormat j))).depth = self.depth :=
      (depth_congr _ _ (parseName_childItems _ _)).trans hs
    have := parseJsonGraphicsWith_agree V f f' (parseName s (parseGroupColors V.unicode s (parseFormat j)))
      (by rw [hd]; exact h) (parseGroupColors V.unicode s (parseFormat j))
    rw [this.1]
    exact ⟨rfl, (this.1 ▸ this.2).trans hd⟩
  have hu : ∀ s : VibesGraphicsItem R G,
      (if s.type ≠ ItemType.VibesGraphicsGroupType then (updateProj V s).2 else s).depth = s.depth := by
    intro s
    split
    · exact depth_congr _ _ (setProj_childItems V _ _ _)
    · rfl
  have hc : ∀ (b : Bool) (s : VibesGraphicsItem R G),
      (if b then (computeProjection V s s._dimX s._dimY).2 else s).depth = s.depth := by
    intro b s
    split
    · exact depth_congr _ _ (computeProjection_childItems V _ _ _)
    · rfl
  unfold setJsonValuesWith
  simp only
  have := hp { self with _json := (setJsonValuesLoop self values (self._json, false)).1 }
    (setJsonValuesLoop self values (self._json, false)).1 (depth_congr _ _ rfl)
  constructor
  · rw [this.1]
  · rw [hu, hc]
    refine (depth_eq _).trans ?_
    exact (depth_eq (parseJsonWith V f _ _).2.2).symm.trans this.2

theorem setJsonValuesDepth_agree (V : SubclassMethods R G) (n m : Nat)
    (self : VibesGraphicsItem R G) (hn : self.depth ≤ n) (hm : self.depth ≤ m)
    (values : QJsonObject R) :
    setJsonValuesDepth V n self values = setJsonValuesDepth V m self values ∧
      (setJsonValuesDepth V n self values).depth = self.depth := by
  induction n generalizing m self values with
  | zero =>
    have h0 : self.depth = 0 := by omega
    cases m with
    | zero => exact setJsonValuesWith_agree V _ _ self (fun c hc => by omega) values
    | succ m => exact setJsonValuesWith_agree V _ _ self (fun c hc => by omega) values
  | succ n ih =>
    cases m with
    | zero => exact setJsonValuesWith_agree V _ _ self (fun c hc => by omega) values
    | succ m =>
      exact setJsonValuesWith_agree V _ _ self
        (fun c hc vals => ih m c (by omega) (by omega) vals) values

/-- The recursive equation of `VibesGraphicsItem::setJsonValues`: the members of a
group are updated by the same method, however deep the groups are nested. -/
theorem setJsonValues_eq (V : SubclassMethods R G) (self : VibesGraphicsItem R G)
    (values : QJsonObject R) :
    setJsonValues V self values = setJsonValuesWith V (setJsonValues V) self values := by
  unfold setJsonValues
  cases hd : self.depth with
  | zero =>
    exact (setJsonValuesWith_agree V _ _ self (fun c hc => by omega) values).1
  | succ n =>
    exact (setJsonValuesWith_agree V _ _ self
      (fun c hc vals => by
        have := setJsonValuesDepth_agree V n c.depth c (by omega) (le_refl _) vals
        exact ⟨this.1, this.2⟩) values).1

end Fuel

end VibesGraphicsItem

/-! ## Refused and accepted calls on the scene -/

namespace VibesScene2D

variable {R G : Type} [Zero R] [Sub R]

theorem setDimX_refused (V : SubclassMethods R G) (s : VibesScene2D R G) (d : Int)
    (h : (s.setDimX V d).result = false) : (s.setDimX V d).scene = s := by
  unfold setDimX at h ⊢
  split
  · rename_i hc; simp [hc] at h
  · rfl

theorem setDimY_refused (V : SubclassMethods R G) (s : VibesScene2D R G) (d : Int)
    (h : (s.setDimY V d).result = false) : (s.setDimY V d).scene = s := by
  unfold setDimY at h ⊢
  split
  · rename_i hc; simp [hc] at h
  · rfl

theorem setDimX_accepted (V : SubclassMethods R G) (s : VibesScene2D R G) (d : Int)
    (h : (s.setDimX V d).result = true) :
    (s.setDimX V d).scene.dimX = d ∧ (s.setDimX V d).scene.dimY = s.dimY ∧
      (s.setDimX V d).scene.nbDim = s.nbDim := by
  unfold setDimX at h ⊢
  split
  · exact ⟨rfl, rfl, rfl⟩
  · rename_i hc; simp [hc] at h

theorem setDimY_accepted (V : SubclassMethods R G) (s : VibesScene2D R G) (d : Int)
    (h : (s.setDimY V d).result = true) :
    (s.setDimY V d).scene.dimY = d ∧ (s.setDimY V d).scene.dimX = s.dimX ∧
      (s.setDimY V d).scene.nbDim = s.nbDim := by
  unfold setDimY at h ⊢
  split
  · exact ⟨rfl, rfl, rfl⟩
  · rename_i hc; simp [hc] at h

/-- C11. A refused axis change never alters the state: whenever `setDimX`,
`setDimY` or `setDims` returns false the scene after the call is the scene before
it, so `(dimX, dimY, nbDim)` is the same triple. An accepted `setDimX(d)` sets
`dimX` to `d` and leaves `dimY` and `nbDim` unchanged; an accepted `setDimY(d)`
sets `dimY` to `d` and leaves `dimX` and `nbDim` unchanged. -/
theorem refused_change_keeps_state (V : SubclassMethods R G) (s : VibesScene2D R G) :
    (∀ d, (s.setDimX V d).result = false →
      (s.setDimX V d).scene = s ∧
      ((s.setDimX V d).scene.dimX, (s.setDimX V d).scene.dimY, (s.setDimX V d).scene.nbDim)
        = (s.dimX, s.dimY, s.nbDim)) ∧
    (∀ d, (s.setDimY V d).result = false →
      (s.setDimY V d).scene = s ∧
      ((s.setDimY V d).scene.dimX, (s.setDimY V d).scene.dimY, (s.setDimY V d).scene.nbDim)
        = (s.dimX, s.dimY, s.nbDim)) ∧
    (∀ dx dy, (s.setDims V dx dy).result = false →
      (s.setDims V dx dy).scene = s ∧
      ((s.setDims V dx dy).scene.dimX, (s.setDims V dx dy).scene.dimY,
        (s.setDims V dx dy).scene.nbDim) = (s.dimX, s.dimY, s.nbDim)) ∧
    (∀ d, (s.setDimX V d).result = true →
      (s.setDimX V d).scene.dimX = d ∧ (s.setDimX V d).scene.dimY = s.dimY ∧
        (s.setDimX V d).scene.nbDim = s.nbDim) ∧
    (∀ d, (s.setDimY V d).result = true →
      (s.setDimY V d).scene.dimY = d ∧ (s.setDimY V d).scene.dimX = s.dimX ∧
        (s.setDimY V d).scene.nbDim = s.nbDim) := by
  have hdims : ∀ dx dy, (s.setDims V dx dy).result = false → (s.setDims V dx dy).scene = s := by
    intro dx dy h
    unfold setDims at h ⊢
    split
    · rename_i h1
      rw [if_pos h1] at h
      exact setDimY_refused V s dy h
    · rename_i h1
      rw [if_neg h1] at h
      split
      · rename_i h2
        rw [if_pos h2] at h
        exact setDimX_refused V s dx h
      · rename_i h2
        rw [if_neg h2] at h
        split
        · rename_i hc; simp [hc] at h
        · rfl
  refine ⟨fun d h => ?_, fun d h => ?_, fun dx dy h => ?_, setDimX_accepted V s, setDimY_accepted V s⟩
  · have e := setDimX_refused V s d h
    exact ⟨e, by rw [e]⟩
  · have e := setDimY_refused V s d h
    exact ⟨e, by rw [e]⟩
  · have e := hdims dx dy h
    exact ⟨e, by rw [e]⟩

/-- In the scene with axes `(2, 0)` and `nbDim = 3`, the refused `setDimX(7)`
leaves the scene as it is, and the accepted `setDimX(1)` gives the axes `(1, 0)`
with `nbDim = 3`. -/
theorem refused_change_keeps_state_witness :
    (exampleScene.setDimX SubclassMethods.rejecting 7).result = false ∧
      (exampleScene.setDimX SubclassMethods.rejecting 7).scene = exampleScene ∧
      (exampleScene.setDimX SubclassMethods.rejecting 1).result = true ∧
      (exampleScene.setDimX SubclassMethods.rejecting 1).scene.dimX = 1 ∧
      (exampleScene.setDimX SubclassMethods.rejecting 1).scene.dimY = 0 ∧
      (exampleScene.setDimX SubclassMethods.rejecting 1).scene.nbDim = 3 :=
  have h := refused_change_keeps_state SubclassMethods.rejecting exampleScene
  have a := h.2.2.2.1 1 (by decide)
  ⟨by decide, (h.1 7 (by decide)).1, by decide, a.1, a.2.1.trans (by decide),
    a.2.2.trans (by decide)⟩

/-- The class that `addJsonShapeItem` constructs for a document: a box for the
type "box", an ellipse for the type "ellipse". -/
theorem addJsonShapeItem_of_kind (V : SubclassMethods R G) (s : VibesScene2D R G)
    (shape : QJsonObject R) (t : ItemType)
    (hkind : shape.contains "type" = true ∧
      (((shape.value "type").toString = "box" ∧ t = ItemType.VibesGraphicsBoxType) ∨
        ((shape.value "type").toString = "ellipse" ∧ t = ItemType.VibesGraphicsEllipseType))) :
    s.addJsonShapeItem V shape =
      if !((VibesGraphicsItem.new V t).setJson V shape s.dimX s.dimY).1 then (none, s)
      else
        (some ((VibesGraphicsItem.new V t).setJson V shape s.dimX s.dimY).2,
          { s with
            _nbDim := max s._nbDim ((VibesGraphicsItem.new V t).setJson V shape s.dimX s.dimY).2.dimension,
            items := s.items ++ [((VibesGraphicsItem.new V t).setJson V shape s.dimX s.dimY).2] }) := by
  obtain ⟨hc, hk⟩ := hkind
  rcases hk with ⟨hb, ht⟩ | ⟨he, ht⟩
  · subst ht
    simp [addJsonShapeItem, hc, hb, vibesgraphicsitem_cast, qgraphicsitem_cast,
      VibesGraphicsItem.new, ItemType.value, ItemType.VibesGraphicsItemType,
      ItemType.VibesGraphicsLastType]
  · subst ht
    have hne : ¬ (shape.value "type").toString = "box" := by rw [he]; decide
    simp [addJsonShapeItem, hc, he, vibesgraphicsitem_cast, qgraphicsitem_cast,
      VibesGraphicsItem.new, ItemType.value, ItemType.VibesGraphicsItemType,
      ItemType.VibesGraphicsLastType]

end VibesScene2D

namespace VibesScene2D

variable {R G : Type} [Zero R] [Sub R]

theorem addJsonShapeItem_no_kind (V : SubclassMethods R G) (s : VibesScene2D R G)
    (shape : QJsonObject R)
    (h : shape.contains "type" = false ∨
      ((shape.value "type").toString ≠ "box" ∧ (shape.value "type").toString ≠ "ellipse")) :
    s.addJsonShapeItem V shape = (none, s) := by
  rcases h with h | ⟨h1, h2⟩
  · simp [addJsonShapeItem, h]
  · cases hc : shape.contains "type" <;> simp [addJsonShapeItem, hc, h1, h2]

/-- The ways in which a document is, or is not, of a kind that `addJsonShapeItem`
constructs. -/
theorem addJsonShapeItem_kinds {S : Type} (shape : QJsonObject S) :
    (shape.contains "type" = false ∨
      ((shape.value "type").toString ≠ "box" ∧ (shape.value "type").toString ≠ "ellipse")) ∨
    ∃ t, shape.contains "type" = true ∧
      (((shape.value "type").toString = "box" ∧ t = ItemType.VibesGraphicsBoxType) ∨
        ((shape.value "type").toString = "ellipse" ∧ t = ItemType.VibesGraphicsEllipseType)) := by
  cases hc : shape.contains "type"
  · exact Or.inl (Or.inl rfl)
  · by_cases hb : (shape.value "type").toString = "box"
    · exact Or.inr ⟨_, rfl, Or.inl ⟨hb, rfl⟩⟩
    · by_cases he : (shape.value "type").toString = "ellipse"
      · exact Or.inr ⟨_, rfl, Or.inr ⟨he, rfl⟩⟩
      · exact Or.inl (Or.inr ⟨hb, he⟩)

/-- C13. `addJsonShapeItem` returns no shape and leaves the scene (its items,
`dimX`, `dimY` and `nbDim`) as it is when the document has no "type", when its
"type" is not one the scene constructs, and when the box or ellipse constructed
for it rejects the document; and whenever no shape is returned the scene is
unchanged. -/
theorem rejected_shape_changes_nothing (V : SubclassMethods R G) (s : VibesScene2D R G)
    (shape : QJsonObject R) :
    (shape.contains "type" = false → s.addJsonShapeItem V shape = (none, s)) ∧
    ((shape.value "type").toString ≠ "box" → (shape.value "type").toString ≠ "ellipse" →
      s.addJsonShapeItem V shape = (none, s)) ∧
    (∀ t : ItemType,
      (shape.contains "type" = true ∧
        (((shape.value "type").toString = "box" ∧ t = ItemType.VibesGraphicsBoxType) ∨
          ((shape.value "type").toString = "ellipse" ∧ t = ItemType.VibesGraphicsEllipseType))) →
      ((VibesGraphicsItem.new V t).setJson V shape s.dimX s.dimY).1 = false →
      s.addJsonShapeItem V shape = (none, s)) ∧
    ((s.addJsonShapeItem V shape).1 = none → (s.addJsonShapeItem V shape).2 = s) := by
  refine ⟨fun h => addJsonShapeItem_no_kind V s shape (Or.inl h),
    fun h1 h2 => addJsonShapeItem_no_kind V s shape (Or.inr ⟨h1, h2⟩), ?_, ?_⟩
  · intro t hkind hv
    rw [addJsonShapeItem_of_kind V s shape t hkind]
    simp [hv]
  · intro hnone
    rcases addJsonShapeItem_kinds shape with hno | ⟨t, hkind⟩
    · rw [addJsonShapeItem_no_kind V s shape hno]
    · rw [addJsonShapeItem_of_kind V s shape t hkind] at hnone ⊢
      cases hv : ((VibesGraphicsItem.new V t).setJson V shape s.dimX s.dimY).1
      · simp
      · simp [hv] at hnone

/-- The scene with axes `(2, 0)` is left as it is by a document without "type", by
a document of type "sphere" and by a box with three bounds. -/
theorem rejected_shape_changes_nothing_witness :
    exampleScene.addJsonShapeItem SubclassMethods.rejecting [] = (none, exampleScene) ∧
      exampleScene.addJsonShapeItem SubclassMethods.rejecting
        [("type", QJsonValue.string "sphere")] = (none, exampleScene) ∧
      exampleScene.addJsonShapeItem SubclassMethods.rejecting (boxDocument [1, 2, 3])
        = (none, exampleScene) :=
  have h := fun shape => rejected_shape_changes_nothing SubclassMethods.rejecting exampleScene shape
  ⟨(h []).1 rfl, (h _).2.1 (by decide) (by decide),
    (h (boxDocument [1, 2, 3])).2.2.1 ItemType.VibesGraphicsBoxType ⟨rfl, Or.inl ⟨rfl, rfl⟩⟩ rfl⟩

end VibesScene2D

/-! ## The kinds that the scene and the factory construct -/

namespace VibesScene2D

/-- C14 at the failing input. The factory `newWithType` constructs a line for
"line", and the document `{"type":"line","points":[[0,0],[1,1]]}` passes the
validation of `VibesGraphicsLine`; yet, for every scene and whatever the other
classes do, `addJsonShapeItem` returns no shape for it and leaves the scene as
it is. The same happens for the types "points", "boxes" and "group". -/
theorem addJsonShapeItem_misses_kinds {G : Type} (V : SubclassMethods Int G)
    (s : VibesScene2D Int G) :
    (VibesGraphicsItem.newWithType V "line").map (fun item => item.type)
        = some ItemType.VibesGraphicsLineType ∧
      (VibesGraphicsLine.parseJsonGraphics VibesGraphicsLine.new lineDocument).1 = true ∧
      s.addJsonShapeItem V lineDocument = (none, s) ∧
      (∀ rest : QJsonObject Int,
        s.addJsonShapeItem V (("type", QJsonValue.string "points") :: rest) = (none, s) ∧
        s.addJsonShapeItem V (("type", QJsonValue.string "boxes") :: rest) = (none, s) ∧
        s.addJsonShapeItem V (("type", QJsonValue.string "group") :: rest) = (none, s)) := by
  refine ⟨rfl, by decide, ?_, fun rest => ⟨?_, ?_, ?_⟩⟩
  · exact addJsonShapeItem_no_kind V s _ (Or.inr ⟨by decide, by decide⟩)
  · exact addJsonShapeItem_no_kind V s _
      (Or.inr ⟨by simp [QJsonObject.value, QJsonValue.toString],
        by simp [QJsonObject.value, QJsonValue.toString]⟩)
  · exact addJsonShapeItem_no_kind V s _
      (Or.inr ⟨by simp [QJsonObject.value, QJsonValue.toString],
        by simp [QJsonObject.value, QJsonValue.toString]⟩)
  · exact addJsonShapeItem_no_kind V s _
      (Or.inr ⟨by simp [QJsonObject.value, QJsonValue.toString],
        by simp [QJsonObject.value, QJsonValue.toString]⟩)

end VibesScene2D

namespace VibesGraphicsGroup

variable {R G : Type} [Zero R] [Sub R]

/-- C15 at the failing input. The factory constructs a group for "group", and
`setJson` on a newly constructed group returns true for every document: for one
without "type", and for `{"type":"box","bounds":[0,1,0,1]}`, after which the
group reports the type "box". A newly constructed box rejects the documents
`{}` and `{"type":"group"}`. -/
theorem setJson_ignores_type (V : SubclassMethods R G) (json : QJsonObject R) (dimX dimY : Int) :
    VibesGraphicsItem.newWithType V "group"
        = some (VibesGraphicsItem.new V ItemType.VibesGraphicsGroupType) ∧
      ((VibesGraphicsItem.new V ItemType.VibesGraphicsGroupType).setJson V json dimX dimY).1 = true ∧
      ((VibesGraphicsItem.new SubclassMethods.rejecting ItemType.VibesGraphicsGroupType).setJson
        SubclassMethods.rejecting [] 0 1).1 = true ∧
      ((VibesGraphicsItem.new SubclassMethods.rejecting ItemType.VibesGraphicsGroupType).setJson
        SubclassMethods.rejecting (boxDocument [0, 1, 0, 1]) 0 1).1 = true ∧
      ((VibesGraphicsItem.new SubclassMethods.rejecting ItemType.VibesGraphicsGroupType).setJson
        SubclassMethods.rejecting (boxDocument [0, 1, 0, 1]) 0 1).2.jsonValue [] "type"
        = QJsonValue.string "box" ∧
      ((VibesGraphicsItem.new SubclassMethods.rejecting ItemType.VibesGraphicsBoxType).setJson
        SubclassMethods.rejecting [] 0 1).1 = false ∧
      ((VibesGraphicsItem.new SubclassMethods.rejecting ItemType.VibesGraphicsBoxType).setJson
        SubclassMethods.rejecting [("type", QJsonValue.string "group")] 0 1).1 = false := by
  refine ⟨rfl, ?_, by decide, by decide, rfl, by decide, by decide⟩
  simp [VibesGraphicsItem.setJson, VibesGraphicsItem.parseJson, VibesGraphicsItem.parseJsonWith,
    VibesGraphicsItem.parseJsonGraphicsWith, VibesGraphicsItem.parseName_frame,
    VibesGraphicsItem.new, parseJsonGraphics]

/-- One call, on the running maximum of the dimensions of the items added. -/
theorem applyCall_dimension (V : SubclassMethods R G) (g : VibesGraphicsItem R G)
    (call : GroupCall R G) (calls : List (GroupCall R G)) :
    addedDimension (call :: calls) g.dimension = addedDimension calls (applyCall V g call).dimension := by
  cases call <;> rfl

/-- C17, as the code has it. After any sequence of `addToGroup` calls, updates
of the properties of a member and `clear`, the dimension of a group is the
largest of its dimension before the sequence (0 for a newly constructed group)
and the dimensions that the added items had when they were added. It does not
decrease: `clear` and a later change of the dimension of a member leave it as it
is. -/
theorem dimension_after_calls (V : SubclassMethods R G) (g : VibesGraphicsItem R G)
    (calls : List (GroupCall R G)) :
    (applyCalls V g calls).dimension = addedDimension calls g.dimension ∧
      g.dimension ≤ (applyCalls V g calls).dimension ∧
      (applyCalls V (VibesGraphicsItem.new V ItemType.VibesGraphicsGroupType) calls).dimension
        = addedDimension calls 0 := by
  have h1 : ∀ (calls : List (GroupCall R G)) (g : VibesGraphicsItem R G),
      (applyCalls V g calls).dimension = addedDimension calls g.dimension := by
    intro calls
    induction calls with
    | nil => intro g; rfl
    | cons call calls ih =>
      intro g
      rw [applyCall_dimension V g call calls]
      exact ih (applyCall V g call)
  have h2 : ∀ (calls : List (GroupCall R G)) (n : Int), n ≤ addedDimension calls n := by
    intro calls
    induction calls with
    | nil => intro n; exact le_refl _
    | cons call calls ih =>
      intro n
      cases call with
      | addToGroup item scene => exact le_trans (le_max_left _ _) (ih _)
      | setJsonValues member values => exact ih n
      | clear => exact ih n
  exact ⟨h1 calls g, by rw [h1 calls g]; exact h2 calls _, h1 calls _⟩

/-- C17 fails as stated. A new group to which a 3-dimensional box is added has
dimension 3 after `clear`, with no member left; and a group to which the
2-dimensional box `[0,1,0,1]` is added keeps dimension 2 when the bounds of that
member become `[0,1,0,1,0,1]`, a member of dimension 3. -/
theorem dimension_after_calls_counterexample :
    ((applyCalls SubclassMethods.rejecting groupItem
        [GroupCall.addToGroup (boxItem [0, 1, 0, 1, 0, 1]) none, GroupCall.clear]).childItems.length = 0 ∧
      membersDimension (applyCalls SubclassMethods.rejecting groupItem
        [GroupCall.addToGroup (boxItem [0, 1, 0, 1, 0, 1]) none, GroupCall.clear]).childItems = 0 ∧
      (applyCalls SubclassMethods.rejecting groupItem
        [GroupCall.addToGroup (boxItem [0, 1, 0, 1, 0, 1]) none, GroupCall.clear]).dimension = 3) ∧
    (membersDimension (applyCalls SubclassMethods.rejecting groupItem
        [GroupCall.addToGroup (boxItem [0, 1, 0, 1]) none,
          GroupCall.setJsonValues 0 [("bounds", QJsonArray.ofNumbers [0, 1, 0, 1, 0, 1])]]).childItems = 3 ∧
      (applyCalls SubclassMethods.rejecting groupItem
        [GroupCall.addToGroup (boxItem [0, 1, 0, 1]) none,
          GroupCall.setJsonValues 0 [("bounds", QJsonArray.ofNumbers [0, 1, 0, 1, 0, 1])]]).dimension = 2) := by
  decide

end VibesGraphicsGroup

/-! ## Ellipses given by their axes and orientation -/

namespace VibesGraphicsEllipse

variable {R : Type}

/-- An array of size 2 has two entries. -/
theorem QJsonArray_size_two (a : QJsonArray R) (h : QJsonArray.size a = 2) :
    ∃ x y : QJsonValue R, a = [x, y] := by
  match a, h with
  | [x, y], _ => exact ⟨x, y, rfl⟩
  | [], h => simp [QJsonArray.size] at h
  | [_], h => simp [QJsonArray.size] at h
  | _ :: _ :: _ :: l, h =>
    simp only [QJsonArray.size, List.length_cons] at h
    omega

/-- Validation of a document of type "ellipse" that has "axis" and
"orientation". -/
theorem parseJsonGraphics_axis_orientation (self : VibesGraphicsItem R (QGraphicsEllipseItem R))
    (json : QJsonObject R) (htype : json.value "type" = QJsonValue.string "ellipse")
    (haxis : json.contains "axis" = true) (horientation : json.contains "orientation" = true) :
    parseJsonGraphics self json =
      if (json.value "center").toArray.size = 2 ∧ (json.value "axis").toArray.size = 2 then
        (true, { self with _nbDim := 2 })
      else (false, self) := by
  have hc : json.contains "type" = true :=
    QJsonObject.contains_of_value_ne json "type" (by rw [htype]; exact fun h => by cases h)
  unfold parseJsonGraphics
  simp only [hc, htype, QJsonValue.toString, haxis, horientation, Bool.and_self, if_true]
  by_cases h2 : (json.value "center").toArray.size = 2
  · by_cases ha : (json.value "axis").toArray.size = 2
    · simp [h2, ha]
    · simp [h2, ha]
  · by_cases hge : (json.value "center").toArray.size ≥ 2
    · simp [h2, hge]
    · simp [h2, hge]

/-- C18, as the code has it. A document of type "ellipse" that has "axis" and
"orientation" passes validation exactly when "center" has 2 coordinates and
"axis" has 2 entries, and then `N = 2`: the axis and orientation form is for
ellipses of dimension 2 only. The document of the scenario with the center
`[0,0]` passes with `N = 2` and is projected at `(0,1)` to the rectangle
`(-2,-1,4,2)`, half-axes 2 and 1, with angle 0 at the position `(0,0)`. -/
theorem parseJsonGraphics_axis_orientation_iff
    (self : VibesGraphicsItem R (QGraphicsEllipseItem R)) (json : QJsonObject R)
    (htype : json.value "type" = QJsonValue.string "ellipse")
    (haxis : json.contains "axis" = true) (horientation : json.contains "orientation" = true) :
    ((parseJsonGraphics self json).1 = true ↔
        (json.value "center").toArray.size = 2 ∧ (json.value "axis").toArray.size = 2) ∧
      ((parseJsonGraphics self json).1 = true → (parseJsonGraphics self json).2.dimension = 2) ∧
      (parseJsonGraphics VibesGraphicsEllipse.new (ellipseDocument [0, 0] [2, 1] 0)).1 = true ∧
      (ellipseItem [0, 0] [2, 1] 0).dimension = 2 ∧
      (computeProjection CMath.integers (ellipseItem [0, 0] [2, 1] 0) 0 1).1 = true ∧
      (computeProjection CMath.integers (ellipseItem [0, 0] [2, 1] 0) 0 1).2.graphics.rect
        = ⟨-2, -1, 4, 2⟩ ∧
      (computeProjection CMath.integers (ellipseItem [0, 0] [2, 1] 0) 0 1).2.graphics.rotation = 0 ∧
      (computeProjection CMath.integers (ellipseItem [0, 0] [2, 1] 0) 0 1).2.graphics.pos
        = ⟨0, 0⟩ := by
  rw [parseJsonGraphics_axis_orientation self json htype haxis horientation]
  refine ⟨?_, ?_, rfl, rfl, rfl, rfl, rfl, rfl⟩
  · split_ifs with h
    · simp [h]
    · simp [h]
  · split_ifs with h
    · intro _; rfl
    · intro h'; cases h'

theorem parseJsonGraphics_axis_orientation_iff_witness :
    ((parseJsonGraphics VibesGraphicsEllipse.new (ellipseDocument [0, 0] [2, 1] 0)).1 = true ↔
        ((ellipseDocument [0, 0] [2, 1] 0).value "center").toArray.size = 2 ∧
          ((ellipseDocument [0, 0] [2, 1] 0).value "axis").toArray.size = 2) ∧
      (parseJsonGraphics VibesGraphicsEllipse.new (ellipseDocument [0, 0] [2, 1] 0)).1 = true :=
  have h := parseJsonGraphics_axis_orientation_iff VibesGraphicsEllipse.new
    (ellipseDocument [0, 0] [2, 1] 0) rfl (by decide) (by decide)
  ⟨h.1, h.2.2.1⟩

/-- C18 fails as stated. The document
`{"type":"ellipse","center":[0,0,5],"axis":[2,1],"orientation":0}` is rejected by
validation, and the dimension of the new ellipse stays 0. -/
theorem parseJsonGraphics_three_coordinates_counterexample :
    (parseJsonGraphics VibesGraphicsEllipse.new (ellipseDocument [0, 0, 5] [2, 1] 0)).1 = false ∧
      (parseJsonGraphics VibesGraphicsEllipse.new (ellipseDocument [0, 0, 5] [2, 1] 0)).2.dimension
        = 0 := by
  decide

variable [Zero R] [Add R] [Sub R] [Mul R] [Div R] [Neg R] [IntCast R]

/-- C19, as the code has it. For a validated ellipse whose document has "axis"
and "orientation", the center is `[c0, c1]` and the axes are `[a0, a1]`; the
projection at `(0,1)` sets the rectangle `(-a0, -a1, 2 a0, 2 a1)`, the position
`(c0, c1)` and the rotation `θ`; the projection at `(1,0)` sets the same
rectangle `(-a0, -a1, 2 a0, 2 a1)`, the position `(c1, c0)` and the rotation
`90 - θ`: the half-axes are not exchanged, the rotation alone carries the
reflection. Every other pair of axes is refused. -/
theorem computeProjection_axis_orientation (m : CMath R)
    (self : VibesGraphicsItem R (QGraphicsEllipseItem R))
    (hvalid : parseJsonGraphics self self._json = (true, self))
    (haxis : self._json.contains "axis" = true)
    (horientation : self._json.contains "orientation" = true) :
    ∃ c0 c1 a0 a1 : QJsonValue R,
      (self._json.value "center").toArray = [c0, c1] ∧
      (self._json.value "axis").toArray = [a0, a1] ∧
      computeProjectionAsserts self 0 1 = true ∧ computeProjectionAsserts self 1 0 = true ∧
      (computeProjection m self 0 1).1 = true ∧
      (computeProjection m self 0 1).2.graphics.rect
        = ⟨-a0.toDouble, -a1.toDouble, ((2 : Int) : R) * a0.toDouble, ((2 : Int) : R) * a1.toDouble⟩ ∧
      (computeProjection m self 0 1).2.graphics.pos = ⟨c0.toDouble, c1.toDouble⟩ ∧
      (computeProjection m self 0 1).2.graphics.rotation
        = (self._json.value "orientation").toDouble ∧
      (computeProjection m self 1 0).1 = true ∧
      (computeProjection m self 1 0).2.graphics.rect
        = ⟨-a0.toDouble, -a1.toDouble, ((2 : Int) : R) * a0.toDouble, ((2 : Int) : R) * a1.toDouble⟩ ∧
      (computeProjection m self 1 0).2.graphics.pos = ⟨c1.toDouble, c0.toDouble⟩ ∧
      (computeProjection m self 1 0).2.graphics.rotation
        = ((90 : Int) : R) - (self._json.value "orientation").toDouble ∧
      ∀ dimX dimY : Int, ¬ (dimX = 0 ∧ dimY = 1) → ¬ (dimX = 1 ∧ dimY = 0) →
        computeProjection m self dimX dimY = (false, self) := by
  have hsizes : self._json.contains "type" = true ∧
      (self._json.value "type").toString = "ellipse" ∧
      (self._json.value "center").toArray.size = 2 ∧
      (self._json.value "axis").toArray.size = 2 ∧ self._nbDim = 2 := by
    unfold parseJsonGraphics at hvalid
    simp only [haxis, horientation, Bool.and_self, if_true] at hvalid
    split at hvalid
    · rename_i ht
      split at hvalid
      · rename_i hty
        split at hvalid
        · split at hvalid
          · cases hvalid
          · rename_i hc
            split at hvalid
            · cases hvalid
            · rename_i ha
              have h2 := congrArg (fun p => p.2._nbDim) hvalid
              simp only at h2
              push_neg at hc ha
              exact ⟨ht, hty, hc, ha, by rw [← h2]; exact hc⟩
        · cases hvalid
      · cases hvalid
    · cases hvalid
  obtain ⟨ht, hty, hc, ha, hn⟩ := hsizes
  obtain ⟨c0, c1, hc⟩ := QJsonArray_size_two _ hc
  obtain ⟨a0, a1, ha⟩ := QJsonArray_size_two _ ha
  refine ⟨c0, c1, a0, a1, hc, ha, ?_, ?_, ?_, ?_, ?_, ?_, ?_, ?_, ?_, ?_, ?_⟩
  · simp [computeProjectionAsserts, ht, hty, hc, ha, hn, haxis, horientation, QJsonArray.size]
  · simp [computeProjectionAsserts, ht, hty, hc, ha, hn, haxis, horientation, QJsonArray.size]
  · simp [computeProjection, haxis, horientation]
  · simp [computeProjection, haxis, horientation, hc, ha, QJsonArray.at_, QJsonArray.size]
  · simp [computeProjection, haxis, horientation, hc, ha, QJsonArray.at_, QJsonArray.size]
  · simp [computeProjection, haxis, horientation]
  · simp [computeProjection, haxis, horientation]
  · simp [computeProjection, haxis, horientation, hc, ha, QJsonArray.at_, QJsonArray.size]
  · simp [computeProjection, haxis, horientation, hc, ha, QJsonArray.at_, QJsonArray.size]
  · simp [computeProjection, haxis, horientation]
  · intro dimX dimY h01 h10
    simp [computeProjection, haxis, horientation, h01, h10]

theorem computeProjection_axis_orientation_witness :
    ∃ c0 c1 a0 a1 : QJsonValue Int,
      ((ellipseItem [3, 4] [2, 1] 30)._json.value "center").toArray = [c0, c1] ∧
      ((ellipseItem [3, 4] [2, 1] 30)._json.value "axis").toArray = [a0, a1] ∧
      (computeProjection CMath.integers (ellipseItem [3, 4] [2, 1] 30) 1 0).2.graphics.rect
        = ⟨-a0.toDouble, -a1.toDouble, ((2 : Int) : Int) * a0.toDouble,
            ((2 : Int) : Int) * a1.toDouble⟩ ∧
      (computeProjection CMath.integers (ellipseItem [3, 4] [2, 1] 30) 1 0).2.graphics.pos
        = ⟨c1.toDouble, c0.toDouble⟩ ∧
      (computeProjection CMath.integers (ellipseItem [3, 4] [2, 1] 30) 1 0).2.graphics.rotation
        = ((90 : Int) : Int) - ((ellipseItem [3, 4] [2, 1] 30)._json.value "orientation").toDouble :=
  have ⟨c0, c1, a0, a1, h⟩ := computeProjection_axis_orientation CMath.integers
    (ellipseItem [3, 4] [2, 1] 30) rfl (by decide) (by decide)
  ⟨c0, c1, a0, a1, h.1, h.2.1, h.2.2.2.2.2.2.2.2.2.1, h.2.2.2.2.2.2.2.2.2.2.1,
    h.2.2.2.2.2.2.2.2.2.2.2.1⟩

/-- C19 fails as stated. The ellipse with center `[3,4]`, axes `[2,1]` and
orientation 30, projected at `(1,0)`, gets the rectangle `(-2,-1,4,2)`, whose
half-axes are `(2,1)`, not the rectangle `(-1,-2,2,4)` of the half-axes `(1,2)`;
its position is `(4,3)` and its rotation is 60. -/
theorem computeProjection_swapped_counterexample :
    (computeProjection CMath.integers (ellipseItem [3, 4] [2, 1] 30) 1 0).1 = true ∧
      (computeProjection CMath.integers (ellipseItem [3, 4] [2, 1] 30) 1 0).2.graphics.rect
        = ⟨-2, -1, 4, 2⟩ ∧
      (computeProjection CMath.integers (ellipseItem [3, 4] [2, 1] 30) 1 0).2.graphics.rect.w ≠ 2 ∧
      (computeProjection CMath.integers (ellipseItem [3, 4] [2, 1] 30) 1 0).2.graphics.rect.h ≠ 4 ∧
      (computeProjection CMath.integers (ellipseItem [3, 4] [2, 1] 30) 1 0).2.graphics.pos
        = ⟨4, 3⟩ ∧
      (computeProjection CMath.integers (ellipseItem [3, 4] [2, 1] 30) 1 0).2.graphics.rotation
        = 60 :=
  ⟨rfl, rfl, by decide, by decide, rfl, rfl⟩

end VibesGraphicsEllipse

/-! ## Lines -/

namespace VibesGraphicsItem

variable {R G : Type}

theorem isJsonMatrixLoop_iff (nbCols : Int) (lines : List (QJsonValue R)) :
    isJsonMatrixLoop nbCols lines = true ↔
      ∀ line ∈ lines, line.isArray = true ∧ QJsonArray.size line.toArray = nbCols := by
  induction lines with
  | nil => simp [isJsonMatrixLoop]
  | cons line lines ih =>
    unfold isJsonMatrixLoop
    by_cases h1 : line.isArray = true
    · by_cases h2 : QJsonArray.size line.toArray = nbCols
      · simp [h1, h2, ih]
      · simp [h1, h2]
    · simp [h1]

/-- A list of values that are all arrays is a list of rows. -/
theorem exists_rows (lines : List (QJsonValue R)) (h : ∀ line ∈ lines, line.isArray = true) :
    ∃ rows : List (QJsonArray R), lines = rows.map QJsonValue.array := by
  induction lines with
  | nil => exact ⟨[], rfl⟩
  | cons line lines ih =>
    obtain ⟨rows, hrows⟩ := ih fun l hl => h l (List.mem_cons_of_mem _ hl)
    have h1 := h line (List.mem_cons_self _ _)
    cases line with
    | array a => exact ⟨a :: rows, by rw [hrows]; rfl⟩
    | null => cases h1
    | bool _ => cases h1
    | double _ => cases h1
    | string _ => cases h1
    | object _ => cases h1
    | undefined => cases h1

/-- The matrix test on an array of rows. -/
theorem isJsonMatrix_rows (rows : List (QJsonArray R)) (n : Nat) (hne : rows ≠ [])
    (hlen : ∀ r ∈ rows, r.length = n) :
    isJsonMatrix (QJsonValue.array (rows.map QJsonValue.array))
      = (decide (n ≠ 0), (rows.length : Int), (n : Int)) := by
  cases rows with
  | nil => exact absurd rfl hne
  | cons r rows =>
    have hr : r.length = n := hlen r (List.mem_cons_self _ _)
    have hloop : isJsonMatrixLoop (n : Int) (rows.map QJsonValue.array) = true := by
      rw [isJsonMatrixLoop_iff]
      intro line hline
      obtain ⟨r', hr', rfl⟩ := List.mem_map.1 hline
      refine ⟨rfl, ?_⟩
      simp [QJsonValue.toArray, QJsonArray.size, hlen r' (List.mem_cons_of_mem _ hr')]
    by_cases hn : n = 0
    · simp [isJsonMatrix, QJsonValue.isArray, QJsonValue.toArray, QJsonArray.size, hr, hn]
    · simp [isJsonMatrix, QJsonValue.isArray, QJsonValue.toArray, QJsonArray.size, hr, hn, hloop]

/-- The matrix test on an array with a first line. -/
theorem isJsonMatrix_cons (line : QJsonValue R) (rest : List (QJsonValue R)) :
    isJsonMatrix (QJsonValue.array (line :: rest)) =
      if !line.isArray then (false, QJsonArray.size (line :: rest), 0)
      else if QJsonArray.size line.toArray = 0 then
        (false, QJsonArray.size (line :: rest), QJsonArray.size line.toArray)
      else if isJsonMatrixLoop (QJsonArray.size line.toArray) rest then
        (true, QJsonArray.size (line :: rest), QJsonArray.size line.toArray)
      else (false, QJsonArray.size (line :: rest), QJsonArray.size line.toArray) := rfl

/-- A value that passes the matrix test is a non-empty array of rows of the same
non-zero length, which is `nbCols`. -/
theorem isJsonMatrix_true (value : QJsonValue R) (h : (isJsonMatrix value).1 = true) :
    ∃ (rows : List (QJsonArray R)) (n : Nat), value = QJsonValue.array (rows.map QJsonValue.array) ∧
      rows ≠ [] ∧ n ≠ 0 ∧ (∀ r ∈ rows, r.length = n) ∧ (isJsonMatrix value).2.2 = (n : Int) := by
  cases value with
  | array lines =>
    cases lines with
    | nil => simp [isJsonMatrix, QJsonValue.isArray, QJsonValue.toArray] at h
    | cons line rest =>
      rw [isJsonMatrix_cons] at h
      have h1 : line.isArray = true := by
        by_contra hc
        simp [hc] at h
      have h2 : QJsonArray.size line.toArray ≠ 0 := by
        intro hc
        simp [h1, hc] at h
      have h3 : isJsonMatrixLoop (QJsonArray.size line.toArray) rest = true := by
        by_contra hc
        simp [h1, h2, hc] at h
      rw [isJsonMatrixLoop_iff] at h3
      have hall : ∀ l ∈ line :: rest, l.isArray = true := by
        intro l hl
        rcases List.mem_cons.1 hl with rfl | hl
        · exact h1
        · exact (h3 l hl).1
      obtain ⟨rows, hrows⟩ := exists_rows (line :: rest) hall
      have hne : rows ≠ [] := by
        intro hc
        rw [hc] at hrows
        cases hrows
      have hlen : ∀ r ∈ rows, r.length = line.toArray.length := by
        intro r hr
        have hmem : QJsonValue.array r ∈ line :: rest := by
          rw [hrows]
          exact List.mem_map.2 ⟨r, hr, rfl⟩
        rcases List.mem_cons.1 hmem with hl | hl
        · rw [← hl]; rfl
        · have := (h3 _ hl).2
          simp only [QJsonValue.toArray, QJsonArray.size] at this
          exact_mod_cast this
      have hn : line.toArray.length ≠ 0 := by
        intro hc
        apply h2
        simp [QJsonArray.size, hc]
      refine ⟨rows, line.toArray.length, by rw [hrows], hne, hn, hlen, ?_⟩
      rw [hrows, isJsonMatrix_rows rows _ hne hlen]
  | null => simp [isJsonMatrix, QJsonValue.isArray] at h
  | bool _ => simp [isJsonMatrix, QJsonValue.isArray] at h
  | double _ => simp [isJsonMatrix, QJsonValue.isArray] at h
  | string _ => simp [isJsonMatrix, QJsonValue.isArray] at h
  | object _ => simp [isJsonMatrix, QJsonValue.isArray] at h
  | undefined => simp [isJsonMatrix, QJsonValue.isArray] at h

end VibesGraphicsItem

namespace VibesGraphicsLine

variable {R : Type}

/-- Validation of a document of type "line", from the matrix test. -/
theorem parseJsonGraphics_line (self : VibesGraphicsItem R (QPainterPath R)) (json : QJsonObject R)
    (htype : json.value "type" = QJsonValue.string "line") :
    parseJsonGraphics self json =
      if (VibesGraphicsItem.isJsonMatrix (json.value "points")).1 = true ∧
          2 ≤ (VibesGraphicsItem.isJsonMatrix (json.value "points")).2.2 then
        (true, { self with _nbDim := (VibesGraphicsItem.isJsonMatrix (json.value "points")).2.2 })
      else (false, self) := by
  have hc : json.contains "type" = true :=
    QJsonObject.contains_of_value_ne json "type" (by rw [htype]; exact fun h => by cases h)
  unfold parseJsonGraphics
  simp only [hc, htype, QJsonValue.toString, if_true]
  by_cases h1 : (VibesGraphicsItem.isJsonMatrix (json.value "points")).1 = true
  · by_cases h2 : 2 ≤ (VibesGraphicsItem.isJsonMatrix (json.value "points")).2.2
    · simp [h1, h2]
    · simp [h1, h2]
  · simp [h1]

/-- C20. For a document whose type is "line", validation succeeds exactly when
"points" is a non-empty array of rows that all have the same number `n ≥ 2` of
columns, and then `N = n`. For a line whose stored "points" is that matrix and
axes `dimX`, `dimY` below `n`, both indices are inside every row, and projection
returns true and sets the path to one subpath with one vertex per row, in the
order of the rows, the vertex of a row being `(row[dimX], row[dimY])`; it
changes nothing else. -/
theorem parseJsonGraphics_line_iff [Zero R] (self : VibesGraphicsItem R (QPainterPath R))
    (json : QJsonObject R) (htype : json.value "type" = QJsonValue.string "line") :
    ((parseJsonGraphics self json).1 = true ↔
        ∃ (rows : List (QJsonArray R)) (n : Nat),
          json.value "points" = QJsonValue.array (rows.map QJsonValue.array) ∧
            rows ≠ [] ∧ 2 ≤ n ∧ ∀ r ∈ rows, r.length = n) ∧
      ∀ (rows : List (QJsonArray R)) (n : Nat),
        json.value "points" = QJsonValue.array (rows.map QJsonValue.array) →
        rows ≠ [] → 2 ≤ n → (∀ r ∈ rows, r.length = n) →
        (parseJsonGraphics self json).2.dimension = (n : Int) ∧
          ∀ (item : VibesGraphicsItem R (QPainterPath R)) (dimX dimY : Nat),
            item._json.value "points" = json.value "points" → dimX < n → dimY < n →
            (∀ r ∈ rows, dimX < r.length ∧ dimY < r.length) ∧
              computeProjection item dimX dimY =
                (true, { item with graphics :=
                  [rows.map fun r =>
                    ⟨(r.getD dimX QJsonValue.undefined).toDouble,
                      (r.getD dimY QJsonValue.undefined).toDouble⟩] }) := by
  have hcond : ∀ (rows : List (QJsonArray R)) (n : Nat),
      json.value "points" = QJsonValue.array (rows.map QJsonValue.array) →
      rows ≠ [] → 2 ≤ n → (∀ r ∈ rows, r.length = n) →
      ((VibesGraphicsItem.isJsonMatrix (json.value "points")).1 = true ∧
        2 ≤ (VibesGraphicsItem.isJsonMatrix (json.value "points")).2.2) ∧
      (VibesGraphicsItem.isJsonMatrix (json.value "points")).2.2 = (n : Int) := by
    intro rows n hv hne hn hlen
    rw [hv, VibesGraphicsItem.isJsonMatrix_rows rows n hne hlen]
    refine ⟨⟨?_, ?_⟩, rfl⟩
    · simp only [decide_eq_true_eq]
      omega
    · show (2 : Int) ≤ (n : Int)
      exact_mod_cast hn
  rw [parseJsonGraphics_line self json htype]
  constructor
  · constructor
    · intro h
      split_ifs at h with hm
      · obtain ⟨rows, n, hv, hne, _, hlen, hcols⟩ :=
          VibesGraphicsItem.isJsonMatrix_true _ hm.1
        refine ⟨rows, n, hv, hne, ?_, hlen⟩
        have := hm.2
        rw [hcols] at this
        exact_mod_cast this
    · rintro ⟨rows, n, hv, hne, hn, hlen⟩
      rw [if_pos (hcond rows n hv hne hn hlen).1]
  · intro rows n hv hne hn hlen
    constructor
    · rw [if_pos (hcond rows n hv hne hn hlen).1]
      exact (hcond rows n hv hne hn hlen).2
    · intro item dimX dimY hitem hX hY
      refine ⟨fun r hr => by rw [hlen r hr]; exact ⟨hX, hY⟩, ?_⟩
      have hat : ∀ (r : QJsonArray R) (k : Nat), r ∈ rows → k < n →
          QJsonArray.at_ r (k : Int) = r.getD k QJsonValue.undefined := by
        intro r k hr hk
        have h1 : ¬ ((k : Int) < 0 ∨ (k : Int) ≥ QJsonArray.size r) := by
          simp only [QJsonArray.size, hlen r hr]
          omega
        simp only [QJsonArray.at_, if_neg h1, Int.toNat_ofNat]
      have hpoly : (rows.map QJsonValue.array).map (fun value =>
            (⟨(QJsonArray.at_ value.toArray (dimX : Int)).toDouble,
              (QJsonArray.at_ value.toArray (dimY : Int)).toDouble⟩ : QPointF R))
          = rows.map fun r =>
            ⟨(r.getD dimX QJsonValue.undefined).toDouble,
              (r.getD dimY QJsonValue.undefined).toDouble⟩ := by
        rw [List.map_map]
        apply List.map_congr_left
        intro r hr
        simp only [Function.comp, QJsonValue.toArray, hat r dimX hr hX, hat r dimY hr hY]
      have hta : ∀ a : QJsonArray R, (QJsonValue.array a).toArray = a := fun _ => rfl
      have hproj : computeProjection item dimX dimY =
          (true, { item with graphics := (QPainterPath.addPolygon []
            ((item._json.value "points").toArray.map fun value =>
              (⟨(QJsonArray.at_ value.toArray (dimX : Int)).toDouble,
                (QJsonArray.at_ value.toArray (dimY : Int)).toDouble⟩ : QPointF R))) }) := rfl
      rw [hproj, hitem, hv, hta, hpoly]
      cases rows with
      | nil => exact absurd rfl hne
      | cons r rows => rfl

theorem parseJsonGraphics_line_iff_witness :
    (parseJsonGraphics VibesGraphicsLine.new lineDocument).1 = true ∧
      (parseJsonGraphics VibesGraphicsLine.new lineDocument).2.dimension = 2 ∧
      computeProjection
          { (VibesGraphicsLine.new : VibesGraphicsItem Int (QPainterPath Int)) with
            _json := lineDocument, _nbDim := 2 } 1 0 =
        (true, { (VibesGraphicsLine.new : VibesGraphicsItem Int (QPainterPath Int)) with
          _json := lineDocument, _nbDim := 2, graphics := [[⟨0, 0⟩, ⟨1, 1⟩]] }) :=
  have h := parseJsonGraphics_line_iff VibesGraphicsLine.new lineDocument rfl
  have hrows := h.2 [[QJsonValue.double 0, QJsonValue.double 0],
    [QJsonValue.double 1, QJsonValue.double 1]] 2 rfl (by simp) (le_refl 2) (by simp)
  ⟨h.1.2 ⟨[[QJsonValue.double 0, QJsonValue.double 0],
      [QJsonValue.double 1, QJsonValue.double 1]], 2, rfl, by simp, le_refl 2, by simp⟩, hrows.1,
    (hrows.2 _ 1 0 rfl (by decide) (by decide)).2⟩

end VibesGraphicsLine

/-! ## Style keys pushed by a group to its members -/

namespace VibesDefaults

/-- The names that `toPredefinedColorName` gives to the colours it recognises. -/
theorem toPredefinedColorName_names (t : QUnicodeTables) (color : String)
    (h : (toPredefinedColorName t color).1 = true) :
    (toPredefinedColorName t color).2 ∈
      ["transparent", "blue", "cyan", "green", "yellow", "red", "magenta", "white", "black",
        "lightGray", "gray", "darkGray", "darkBlue", "darkCyan", "darkGreen", "darkYellow",
        "darkRed", "darkMagenta"] := by
  have key : ∀ (c : Prop) [Decidable c] (a b : Bool × String),
      (a.1 = true → a.2 ∈
        ["transparent", "blue", "cyan", "green", "yellow", "red", "magenta", "white", "black",
          "lightGray", "gray", "darkGray", "darkBlue", "darkCyan", "darkGreen", "darkYellow",
          "darkRed", "darkMagenta"]) →
      (b.1 = true → b.2 ∈
        ["transparent", "blue", "cyan", "green", "yellow", "red", "magenta", "white", "black",
          "lightGray", "gray", "darkGray", "darkBlue", "darkCyan", "darkGreen", "darkYellow",
          "darkRed", "darkMagenta"]) →
      ((if c then a else b).1 = true → (if c then a else b).2 ∈
        ["transparent", "blue", "cyan", "green", "yellow", "red", "magenta", "white", "black",
          "lightGray", "gray", "darkGray", "darkBlue", "darkCyan", "darkGreen", "darkYellow",
          "darkRed", "darkMagenta"]) := by
    intro c _ a b ha hb
    split
    · exact ha
    · exact hb
  revert h
  unfold toPredefinedColorName
  repeat (refine key _ _ _ (fun _ => by decide) ?_)
  intro h
  cases h

/-- A name given by `toPredefinedColorName` is not renamed again. -/
theorem toPredefinedColorName_idem (t : QUnicodeTables) (color : String)
    (h : (toPredefinedColorName t color).1 = true) :
    (toPredefinedColorName t (toPredefinedColorName t color).2).1 = false := by
  have hall : ∀ n ∈
      ["transparent", "blue", "cyan", "green", "yellow", "red", "magenta", "white", "black",
        "lightGray", "gray", "darkGray", "darkBlue", "darkCyan", "darkGreen", "darkYellow",
        "darkRed", "darkMagenta"], (toPredefinedColorName t n).1 = false := by
    intro n hn
    simp only [List.mem_cons, List.mem_singleton, List.not_mem_nil, or_false] at hn
    rcases hn with rfl | rfl | rfl | rfl | rfl | rfl | rfl | rfl | rfl | rfl | rfl | rfl | rfl |
      rfl | rfl | rfl | rfl | rfl <;> rfl
  exact hall _ (toPredefinedColorName_names t color h)

/-- A character outside ASCII goes through the tables: with tables that map the
Kelvin sign (U+212A) to `k` in lower case and to itself in upper case, as those of
Qt do, the string of that one character is recognised and renamed "black". -/
theorem toPredefinedColorName_kelvin (t : QUnicodeTables)
    (hl : t.lowerCase (Char.ofNat 8490) = ['k'])
    (hu : t.upperCase (Char.ofNat 8490) = [Char.ofNat 8490]) :
    toPredefinedColorName t (String.mk [Char.ofNat 8490]) = (true, "black") := by
  have hL : QString.toLower t (String.mk [Char.ofNat 8490]) = "k" := by
    show String.mk ([Char.ofNat 8490].flatMap fun c =>
      if c.toNat < 128 then [c.toLower] else t.lowerCase c) = "k"
    rw [List.flatMap_cons, List.flatMap_nil, if_neg (by decide), hl]
    rfl
  have hU : QString.toUpper t (String.mk [Char.ofNat 8490]) = String.mk [Char.ofNat 8490] := by
    show String.mk ([Char.ofNat 8490].flatMap fun c =>
      if c.toNat < 128 then [c.toUpper] else t.upperCase c) = String.mk [Char.ofNat 8490]
    rw [List.flatMap_cons, List.flatMap_nil, if_neg (by decide), hu]
    rfl
  unfold toPredefinedColorName
  simp only [hL, hU]
  decide

end VibesDefaults

namespace VibesGraphicsItem

variable {R G : Type}

theorem predefinedColor_predefined (t : QUnicodeTables) (json : QJsonObject R) (key : String) :
    (VibesDefaults.toPredefinedColorName t ((predefinedColor t json key).value key).toString).1
      = false := by
  unfold predefinedColor
  by_cases hc : json.contains key = true
  · rw [if_pos hc]
    cases hr : (VibesDefaults.toPredefinedColorName t (json.value key).toString).1
    · rw [if_neg (by simp [hr])]
      exact hr
    · rw [if_pos hr, QJsonObject.value_insert_self _ _ _ (by rfl)]
      exact VibesDefaults.toPredefinedColorName_idem t _ hr
  · rw [if_neg hc, QJsonObject.value_of_not_contains json key (by simpa using hc)]
    show (VibesDefaults.toPredefinedColorName t "").1 = false
    rfl

/-- The colours of the document of a group after `parseJson` are not renamed again. -/
theorem parseGroupColors_predefined (t : QUnicodeTables) (self : VibesGraphicsItem R G)
    (json : QJsonObject R) (hg : self.type = ItemType.VibesGraphicsGroupType) :
    PredefinedColors t (parseGroupColors t self json) := by
  unfold parseGroupColors PredefinedColors
  rw [if_pos hg]
  constructor
  · rw [(predefinedColor_other t _ "EdgeColor" "FaceColor" (by decide)).1]
    exact predefinedColor_predefined t json "FaceColor"
  · exact predefinedColor_predefined t _ "EdgeColor"

theorem parseGroupColors_of_predefined (t : QUnicodeTables) (self : VibesGraphicsItem R G)
    (json : QJsonObject R)
    (h : self.type = ItemType.VibesGraphicsGroupType → PredefinedColors t json) :
    parseGroupColors t self json = json := by
  unfold parseGroupColors
  split
  · rename_i hg
    obtain ⟨h1, h2⟩ := h hg
    rw [predefinedColor_unrecognised t json "FaceColor" h1,
      predefinedColor_unrecognised t json "EdgeColor" h2]
  · rfl

theorem isUndefined_of_toString_ne (v : QJsonValue R) (h : v.toString ≠ "") :
    v.isUndefined = false := by
  cases v <;> first | rfl | exact absurd rfl h

theorem styleKeys_ne (k : String) (hk : k ∈ styleKeys) : k ≠ "type" ∧ k ≠ "format" := by
  simp only [styleKeys, List.mem_cons, List.mem_singleton, List.not_mem_nil, or_false] at hk
  rcases hk with rfl | rfl | rfl | rfl <;> decide

variable [Zero R] [Sub R]

/-- One `setJsonValue` of a style key on a member of a group: the value is written
into the document of the member, whether or not the key was there. -/
theorem setJsonValue_style (V : SubclassMethods R G) (c : VibesGraphicsItem R G) (k : String)
    (v : QJsonValue R) (hk : k ∈ styleKeys) (hv : v.toString ≠ "")
    (hnf : (c._json.value "format").isString = false)
    (hpc : c.type = ItemType.VibesGraphicsGroupType → PredefinedColors V.unicode c._json)
    (hpv : c.type = ItemType.VibesGraphicsGroupType → (k = "FaceColor" ∨ k = "EdgeColor") →
      (VibesDefaults.toPredefinedColorName V.unicode v.toString).1 = false) :
    (setJsonValueWith (setJsonValues V) c k v)._json = c._json.insert k v ∧
      (setJsonValueWith (setJsonValues V) c k v).type = c.type ∧
      ((c._json.insert k v).value "format").isString = false ∧
      (c.type = ItemType.VibesGraphicsGroupType → PredefinedColors V.unicode (c._json.insert k v)) := by
  have hund := isUndefined_of_toString_ne v hv
  have hks := styleKeys_ne k hk
  have hins : QJsonObject.insert [] k v = [(k, v)] := by
    simp [QJsonObject.insert, hund, QJsonObject.replace]
  have hloop : (setJsonValuesLoop c [(k, v)] (c._json, false)).1 = c._json.insert k v := by
    simp [setJsonValuesLoop, propertyIsReadOnly, hks.1]
  have hnf' : ((c._json.insert k v).value "format").isString = false := by
    rw [QJsonObject.value_insert_ne _ _ _ _ hks.2]
    exact hnf
  have hpc' : c.type = ItemType.VibesGraphicsGroupType → PredefinedColors V.unicode (c._json.insert k v) := by
    intro hg
    obtain ⟨h1, h2⟩ := hpc hg
    constructor
    · by_cases hkF : k = "FaceColor"
      · subst hkF
        rw [QJsonObject.value_insert_self _ _ _ hund]
        exact hpv hg (Or.inl rfl)
      · rw [QJsonObject.value_insert_ne _ _ _ _ hkF]
        exact h1
    · by_cases hkE : k = "EdgeColor"
      · subst hkE
        rw [QJsonObject.value_insert_self _ _ _ hund]
        exact hpv hg (Or.inr rfl)
      · rw [QJsonObject.value_insert_ne _ _ _ _ hkE]
        exact h2
  refine ⟨?_, ?_, hnf', hpc'⟩
  · unfold setJsonValueWith
    simp only
    rw [hins, setJsonValues_json, hloop, parseFormat_of_no_format _ hnf',
      parseGroupColors_of_predefined V.unicode c _ hpc']
  · unfold setJsonValueWith
    exact setJsonValues_type V c _

end VibesGraphicsItem

namespace QJsonObject

variable {R : Type}

/-- A lookup after a value with a non-empty string is written under `k`, if there is one. -/
theorem value_push (o json : QJsonObject R) (k key : String) :
    (if (json.value k).toString ≠ "" then o.insert k (json.value k) else o).value key
      = if k = key ∧ (json.value k).toString ≠ "" then json.value k else o.value key := by
  by_cases hp : (json.value k).toString ≠ ""
  · have hund : (json.value k).isUndefined = false := by
      cases h : json.value k <;> first | rfl | (rw [h] at hp; exact absurd rfl hp)
    by_cases hk : k = key
    · subst hk
      rw [if_pos hp, if_pos ⟨rfl, hp⟩, value_insert_self _ _ _ hund]
    · rw [if_pos hp, if_neg (fun h => hk h.1), value_insert_ne _ _ _ _ hk]
  · rw [if_neg hp, if_neg (fun h => hp h.2)]

theorem contains_push (o json : QJsonObject R) (k key : String) :
    (if (json.value k).toString ≠ "" then o.insert k (json.value k) else o).contains key
      = if k = key ∧ (json.value k).toString ≠ "" then true else o.contains key := by
  by_cases hp : (json.value k).toString ≠ ""
  · have hund : (json.value k).isUndefined = false := by
      cases h : json.value k <;> first | rfl | (rw [h] at hp; exact absurd rfl hp)
    by_cases hk : k = key
    · subst hk
      rw [if_pos hp, if_pos ⟨rfl, hp⟩, contains_insert_self _ _ _ hund]
    · rw [if_pos hp, if_neg (fun h => hk h.1), contains_insert_ne _ _ _ _ hk]
  · rw [if_neg hp, if_neg (fun h => hp h.2)]

end QJsonObject

namespace VibesGraphicsGroup

variable {R G : Type} [Zero R] [Sub R]

/-- The document of a member after the body of the loop of
`VibesGraphicsGroup::parseJsonGraphics`: key by key. -/
theorem parseJsonGraphicsChild_style (V : SubclassMethods R G) (json : QJsonObject R)
    (c : VibesGraphicsItem R G) (hcast : qgraphicsitem_cast c.type = true)
    (hnf : (c._json.value "format").isString = false)
    (hpc : c.type = ItemType.VibesGraphicsGroupType → PredefinedColors V.unicode c._json)
    (hjson : c.type = ItemType.VibesGraphicsGroupType → PredefinedColors V.unicode json) :
    (parseJsonGraphicsChild V (VibesGraphicsItem.setJsonValues V) json c).type = c.type ∧
      ∀ key ∈ styleKeys,
        (parseJsonGraphicsChild V (VibesGraphicsItem.setJsonValues V) json c)._json.value key
            = (if (json.value key).toString ≠ "" then json.value key else c._json.value key) ∧
          (parseJsonGraphicsChild V (VibesGraphicsItem.setJsonValues V) json c)._json.contains key
            = (if (json.value key).toString ≠ "" then true else c._json.contains key) := by
  -- one conditional `setJsonValue`
  have step : ∀ (k : String) (a : VibesGraphicsItem R G), k ∈ styleKeys → a.type = c.type →
      (a._json.value "format").isString = false →
      (a.type = ItemType.VibesGraphicsGroupType → PredefinedColors V.unicode a._json) →
      (if (json.value k).toString ≠ "" then
          VibesGraphicsItem.setJsonValueWith (VibesGraphicsItem.setJsonValues V) a k (json.value k)
        else a).type = c.type ∧
      ((if (json.value k).toString ≠ "" then
          VibesGraphicsItem.setJsonValueWith (VibesGraphicsItem.setJsonValues V) a k (json.value k)
        else a)._json.value "format").isString = false ∧
      ((if (json.value k).toString ≠ "" then
          VibesGraphicsItem.setJsonValueWith (VibesGraphicsItem.setJsonValues V) a k (json.value k)
        else a).type = ItemType.VibesGraphicsGroupType →
        PredefinedColors V.unicode (if (json.value k).toString ≠ "" then
          VibesGraphicsItem.setJsonValueWith (VibesGraphicsItem.setJsonValues V) a k (json.value k)
        else a)._json) ∧
      (if (json.value k).toString ≠ "" then
          VibesGraphicsItem.setJsonValueWith (VibesGraphicsItem.setJsonValues V) a k (json.value k)
        else a)._json
        = (if (json.value k).toString ≠ "" then a._json.insert k (json.value k) else a._json) := by
    intro k a hk ha hnfa hpca
    by_cases hp : (json.value k).toString ≠ ""
    · have hs := VibesGraphicsItem.setJsonValue_style V a k (json.value k) hk hp hnfa hpca
        (by
          intro hg hcol
          have hj := hjson (ha ▸ hg)
          rcases hcol with rfl | rfl
          · exact hj.1
          · exact hj.2)
      rw [if_pos hp, if_pos hp]
      refine ⟨hs.2.1.trans ha, by rw [hs.1]; exact hs.2.2.1, ?_, hs.1⟩
      intro hg
      rw [hs.1]
      exact hs.2.2.2 (hs.2.1 ▸ hg)
    · rw [if_neg hp, if_neg hp]
      exact ⟨ha, hnfa, hpca, rfl⟩
  have s1 := step "EdgeColor" c (by decide) rfl hnf hpc
  have s2 := step "FaceColor" _ (by decide) s1.1 s1.2.1 s1.2.2.1
  have s3 := step "LineStyle" _ (by decide) s2.1 s2.2.1 s2.2.2.1
  have s4 := step "LineWidth" _ (by decide) s3.1 s3.2.1 s3.2.2.1
  unfold parseJsonGraphicsChild
  rw [if_pos hcast]
  unfold VibesGraphicsItem.updateProj
  rw [(VibesGraphicsItem.setProj_frame V _ _ _).1, (VibesGraphicsItem.setProj_frame V _ _ _).2,
    s4.2.2.2, s3.2.2.2, s2.2.2.2, s1.2.2.2]
  refine ⟨s4.1, ?_⟩
  intro key hkey
  simp only [styleKeys, List.mem_cons, List.mem_singleton, List.not_mem_nil, or_false] at hkey
  rcases hkey with rfl | rfl | rfl | rfl <;>
    simp only [QJsonObject.value_push, QJsonObject.contains_push] <;> simp

end VibesGraphicsGroup

namespace VibesGraphicsGroup

variable {R G : Type} [Zero R] [Sub R]

/-- The members of a group after `setJsonValues` on the group: each one has been
through the body of the loop of `VibesGraphicsGroup::parseJsonGraphics`, run with
the document that the group stores after the call. -/
theorem setJsonValues_childItems (V : SubclassMethods R G) (g : VibesGraphicsItem R G)
    (values : QJsonObject R) (hg : g.type = ItemType.VibesGraphicsGroupType) :
    (g.setJsonValues V values).childItems
      = g.childItems.map (parseJsonGraphicsChild V (VibesGraphicsItem.setJsonValues V)
          (g.setJsonValues V values)._json) := by
  have hu : ∀ s : VibesGraphicsItem R G,
      (if s.type ≠ ItemType.VibesGraphicsGroupType then (VibesGraphicsItem.updateProj V s).2
        else s).childItems = s.childItems := by
    intro s
    split
    · exact VibesGraphicsItem.setProj_childItems V _ _ _
    · rfl
  have hc : ∀ (b : Bool) (s : VibesGraphicsItem R G),
      (if b then (VibesGraphicsItem.computeProjection V s s._dimX s._dimY).2 else s).childItems
        = s.childItems := by
    intro b s
    split
    · exact VibesGraphicsItem.computeProjection_childItems V _ _ _
    · rfl
  have hp : ∀ (f : VibesGraphicsItem R G → QJsonObject R → VibesGraphicsItem R G)
      (s : VibesGraphicsItem R G) (j : QJsonObject R), s.type = ItemType.VibesGraphicsGroupType →
      (VibesGraphicsItem.parseJsonGraphicsWith V f s j).2.childItems
        = s.childItems.map (parseJsonGraphicsChild V f j) := by
    intro f s j hs
    simp only [VibesGraphicsItem.parseJsonGraphicsWith, hs, parseJsonGraphics]
  rw [VibesGraphicsItem.setJsonValues_json, VibesGraphicsItem.setJsonValues_eq]
  unfold VibesGraphicsItem.setJsonValuesWith
  simp only
  rw [hu, hc]
  unfold VibesGraphicsItem.parseJsonWith
  simp only
  have hs : ∀ j j' : QJsonObject R,
      (VibesGraphicsItem.parseName { g with _json := j } j').type
        = ItemType.VibesGraphicsGroupType :=
    fun j j' => (VibesGraphicsItem.parseName_frame { g with _json := j } j').2.trans hg
  rw [hp _ _ _ (hs _ _), VibesGraphicsItem.parseName_childItems]
  rfl

/-- C16, as the code has it. When `setJsonValues` is applied to a group, each
member that is a `VibesGraphicsItem` (with no "format" string in its document
and, if it is a group, colours already renamed, as `setJson` and `setJsonValues`
leave them) ends up, for each key among EdgeColor, FaceColor, LineStyle and
LineWidth to which the document of the group gives a non-empty string, with the
value of the group in its own document, whether or not it defined the key
before; a key to which the document of the group gives no non-empty string is
left as it was in the member. -/
theorem setJsonValues_pushes_style (V : SubclassMethods R G) (g : VibesGraphicsItem R G)
    (values : QJsonObject R) (hg : g.type = ItemType.VibesGraphicsGroupType) :
    List.Forall₂
      (fun c c' : VibesGraphicsItem R G =>
        qgraphicsitem_cast c.type = true → (c._json.value "format").isString = false →
        (c.type = ItemType.VibesGraphicsGroupType → PredefinedColors V.unicode c._json) →
        c'.type = c.type ∧
          ∀ key ∈ styleKeys,
            (((g.setJsonValues V values)._json.value key).toString ≠ "" →
              c'._json.value key = (g.setJsonValues V values)._json.value key ∧
                c'._json.contains key = true) ∧
            (((g.setJsonValues V values)._json.value key).toString = "" →
              c'._json.value key = c._json.value key ∧
                c'._json.contains key = c._json.contains key))
      g.childItems (g.setJsonValues V values).childItems := by
  have hdoc : PredefinedColors V.unicode (g.setJsonValues V values)._json := by
    rw [VibesGraphicsItem.setJsonValues_json]
    exact VibesGraphicsItem.parseGroupColors_predefined V.unicode g _ hg
  rw [setJsonValues_childItems V g values hg, List.forall₂_map_right_iff, List.forall₂_same]
  intro c _ hcast hnf hpc
  have h := parseJsonGraphicsChild_style V (g.setJsonValues V values)._json c hcast hnf hpc
    (fun _ => hdoc)
  refine ⟨h.1, ?_⟩
  intro key hkey
  have hk := h.2 key hkey
  constructor
  · intro hp
    rw [hk.1, hk.2, if_pos hp, if_pos hp]
    exact ⟨rfl, rfl⟩
  · intro hp
    rw [hk.1, hk.2, if_neg (not_not.2 hp), if_neg (not_not.2 hp)]
    exact ⟨rfl, rfl⟩

theorem setJsonValues_pushes_style_witness :
    (∀ c ∈ mixedGroup.childItems,
      qgraphicsitem_cast c.type = true ∧ (c._json.value "format").isString = false ∧
        c.type ≠ ItemType.VibesGraphicsGroupType) ∧
    List.Forall₂
      (fun c c' : VibesGraphicsItem Int Unit =>
        qgraphicsitem_cast c.type = true → (c._json.value "format").isString = false →
        (c.type = ItemType.VibesGraphicsGroupType → PredefinedColors SubclassMethods.rejecting.unicode c._json) →
        c'.type = c.type ∧
          ∀ key ∈ styleKeys,
            (((mixedGroup.setJsonValues SubclassMethods.rejecting
                [("FaceColor", QJsonValue.string "red")])._json.value key).toString ≠ "" →
              c'._json.value key = (mixedGroup.setJsonValues SubclassMethods.rejecting
                  [("FaceColor", QJsonValue.string "red")])._json.value key ∧
                c'._json.contains key = true) ∧
            (((mixedGroup.setJsonValues SubclassMethods.rejecting
                [("FaceColor", QJsonValue.string "red")])._json.value key).toString = "" →
              c'._json.value key = c._json.value key ∧
                c'._json.contains key = c._json.contains key))
      mixedGroup.childItems
      (mixedGroup.setJsonValues SubclassMethods.rejecting
        [("FaceColor", QJsonValue.string "red")]).childItems :=
  ⟨by decide,
    setJsonValues_pushes_style SubclassMethods.rejecting mixedGroup
      [("FaceColor", QJsonValue.string "red")] rfl⟩

/-- C16 fails as stated. The group `mixedGroup` has a first member whose own
document sets FaceColor to "blue" and a second member without FaceColor; after
`setJsonValues({"FaceColor":"red"})` on the group, the own documents of both
members set FaceColor to "red". -/
theorem setJsonValues_overwrites_style_counterexample :
    mixedGroup.childItems.map (fun c => (c._json.contains "FaceColor", c._json.value "FaceColor"))
        = [(true, QJsonValue.string "blue"), (false, QJsonValue.undefined)] ∧
      (mixedGroup.setJsonValues SubclassMethods.rejecting
          [("FaceColor", QJsonValue.string "red")]).childItems.map
          (fun c => (c._json.contains "FaceColor", c._json.value "FaceColor"))
        = [(true, QJsonValue.string "red"), (true, QJsonValue.string "red")] :=
  ⟨rfl, rfl⟩

end VibesGraphicsGroup

/-! ## Polygons and sets of boxes -/

namespace QJsonArray

variable {R : Type}

/-- A read inside the array. -/
theorem at_getD (r : QJsonArray R) (i : Int) (k : Nat) (hi : i = (k : Int)) (hk : k < r.length) :
    at_ r i = r.getD k QJsonValue.undefined := by
  subst hi
  have h1 : ¬ ((k : Int) < 0 ∨ (k : Int) ≥ size r) := by
    simp only [size]
    omega
  simp only [at_, if_neg h1, Int.toNat_ofNat]

end QJsonArray

namespace VibesGraphicsPolygon

variable {R : Type}

/-- Validation of a document of type "polygon", from the matrix test. -/
theorem parseJsonGraphics_polygon (self : VibesGraphicsItem R (QPolygonF R)) (json : QJsonObject R)
    (htype : json.value "type" = QJsonValue.string "polygon") :
    parseJsonGraphics self json =
      if (VibesGraphicsItem.isJsonMatrix (json.value "bounds")).1 = true ∧
          2 ≤ (VibesGraphicsItem.isJsonMatrix (json.value "bounds")).2.2 then
        (true, { self with _nbDim := (VibesGraphicsItem.isJsonMatrix (json.value "bounds")).2.2 })
      else (false, self) := by
  have hc : json.contains "type" = true :=
    QJsonObject.contains_of_value_ne json "type" (by rw [htype]; exact fun h => by cases h)
  unfold parseJsonGraphics
  simp only [hc, htype, QJsonValue.toString, if_true]
  by_cases h1 : (VibesGraphicsItem.isJsonMatrix (json.value "bounds")).1 = true
  · by_cases h2 : 2 ≤ (VibesGraphicsItem.isJsonMatrix (json.value "bounds")).2.2
    · simp [h1, h2]
    · simp [h1, h2]
  · simp [h1]

/-- C21, as the code has it. A polygon is described by a matrix under the key
"bounds": every document of type "polygon" whose "bounds" is a non-empty array
of rows with the same number `n ≥ 2` of columns passes validation with `N = n`,
and for a polygon whose stored "bounds" is that matrix and axes `dimX`, `dimY`
below `n`, both indices are inside every row and projection returns true and
sets the polygon, which is drawn closed, to one vertex per row, in the order of
the rows, the vertex of a row being `(row[dimX], row[dimY])`. -/
theorem parseJsonGraphics_bounds [Zero R] (self : VibesGraphicsItem R (QPolygonF R))
    (json : QJsonObject R) (rows : List (QJsonArray R)) (n : Nat)
    (htype : json.value "type" = QJsonValue.string "polygon")
    (hbounds : json.value "bounds" = QJsonValue.array (rows.map QJsonValue.array))
    (hne : rows ≠ []) (hn : 2 ≤ n) (hlen : ∀ r ∈ rows, r.length = n) :
    (parseJsonGraphics self json).1 = true ∧
      (parseJsonGraphics self json).2.dimension = (n : Int) ∧
      ∀ (item : VibesGraphicsItem R (QPolygonF R)) (dimX dimY : Nat),
        item._json.value "bounds" = json.value "bounds" → dimX < n → dimY < n →
        (∀ r ∈ rows, dimX < r.length ∧ dimY < r.length) ∧
          computeProjection item dimX dimY =
            (true, { item with graphics :=
              (rows.map fun r =>
                ⟨(r.getD dimX QJsonValue.undefined).toDouble,
                  (r.getD dimY QJsonValue.undefined).toDouble⟩) }) := by
  have hm := VibesGraphicsItem.isJsonMatrix_rows rows n hne hlen
  have hcond : (VibesGraphicsItem.isJsonMatrix (json.value "bounds")).1 = true ∧
      2 ≤ (VibesGraphicsItem.isJsonMatrix (json.value "bounds")).2.2 := by
    rw [hbounds, hm]
    refine ⟨?_, ?_⟩
    · simp only [decide_eq_true_eq]
      omega
    · show (2 : Int) ≤ (n : Int)
      exact_mod_cast hn
  rw [parseJsonGraphics_polygon self json htype, if_pos hcond]
  refine ⟨rfl, ?_, ?_⟩
  · show (VibesGraphicsItem.isJsonMatrix (json.value "bounds")).2.2 = (n : Int)
    rw [hbounds, hm]
  · intro item dimX dimY hitem hX hY
    refine ⟨fun r hr => by rw [hlen r hr]; exact ⟨hX, hY⟩, ?_⟩
    have hpoly : (rows.map QJsonValue.array).map (fun value =>
          (⟨(QJsonArray.at_ value.toArray (dimX : Int)).toDouble,
            (QJsonArray.at_ value.toArray (dimY : Int)).toDouble⟩ : QPointF R))
        = rows.map fun r =>
          ⟨(r.getD dimX QJsonValue.undefined).toDouble,
            (r.getD dimY QJsonValue.undefined).toDouble⟩ := by
      rw [List.map_map]
      apply List.map_congr_left
      intro r hr
      have hta : (QJsonValue.array r).toArray = r := rfl
      simp only [Function.comp, hta,
        QJsonArray.at_getD r _ dimX rfl (by rw [hlen r hr]; exact hX),
        QJsonArray.at_getD r _ dimY rfl (by rw [hlen r hr]; exact hY)]
    have hta : ∀ a : QJsonArray R, (QJsonValue.array a).toArray = a := fun _ => rfl
    have hproj : computeProjection item dimX dimY =
        (true, { item with graphics :=
          ((item._json.value "bounds").toArray.map fun value =>
            (⟨(QJsonArray.at_ value.toArray (dimX : Int)).toDouble,
              (QJsonArray.at_ value.toArray (dimY : Int)).toDouble⟩ : QPointF R)) }) := rfl
    rw [hproj, hitem, hbounds, hta, hpoly]

theorem parseJsonGraphics_bounds_witness :
    (parseJsonGraphics VibesGraphicsPolygon.new
        (polygonDocument "bounds" [[0, 0], [1, 0], [0, 1]])).1 = true ∧
      (parseJsonGraphics VibesGraphicsPolygon.new
        (polygonDocument "bounds" [[0, 0], [1, 0], [0, 1]])).2.dimension = 2 ∧
      (computeProjection
          { (VibesGraphicsPolygon.new : VibesGraphicsItem Int (QPolygonF Int)) with
            _json := polygonDocument "bounds" [[0, 0], [1, 0], [0, 1]], _nbDim := 2 } 1 0).2.graphics
        = [⟨0, 0⟩, ⟨0, 1⟩, ⟨1, 0⟩] :=
  have h := parseJsonGraphics_bounds VibesGraphicsPolygon.new
    (polygonDocument "bounds" [[0, 0], [1, 0], [0, 1]])
    [[QJsonValue.double 0, QJsonValue.double 0], [QJsonValue.double 1, QJsonValue.double 0],
      [QJsonValue.double 0, QJsonValue.double 1]] 2 rfl rfl (by simp) (le_refl 2) (by simp)
  ⟨h.1, h.2.1, congrArg (fun p => p.2.graphics) (h.2.2 _ 1 0 rfl (by decide) (by decide)).2⟩

/-- C21 fails as stated. The document
`{"type":"polygon","points":[[0,0],[1,0],[0,1]]}` is rejected by validation, which
reads the key "bounds"; the dimension of the new polygon stays 0. -/
theorem parseJsonGraphics_points_key_counterexample :
    (parseJsonGraphics VibesGraphicsPolygon.new
        (polygonDocument "points" [[0, 0], [1, 0], [0, 1]])).1 = false ∧
      (parseJsonGraphics VibesGraphicsPolygon.new
        (polygonDocument "points" [[0, 0], [1, 0], [0, 1]])).2.dimension = 0 := by
  decide

end VibesGraphicsPolygon

namespace VibesGraphicsBoxes

variable {R : Type}

/-- The condition on the columns of "bounds" in the validation of sets of boxes. -/
theorem isJsonMatrix_even (value : QJsonValue R) :
    ((VibesGraphicsItem.isJsonMatrix value).1 = true ∧
        (VibesGraphicsItem.isJsonMatrix value).2.2 % 2 = 0 ∧
        4 ≤ (VibesGraphicsItem.isJsonMatrix value).2.2) ↔
      ∃ (rows : List (QJsonArray R)) (c : Nat),
        value = QJsonValue.array (rows.map QJsonValue.array) ∧ rows ≠ [] ∧
          (∀ r ∈ rows, r.length = c) ∧ c % 2 = 0 ∧ 4 ≤ c := by
  constructor
  · rintro ⟨h1, h2, h3⟩
    obtain ⟨rows, n, hv, hne, _, hlen, hcols⟩ := VibesGraphicsItem.isJsonMatrix_true value h1
    rw [hcols] at h2 h3
    exact ⟨rows, n, hv, hne, hlen, by omega, by omega⟩
  · rintro ⟨rows, c, hv, hne, hlen, h2, h4⟩
    rw [hv, VibesGraphicsItem.isJsonMatrix_rows rows c hne hlen]
    refine ⟨?_, ?_, ?_⟩
    · simp only [decide_eq_true_eq]
      omega
    · show (c : Int) % 2 = 0
      omega
    · show (4 : Int) ≤ (c : Int)
      omega

/-- Validation of a document of type "boxes", from the matrix test. -/
theorem parseJsonGraphics_boxes (self : VibesGraphicsItem R (List (QRectF R)))
    (json : QJsonObject R) (htype : json.value "type" = QJsonValue.string "boxes") :
    parseJsonGraphics self json =
      if (VibesGraphicsItem.isJsonMatrix (json.value "bounds")).1 = true ∧
          (VibesGraphicsItem.isJsonMatrix (json.value "bounds")).2.2 % 2 = 0 ∧
          4 ≤ (VibesGraphicsItem.isJsonMatrix (json.value "bounds")).2.2 then
        (true, { self with
          _nbDim := (VibesGraphicsItem.isJsonMatrix (json.value "bounds")).2.2 / 2 })
      else (false, self) := by
  have hc : json.contains "type" = true :=
    QJsonObject.contains_of_value_ne json "type" (by rw [htype]; exact fun h => by cases h)
  unfold parseJsonGraphics
  simp only [hc, htype, QJsonValue.toString, if_true]
  by_cases h1 : (VibesGraphicsItem.isJsonMatrix (json.value "bounds")).1 = true
  · by_cases h2 : (VibesGraphicsItem.isJsonMatrix (json.value "bounds")).2.2 % 2 = 0
    · by_cases h3 : 4 ≤ (VibesGraphicsItem.isJsonMatrix (json.value "bounds")).2.2
      · simp [h1, h2, h3]
      · simp [h1, h2, h3]
    · simp [h1, h2]
  · simp [h1]

/-- The loop of the projection adds one rectangle per line, after the rectangles
it starts with. -/
theorem computeProjectionLoop_eq [Zero R] [Sub R] (dimX dimY : Int)
    (values : List (QJsonValue R)) (rects : List (QRectF R)) :
    computeProjectionLoop dimX dimY values rects
      = rects ++ values.map (projectedRect dimX dimY) := by
  induction values generalizing rects with
  | nil => simp [computeProjectionLoop]
  | cons value values ih =>
    simp only [computeProjectionLoop, ih, List.map, List.append_assoc, List.singleton_append]

end VibesGraphicsBoxes

namespace VibesGraphicsBoxesUnion

variable {R : Type}

/-- Validation of a document of type "boxes union", from the matrix test. -/
theorem parseJsonGraphics_boxes_union (self : VibesGraphicsItem R (List (QRectF R)))
    (json : QJsonObject R) (htype : json.value "type" = QJsonValue.string "boxes union") :
    parseJsonGraphics self json =
      if (VibesGraphicsItem.isJsonMatrix (json.value "bounds")).1 = true ∧
          (VibesGraphicsItem.isJsonMatrix (json.value "bounds")).2.2 % 2 = 0 ∧
          4 ≤ (VibesGraphicsItem.isJsonMatrix (json.value "bounds")).2.2 then
        (true, { self with
          _nbDim := (VibesGraphicsItem.isJsonMatrix (json.value "bounds")).2.2 / 2 })
      else (false, self) := by
  have hc : json.contains "type" = true :=
    QJsonObject.contains_of_value_ne json "type" (by rw [htype]; exact fun h => by cases h)
  unfold parseJsonGraphics
  simp only [hc, htype, QJsonValue.toString, if_true]
  by_cases h1 : (VibesGraphicsItem.isJsonMatrix (json.value "bounds")).1 = true
  · by_cases h2 : (VibesGraphicsItem.isJsonMatrix (json.value "bounds")).2.2 % 2 = 0
    · by_cases h3 : 4 ≤ (VibesGraphicsItem.isJsonMatrix (json.value "bounds")).2.2
      · simp [h1, h2, h3]
      · simp [h1, h2, h3]
    · simp [h1, h2]
  · simp [h1]

end VibesGraphicsBoxesUnion

namespace VibesGraphicsBoxes

variable {R : Type}

/-- C22. For a document whose type is "boxes", and likewise for the class
`VibesGraphicsBoxesUnion` and a document whose type is "boxes union", validation
succeeds exactly when "bounds" is a non-empty array of arrays that all have the
same length `c`, with `c` even and at least 4, and then `N = c / 2`. For a
`VibesGraphicsBoxes` whose stored "bounds" is that matrix and axes `dimX`, `dimY`
below `c / 2`, the four indices read are inside every row, and projection returns
true and leaves exactly one rectangle per row, in the order of the rows, with
origin `(row[2 dimX], row[2 dimY])`, width `row[2 dimX + 1] - row[2 dimX]` and
height `row[2 dimY + 1] - row[2 dimY]`, whatever rectangles the object had
before. -/
theorem parseJsonGraphics_boxes_iff [Zero R] [Sub R]
    (self : VibesGraphicsItem R (List (QRectF R))) (json : QJsonObject R) :
    (json.value "type" = QJsonValue.string "boxes" →
      ((parseJsonGraphics self json).1 = true ↔
        ∃ (rows : List (QJsonArray R)) (c : Nat),
          json.value "bounds" = QJsonValue.array (rows.map QJsonValue.array) ∧ rows ≠ [] ∧
            (∀ r ∈ rows, r.length = c) ∧ c % 2 = 0 ∧ 4 ≤ c)) ∧
    (json.value "type" = QJsonValue.string "boxes union" →
      ((VibesGraphicsBoxesUnion.parseJsonGraphics self json).1 = true ↔
        ∃ (rows : List (QJsonArray R)) (c : Nat),
          json.value "bounds" = QJsonValue.array (rows.map QJsonValue.array) ∧ rows ≠ [] ∧
            (∀ r ∈ rows, r.length = c) ∧ c % 2 = 0 ∧ 4 ≤ c)) ∧
    ∀ (rows : List (QJsonArray R)) (c : Nat),
      json.value "bounds" = QJsonValue.array (rows.map QJsonValue.array) → rows ≠ [] →
      (∀ r ∈ rows, r.length = c) → c % 2 = 0 → 4 ≤ c →
      (json.value "type" = QJsonValue.string "boxes" →
        (parseJsonGraphics self json).2.dimension = ((c / 2 : Nat) : Int)) ∧
      (json.value "type" = QJsonValue.string "boxes union" →
        (VibesGraphicsBoxesUnion.parseJsonGraphics self json).2.dimension
          = ((c / 2 : Nat) : Int)) ∧
      ∀ (item : VibesGraphicsItem R (List (QRectF R))) (dimX dimY : Nat),
        item._json.value "bounds" = json.value "bounds" → dimX < c / 2 → dimY < c / 2 →
        (∀ r ∈ rows, 2 * dimX + 1 < r.length ∧ 2 * dimY + 1 < r.length) ∧
          computeProjection item dimX dimY =
            (true, { item with graphics :=
              (rows.map fun r =>
                ⟨(r.getD (2 * dimX) QJsonValue.undefined).toDouble,
                  (r.getD (2 * dimY) QJsonValue.undefined).toDouble,
                  (r.getD (2 * dimX + 1) QJsonValue.undefined).toDouble
                    - (r.getD (2 * dimX) QJsonValue.undefined).toDouble,
                  (r.getD (2 * dimY + 1) QJsonValue.undefined).toDouble
                    - (r.getD (2 * dimY) QJsonValue.undefined).toDouble⟩) }) := by
  refine ⟨?_, ?_, ?_⟩
  · intro htype
    rw [parseJsonGraphics_boxes self json htype, ← isJsonMatrix_even]
    split_ifs with h
    · exact ⟨fun _ => h, fun _ => rfl⟩
    · exact ⟨fun hf => (by cases hf), fun hc => absurd hc h⟩
  · intro htype
    rw [VibesGraphicsBoxesUnion.parseJsonGraphics_boxes_union self json htype, ← isJsonMatrix_even]
    split_ifs with h
    · exact ⟨fun _ => h, fun _ => rfl⟩
    · exact ⟨fun hf => (by cases hf), fun hc => absurd hc h⟩
  · intro rows c hv hne hlen h2 h4
    have hcond := (isJsonMatrix_even (json.value "bounds")).2 ⟨rows, c, hv, hne, hlen, h2, h4⟩
    have hcols : (VibesGraphicsItem.isJsonMatrix (json.value "bounds")).2.2 = (c : Int) := by
      rw [hv, VibesGraphicsItem.isJsonMatrix_rows rows c hne hlen]
    have hdiv : ((c : Int) / 2) = ((c / 2 : Nat) : Int) := by omega
    refine ⟨?_, ?_, ?_⟩
    · intro htype
      rw [parseJsonGraphics_boxes self json htype, if_pos hcond]
      show (VibesGraphicsItem.isJsonMatrix (json.value "bounds")).2.2 / 2 = _
      rw [hcols, hdiv]
    · intro htype
      rw [VibesGraphicsBoxesUnion.parseJsonGraphics_boxes_union self json htype, if_pos hcond]
      show (VibesGraphicsItem.isJsonMatrix (json.value "bounds")).2.2 / 2 = _
      rw [hcols, hdiv]
    · intro item dimX dimY hitem hX hY
      have hin : ∀ r ∈ rows, 2 * dimX + 1 < r.length ∧ 2 * dimY + 1 < r.length := by
        intro r hr
        rw [hlen r hr]
        omega
      refine ⟨hin, ?_⟩
      have hta : ∀ a : QJsonArray R, (QJsonValue.array a).toArray = a := fun _ => rfl
      have hrect : (rows.map QJsonValue.array).map (projectedRect (dimX : Int) (dimY : Int))
          = rows.map fun r =>
            (⟨(r.getD (2 * dimX) QJsonValue.undefined).toDouble,
              (r.getD (2 * dimY) QJsonValue.undefined).toDouble,
              (r.getD (2 * dimX + 1) QJsonValue.undefined).toDouble
                - (r.getD (2 * dimX) QJsonValue.undefined).toDouble,
              (r.getD (2 * dimY + 1) QJsonValue.undefined).toDouble
                - (r.getD (2 * dimY) QJsonValue.undefined).toDouble⟩ : QRectF R) := by
        rw [List.map_map]
        apply List.map_congr_left
        intro r hr
        have h := hin r hr
        simp only [Function.comp, projectedRect, hta,
          QJsonArray.at_getD r (2 * (dimX : Int)) (2 * dimX) (by push_cast; rfl) (by omega),
          QJsonArray.at_getD r (2 * (dimX : Int) + 1) (2 * dimX + 1) (by push_cast; rfl) (by omega),
          QJsonArray.at_getD r (2 * (dimY : Int)) (2 * dimY) (by push_cast; rfl) (by omega),
          QJsonArray.at_getD r (2 * (dimY : Int) + 1) (2 * dimY + 1) (by push_cast; rfl) (by omega)]
      unfold computeProjection
      simp only [computeProjectionLoop_eq, List.nil_append]
      rw [hitem, hv, hta, hrect]

theorem parseJsonGraphics_boxes_iff_witness :
    (parseJsonGraphics VibesGraphicsBoxes.new (boxesDocument "boxes" [[0, 1, 2, 3], [4, 6, 5, 8]])).1
        = true ∧
      (parseJsonGraphics VibesGraphicsBoxes.new
        (boxesDocument "boxes" [[0, 1, 2, 3], [4, 6, 5, 8]])).2.dimension = 2 ∧
      (VibesGraphicsBoxesUnion.parseJsonGraphics VibesGraphicsBoxesUnion.new
        (boxesDocument "boxes union" [[0, 1, 2, 3], [4, 6, 5, 8]])).1 = true ∧
      (computeProjection
          { (VibesGraphicsBoxes.new : VibesGraphicsItem Int (List (QRectF Int))) with
            _json := boxesDocument "boxes" [[0, 1, 2, 3], [4, 6, 5, 8]], _nbDim := 2,
            graphics := [⟨7, 7, 7, 7⟩] } 0 1).2.graphics
        = [⟨0, 2, 1, 1⟩, ⟨4, 5, 2, 3⟩] ∧
      (parseJsonGraphics VibesGraphicsBoxes.new (boxesDocument "boxes" [[0, 1, 2]])).1 = false ∧
      (parseJsonGraphics VibesGraphicsBoxes.new (boxesDocument "boxes" [[0, 1]])).1 = false ∧
      (parseJsonGraphics VibesGraphicsBoxes.new
        (boxesDocument "boxes" [[0, 1, 2, 3], [4, 6]])).1 = false :=
  have hb := parseJsonGraphics_boxes_iff VibesGraphicsBoxes.new
    (boxesDocument "boxes" [[0, 1, 2, 3], [4, 6, 5, 8]])
  have hu := parseJsonGraphics_boxes_iff VibesGraphicsBoxesUnion.new
    (boxesDocument "boxes union" [[0, 1, 2, 3], [4, 6, 5, 8]])
  have hrows := hb.2.2
    [[QJsonValue.double 0, QJsonValue.double 1, QJsonValue.double 2, QJsonValue.double 3],
      [QJsonValue.double 4, QJsonValue.double 6, QJsonValue.double 5, QJsonValue.double 8]] 4
    rfl (by simp) (by simp) (by decide) (le_refl 4)
  ⟨(hb.1 rfl).2
      ⟨[[QJsonValue.double 0, QJsonValue.double 1, QJsonValue.double 2, QJsonValue.double 3],
        [QJsonValue.double 4, QJsonValue.double 6, QJsonValue.double 5, QJsonValue.double 8]], 4,
        rfl, by simp, by simp, by decide, le_refl 4⟩, hrows.1 rfl,
    (hu.2.1 rfl).2
      ⟨[[QJsonValue.double 0, QJsonValue.double 1, QJsonValue.double 2, QJsonValue.double 3],
        [QJsonValue.double 4, QJsonValue.double 6, QJsonValue.double 5, QJsonValue.double 8]], 4,
        rfl, by simp, by simp, by decide, le_refl 4⟩,
    congrArg (fun p => p.2.graphics) (hrows.2.2 _ 0 1 rfl (by decide) (by decide)).2,
    by decide, by decide, by decide⟩

end VibesGraphicsBoxes

/-! ## Sets of points -/

namespace VibesGraphicsPoints

variable {R : Type}

/-- C23, as the code has it. Validation of a set of points does not look at
"Radiuses": every document whose type is "points" passes validation, whatever
the length of its "Radiuses" array, and `N` is the number of coordinates of the
first center. -/
theorem parseJsonGraphics_points [Zero R] (m : CMath R)
    (self : VibesGraphicsItem R (PointsGraphics R)) (json : QJsonObject R)
    (htype : json.value "type" = QJsonValue.string "points") :
    (parseJsonGraphics m self json).1 = true ∧
      (parseJsonGraphics m self json).2.dimension
        = QJsonArray.size (QJsonArray.at_ (json.value "centers").toArray 0).toArray ∧
      (parseJsonGraphics m self json).2.graphics.disks = self.graphics.disks := by
  have hc : json.contains "type" = true :=
    QJsonObject.contains_of_value_ne json "type" (by rw [htype]; exact fun h => by cases h)
  have h : parseJsonGraphics m self json
      = (true, (parseJsonGraphics m self json).2) ∧
      (parseJsonGraphics m self json).2._nbDim
        = QJsonArray.size (QJsonArray.at_ (json.value "centers").toArray 0).toArray ∧
      (parseJsonGraphics m self json).2.graphics.disks = self.graphics.disks := by
    unfold parseJsonGraphics
    simp only [hc, htype, QJsonValue.toString, if_true, and_self]
  exact ⟨by rw [h.1], h.2.1, h.2.2⟩

theorem parseJsonGraphics_points_witness :
    (parseJsonGraphics CMath.integers VibesGraphicsPoints.new
        (pointsDocument [[0, 0], [1, 1]] [1, 2])).1 = true ∧
      (parseJsonGraphics CMath.integers VibesGraphicsPoints.new
        (pointsDocument [[0, 0], [1, 1]] [1, 2])).2.dimension = 2 :=
  have h := parseJsonGraphics_points CMath.integers VibesGraphicsPoints.new
    (pointsDocument [[0, 0], [1, 1]] [1, 2]) rfl
  ⟨h.1, h.2.1⟩

/-- C23 fails as stated. The document
`{"type":"points","centers":[[0,0],[1,1]],"Radiuses":[1]}` has two centers and one
radius, and validation accepts it, with `N = 2`; so it does the document with
three radiuses. -/
theorem parseJsonGraphics_radiuses_counterexample :
    (((pointsDocument [[0, 0], [1, 1]] [1] : QJsonObject Int).value "centers").toArray.length = 2 ∧
      ((pointsDocument [[0, 0], [1, 1]] [1] : QJsonObject Int).value "Radiuses").toArray.length = 1 ∧
      (parseJsonGraphics CMath.integers VibesGraphicsPoints.new
        (pointsDocument [[0, 0], [1, 1]] [1])).1 = true ∧
      (parseJsonGraphics CMath.integers VibesGraphicsPoints.new
        (pointsDocument [[0, 0], [1, 1]] [1])).2.dimension = 2) ∧
    (parseJsonGraphics CMath.integers VibesGraphicsPoints.new
      (pointsDocument [[0, 0], [1, 1]] [1, 2, 3])).1 = true := by
  decide

/-- A loop that adds one element per index gives the elements in the order of
the indices. -/
theorem foldl_append_singleton {α β : Type} (f : β → α) (l : List β) (init : List α) :
    l.foldl (fun acc i => acc ++ [f i]) init = init ++ l.map f := by
  induction l generalizing init with
  | nil => simp
  | cons x l ih => simp [ih]

variable [Zero R] [Neg R] [Mul R] [Div R] [IntCast R]

/-- The disks after the projection, one per center. -/
theorem computeProjection_eq (self : VibesGraphicsItem R (PointsGraphics R)) (dimX dimY : Int) :
    (computeProjection self dimX dimY).1 = true ∧
    (computeProjection self dimX dimY).2.graphics.disks
      = (List.range (self._json.value "centers").toArray.length).map
          fun i : Nat => projectedDisk self._json dimX dimY (i : Int) := by
  unfold computeProjection
  simp only [foldl_append_singleton, List.nil_append, and_self]

/-- C24. For every set of points with `n` centers, whatever it had before,
projection returns true and leaves exactly `n` disks; the disk `i` is at
`(centers[i][dimX], centers[i][dimY])` and its rectangle is `(-r, -r, 2 r, 2 r)`,
where the radius `r` is `Radiuses[i]` when the document has "Radiuses", else the
number under "Radius" when the document has one, else `0.01`. -/
theorem computeProjection_disks (self : VibesGraphicsItem R (PointsGraphics R))
    (dimX dimY : Int) :
    (computeProjection self dimX dimY).1 = true ∧
    (computeProjection self dimX dimY).2.graphics.disks.length
      = (self._json.value "centers").toArray.length ∧
    (∀ i : Nat, i < (self._json.value "centers").toArray.length →
      ∃ disk : PointDisk R,
        (computeProjection self dimX dimY).2.graphics.disks[i]? = some disk ∧
        disk.pos =
          ⟨(QJsonArray.at_ (((self._json.value "centers").toArray.getD i
              QJsonValue.undefined).toArray) dimX).toDouble,
            (QJsonArray.at_ (((self._json.value "centers").toArray.getD i
              QJsonValue.undefined).toArray) dimY).toDouble⟩ ∧
        disk.rect =
          ⟨-projectedRadius self._json i, -projectedRadius self._json i,
            ((2 : Int) : R) * projectedRadius self._json i,
            ((2 : Int) : R) * projectedRadius self._json i⟩) ∧
    (∀ i : Int,
      (self._json.contains "Radiuses" = true →
        projectedRadius self._json i
          = (QJsonArray.at_ (self._json.value "Radiuses").toArray i).toDouble) ∧
      (self._json.contains "Radiuses" = false →
        (∀ radius : R, self._json.value "Radius" = QJsonValue.double radius →
          projectedRadius self._json i = radius) ∧
        (self._json.contains "Radius" = false →
          projectedRadius self._json i = ((1 : Int) : R) / ((100 : Int) : R)))) := by
  obtain ⟨h1, h2⟩ := computeProjection_eq self dimX dimY
  refine ⟨h1, by rw [h2]; simp, ?_, ?_⟩
  · intro i hi
    refine ⟨projectedDisk self._json dimX dimY (i : Int), ?_, ?_, rfl⟩
    · rw [h2, List.getElem?_map, List.getElem?_range hi]
      rfl
    · have hat := QJsonArray.at_getD (self._json.value "centers").toArray (i : Int) i rfl hi
      simp only [projectedDisk, hat]
  · intro i
    refine ⟨?_, ?_⟩
    · intro hr
      simp [projectedRadius, hr]
    · intro hr
      refine ⟨?_, ?_⟩
      · intro radius hv
        have hc : self._json.contains "Radius" = true :=
          QJsonObject.contains_of_value_ne _ "Radius" (by rw [hv]; exact fun h => by cases h)
        simp [projectedRadius, hr, hc, hv, QJsonValue.toDoubleOr]
      · intro hc
        simp [projectedRadius, hr, hc, defaultRadius]

/-- Scenario E: centers `[[0,0],[1,1]]` and radiuses `[0.1,0.2]` at the axes
`(0,1)` give two disks, of radius `0.1` at `(0,0)` and of radius `0.2` at `(1,1)`. -/
theorem computeProjection_disks_witness :
    (computeProjection
        { (VibesGraphicsPoints.new : VibesGraphicsItem ℚ (PointsGraphics ℚ)) with
          _json := pointsDocument [[0, 0], [1, 1]] [1 / 10, 1 / 5], _nbDim := 2 } 0 1).2.graphics.disks.length
      = 2 ∧
    (∃ disk : PointDisk ℚ,
      (computeProjection
        { (VibesGraphicsPoints.new : VibesGraphicsItem ℚ (PointsGraphics ℚ)) with
          _json := pointsDocument [[0, 0], [1, 1]] [1 / 10, 1 / 5], _nbDim := 2 } 0 1).2.graphics.disks[0]?
        = some disk ∧ disk.pos = ⟨0, 0⟩ ∧ disk.rect = ⟨-(1 / 10), -(1 / 10), 1 / 5, 1 / 5⟩) ∧
    ∃ disk : PointDisk ℚ,
      (computeProjection
        { (VibesGraphicsPoints.new : VibesGraphicsItem ℚ (PointsGraphics ℚ)) with
          _json := pointsDocument [[0, 0], [1, 1]] [1 / 10, 1 / 5], _nbDim := 2 } 0 1).2.graphics.disks[1]?
        = some disk ∧ disk.pos = ⟨1, 1⟩ ∧ disk.rect = ⟨-(1 / 5), -(1 / 5), 2 / 5, 2 / 5⟩ :=
  have h := computeProjection_disks
    { (VibesGraphicsPoints.new : VibesGraphicsItem ℚ (PointsGraphics ℚ)) with
      _json := pointsDocument [[0, 0], [1, 1]] [1 / 10, 1 / 5], _nbDim := 2 } 0 1
  have ⟨disk0, hd0, hpos0, hrect0⟩ := h.2.2.1 0 (by decide)
  have ⟨disk1, hd1, hpos1, hrect1⟩ := h.2.2.1 1 (by decide)
  ⟨h.2.1,
    ⟨disk0, hd0, hpos0, by
      rw [hrect0]
      have hr : projectedRadius (pointsDocument [[0, 0], [1, 1]] [(1 / 10 : ℚ), 1 / 5])
          ((0 : Nat) : Int) = 1 / 10 := rfl
      show (⟨_, _, _, _⟩ : QRectF ℚ) = _
      simp only [hr]
      norm_num⟩,
    disk1, hd1, hpos1, by
      rw [hrect1]
      have hr : projectedRadius (pointsDocument [[0, 0], [1, 1]] [(1 / 10 : ℚ), 1 / 5])
          ((1 : Nat) : Int) = 1 / 5 := rfl
      show (⟨_, _, _, _⟩ : QRectF ℚ) = _
      simp only [hr]
      norm_num⟩

end VibesGraphicsPoints

/-! ## Rings, pies and arrows -/

namespace VibesGraphicsRing

/-- C25 at the failing input. Validation of a ring only counts the entries of
"center" and of "rho": for all numbers `inner` and `outer` the document
`{"type":"ring","center":[0,0],"rho":[inner,outer]}` is accepted with `N = 2`,
while the assertions of the projection hold exactly when `0 ≤ inner ≤ outer`.
The rings with `rho = [2,1]` and with `rho = [-1,1]` are accepted and break the
assertions; the ring with `rho = [1,2]` is accepted and satisfies them. -/
theorem parseJsonGraphics_accepts_inverted_rho (inner outer : Int) :
    (parseJsonGraphics VibesGraphicsRing.new (ringDocument [0, 0] [inner, outer])).1 = true ∧
      (ringItem [0, 0] [inner, outer]).dimension = 2 ∧
      computeProjectionAsserts (ringItem [0, 0] [inner, outer])
        = decide (0 ≤ inner ∧ inner ≤ outer) ∧
      (parseJsonGraphics VibesGraphicsRing.new (ringDocument [0, 0] [2, 1])).1 = true ∧
      computeProjectionAsserts (ringItem [0, 0] [2, 1]) = false ∧
      (parseJsonGraphics VibesGraphicsRing.new (ringDocument [0, 0] [-1, 1])).1 = true ∧
      computeProjectionAsserts (ringItem [0, 0] [-1, 1]) = false ∧
      (parseJsonGraphics VibesGraphicsRing.new (ringDocument [0, 0] [1, 2])).1 = true ∧
      computeProjectionAsserts (ringItem [0, 0] [1, 2]) = true := by
  refine ⟨rfl, rfl, ?_, by decide, by decide, by decide, by decide, by decide, by decide⟩
  have h : computeProjectionAsserts (ringItem [0, 0] [inner, outer])
      = (decide (inner ≥ 0) && decide (outer ≥ inner)) := rfl
  rw [h]
  simp [Bool.decide_and]

variable {R : Type} [Zero R] [Add R] [Sub R] [Mul R] [Div R] [Neg R] [IntCast R]

/-- C26. For every ring, pie and arrow, a second projection with the same axes
and the same document returns true and leaves the object exactly as the first
projection left it: the same children, with the same paths and polygons. The
first projection of an object without children gives it one child (ring, pie)
or two (arrow); an object that has children is left as it is. -/
theorem computeProjection_twice (t : CTrig R)
    (self : VibesGraphicsItem R (List (ChildPrimitive R))) (dimX dimY : Int) :
    (computeProjection (computeProjection self dimX dimY).2 dimX dimY
        = (true, (computeProjection self dimX dimY).2) ∧
      VibesGraphicsPie.computeProjection t
          (VibesGraphicsPie.computeProjection t self dimX dimY).2 dimX dimY
        = (true, (VibesGraphicsPie.computeProjection t self dimX dimY).2) ∧
      VibesGraphicsArrow.computeProjection t
          (VibesGraphicsArrow.computeProjection t self dimX dimY).2 dimX dimY
        = (true, (VibesGraphicsArrow.computeProjection t self dimX dimY).2)) ∧
    (self.graphics = [] →
      (computeProjection self dimX dimY).2.graphics.length = 1 ∧
        (VibesGraphicsPie.computeProjection t self dimX dimY).2.graphics.length = 1 ∧
        (VibesGraphicsArrow.computeProjection t self dimX dimY).2.graphics.length = 2) ∧
    (self.graphics ≠ [] →
      computeProjection self dimX dimY = (true, self) ∧
        VibesGraphicsPie.computeProjection t self dimX dimY = (true, self) ∧
        VibesGraphicsArrow.computeProjection t self dimX dimY = (true, self)) := by
  have hlen : self.graphics ≠ [] → self.graphics.length > 0 := fun h =>
    List.length_pos.2 h
  refine ⟨⟨?_, ?_, ?_⟩, ?_, ?_⟩
  · by_cases h : self.graphics.length > 0
    · simp [computeProjection, h]
    · simp [computeProjection, h]
  · by_cases h : self.graphics.length > 0
    · simp [VibesGraphicsPie.computeProjection, h]
    · simp [VibesGraphicsPie.computeProjection, h]
  · by_cases h : self.graphics.length > 0
    · simp [VibesGraphicsArrow.computeProjection, h]
    · simp [VibesGraphicsArrow.computeProjection, h]
  · intro h
    simp [computeProjection, VibesGraphicsPie.computeProjection,
      VibesGraphicsArrow.computeProjection, h]
  · intro h
    have h0 := hlen h
    simp [computeProjection, VibesGraphicsPie.computeProjection,
      VibesGraphicsArrow.computeProjection, h0]

/-- The ring with center `[0,0]` and `rho = [1,2]` gets one child at its first
projection, the path of the circles of radius 2 and of radius 1, and keeps
exactly that child at the second projection. -/
theorem computeProjection_twice_witness :
    (computeProjection (ringItem [0, 0] [1, 2]) 0 1).2.graphics
        = [ChildPrimitive.path
            [PathCall.addEllipse ⟨-2, -2, 4, 4⟩, PathCall.addEllipse ⟨-1, -1, 2, 2⟩]] ∧
      (computeProjection (computeProjection (ringItem [0, 0] [1, 2]) 0 1).2 0 1).2.graphics
        = [ChildPrimitive.path
            [PathCall.addEllipse ⟨-2, -2, 4, 4⟩, PathCall.addEllipse ⟨-1, -1, 2, 2⟩]] ∧
      (computeProjection (ringItem [0, 0] [1, 2]) 0 1).2.graphics.length = 1 :=
  have h := computeProjection_twice CTrig.integers (ringItem [0, 0] [1, 2]) 0 1
  ⟨rfl, (congrArg (fun p => p.2.graphics) h.1.1).trans rfl, (h.2.1 rfl).1⟩

end VibesGraphicsRing

/-! ## Pen widths -/

namespace VibesDefaults

/-- C27. Whatever number `w` the conversion gives for the width string,
`parsePenWidth` returns `max(0, w)`: the result is never negative, it is `w`
whenever `w ≥ 0`, and it is `0` for a string that denotes no number, for which
the conversion gives `0`. -/
theorem parsePenWidth_nonneg {R : Type} [LinearOrder R] [Zero R] (toDouble : String → R)
    (width : String) :
    parsePenWidth toDouble width = max 0 (toDouble width) ∧
      0 ≤ parsePenWidth toDouble width ∧
      (0 ≤ toDouble width → parsePenWidth toDouble width = toDouble width) ∧
      (toDouble width = 0 → parsePenWidth toDouble width = 0) := by
  have h : parsePenWidth toDouble width = max 0 (toDouble width) := by
    unfold parsePenWidth std_max
    split
    · rename_i hlt
      exact (max_eq_right (le_of_lt hlt)).symm
    · rename_i hlt
      exact (max_eq_left (not_lt.1 hlt)).symm
  refine ⟨h, ?_, ?_, ?_⟩
  · rw [h]
    exact le_max_left _ _
  · intro hw
    rw [h]
    exact max_eq_right hw
  · intro hw
    rw [h, hw]
    exact max_self _

/-- With a conversion that gives `2` for "2", `-3` for "-3" and `0` for the other
strings, the widths are `2`, `0` and `0`. -/
theorem parsePenWidth_nonneg_witness :
    parsePenWidth (fun s => if s = "2" then (2 : Int) else if s = "-3" then -3 else 0) "2" = 2 ∧
      parsePenWidth (fun s => if s = "2" then (2 : Int) else if s = "-3" then -3 else 0) "-3" = 0 ∧
      parsePenWidth (fun s => if s = "2" then (2 : Int) else if s = "-3" then -3 else 0) "thin"
        = 0 :=
  have h := parsePenWidth_nonneg
    (fun s => if s = "2" then (2 : Int) else if s = "-3" then -3 else 0)
  ⟨(h "2").2.2.1 (by decide), (h "-3").1.trans (by decide), (h "thin").2.2.2 (by decide)⟩

end VibesDefaults

/-! ## The "format" shorthand -/

namespace QString

theorem dropWhile_append_of_not (p : Char → Bool) (l1 l2 : List Char) (x : Char)
    (hx : p x = false) : (l1 ++ x :: l2).dropWhile p = l1.dropWhile p ++ x :: l2 := by
  induction l1 with
  | nil => simp [List.dropWhile, hx]
  | cons y l1 ih =>
    cases hy : p y
    · simp [List.dropWhile, hy]
    · simp [List.dropWhile, hy, ih]

theorem dropWhile_append_all (p : Char → Bool) (a l : List Char) (ha : ∀ c ∈ a, p c = true) :
    (a ++ l).dropWhile p = l.dropWhile p := by
  induction a with
  | nil => rfl
  | cons y a ih =>
    have hy := ha y (List.mem_cons_self _ _)
    simp [List.dropWhile, hy, ih (fun c hc => ha c (List.mem_cons_of_mem _ hc))]

theorem dropWhile_all (p : Char → Bool) (b : List Char) (hb : ∀ c ∈ b, p c = true) :
    b.dropWhile p = [] := by
  have := dropWhile_append_all p b [] hb
  simpa using this

theorem dropWhile_append_spaces (p : Char → Bool) (l b : List Char) (hb : ∀ c ∈ b, p c = true) :
    (l ++ b).dropWhile p = if l.dropWhile p = [] then [] else l.dropWhile p ++ b := by
  induction l with
  | nil => simp [dropWhile_all p b hb]
  | cons x l ih =>
    cases hx : p x
    · simp [List.dropWhile, hx]
    · simp [List.dropWhile, hx, ih]

theorem trimmedChars_append_left (a l : List Char) (ha : ∀ c ∈ a, QChar.isSpace c = true) :
    trimmedChars (a ++ l) = trimmedChars l := by
  unfold trimmedChars
  rw [dropWhile_append_all _ a l ha]

theorem trimmedChars_append_right (l b : List Char) (hb : ∀ c ∈ b, QChar.isSpace c = true) :
    trimmedChars (l ++ b) = trimmedChars l := by
  unfold trimmedChars
  rw [dropWhile_append_spaces _ l b hb]
  split
  · rename_i h
    rw [h]
  · rw [List.reverse_append, dropWhile_append_all _ b.reverse _
      (fun c hc => hb c (List.mem_reverse.1 hc))]

/-- Trimming the two ends before joining them changes nothing to the trimmed join. -/
theorem trimmedChars_join (pre suf : List Char) :
    trimmedChars (pre.dropWhile QChar.isSpace
        ++ (suf.reverse.dropWhile QChar.isSpace).reverse) = trimmedChars (pre ++ suf) := by
  have h1 : pre = pre.takeWhile QChar.isSpace ++ pre.dropWhile QChar.isSpace :=
    (List.takeWhile_append_dropWhile _ pre).symm
  have h2 : suf = (suf.reverse.dropWhile QChar.isSpace).reverse
      ++ (suf.reverse.takeWhile QChar.isSpace).reverse := by
    rw [← List.reverse_append, List.takeWhile_append_dropWhile, List.reverse_reverse]
  conv_rhs => rw [h1, h2]
  rw [List.append_assoc, trimmedChars_append_left _ _ (fun c hc => List.mem_takeWhile_imp hc),
    ← List.append_assoc, trimmedChars_append_right _ _
      (fun c hc => List.mem_takeWhile_imp (List.mem_reverse.1 hc))]

theorem indexOfFrom_append (c : Char) (a rest : List Char) (i : Int) (ha : c ∉ a) :
    indexOfFrom c (a ++ c :: rest) i = i + a.length := by
  induction a generalizing i with
  | nil => simp [indexOfFrom]
  | cons y a ih =>
    have hy : y ≠ c := fun h => ha (h ▸ List.mem_cons_self _ _)
    have ha2 : c ∉ a := fun h => ha (List.mem_cons_of_mem _ h)
    show indexOfFrom c (y :: (a ++ c :: rest)) i = _
    simp only [indexOfFrom, if_neg hy]
    rw [ih (i + 1) ha2, List.length_cons]
    push_cast
    ring

theorem indexOfFrom_not_mem (c : Char) (a : List Char) (i : Int) (ha : c ∉ a) :
    indexOfFrom c a i = -1 := by
  induction a generalizing i with
  | nil => rfl
  | cons y a ih =>
    have hy : y ≠ c := fun h => ha (h ▸ List.mem_cons_self _ _)
    have ha2 : c ∉ a := fun h => ha (List.mem_cons_of_mem _ h)
    simp only [indexOfFrom, if_neg hy, ih (i + 1) ha2]

theorem trimmedChars_brackets (pre F suf : List Char) :
    trimmedChars (pre ++ '[' :: (F ++ ']' :: suf))
      = pre.dropWhile QChar.isSpace
        ++ '[' :: (F ++ ']' :: (suf.reverse.dropWhile QChar.isSpace).reverse) := by
  unfold trimmedChars
  rw [dropWhile_append_of_not _ _ _ '[' (by decide)]
  have hrev : (pre.dropWhile QChar.isSpace ++ '[' :: (F ++ ']' :: suf)).reverse
      = suf.reverse ++ ']' :: (F.reverse ++ '[' :: (pre.dropWhile QChar.isSpace).reverse) := by
    simp
  rw [hrev, dropWhile_append_of_not _ _ _ ']' (by decide)]
  simp

theorem indexOf_brackets (A F B : List Char) (hA : '[' ∉ A) :
    indexOf (String.mk (A ++ '[' :: (F ++ ']' :: B))) '[' = (A.length : Int) := by
  unfold indexOf
  rw [indexOfFrom_append '[' A _ 0 hA]
  simp

theorem lastIndexOf_brackets (A F B : List Char) (hB : ']' ∉ B) :
    lastIndexOf (String.mk (A ++ '[' :: (F ++ ']' :: B))) ']'
      = (A.length : Int) + 1 + (F.length : Int) := by
  unfold lastIndexOf
  have hrev : (A ++ '[' :: (F ++ ']' :: B)).reverse
      = B.reverse ++ ']' :: (F.reverse ++ '[' :: A.reverse) := by
    simp
  simp only [hrev, indexOfFrom_append ']' B.reverse _ 0 (fun h => hB (List.mem_reverse.1 h))]
  have h0 : ¬ ((0 : Int) + (B.reverse.length : Int) < 0) := by omega
  rw [if_neg h0]
  simp only [List.length_append, List.length_cons, List.length_reverse]
  push_cast
  ring

theorem mid_brackets (A F B : List Char) (position n : Int)
    (hp : position = (A.length : Int) + 1) (hn : n = (F.length : Int)) :
    mid (String.mk (A ++ '[' :: (F ++ ']' :: B))) position n = String.mk F := by
  subst hp hn
  unfold mid
  have hlen : ((A ++ '[' :: (F ++ ']' :: B)).length : Int)
      = (A.length : Int) + 1 + (F.length : Int) + 1 + (B.length : Int) := by
    simp only [List.length_append, List.length_cons]
    push_cast
    ring
  simp only [hlen]
  rw [if_neg (by omega), if_neg (by omega), if_neg (by omega)]
  have h1 : ((A.length : Int) + 1).toNat = A.length + 1 := by omega
  have h2 : ((F.length : Int)).toNat = F.length := by omega
  rw [h1, h2]
  have hd : (A ++ '[' :: (F ++ ']' :: B)).drop (A.length + 1) = F ++ ']' :: B := by
    rw [show A ++ '[' :: (F ++ ']' :: B) = (A ++ ['[']) ++ (F ++ ']' :: B) by simp]
    exact List.drop_left' (by simp)
  rw [hd, List.take_left' rfl]

theorem remove_brackets (A F B : List Char) (pos len : Int)
    (hp : pos = (A.length : Int)) (hl : len = (F.length : Int) + 2) :
    remove (String.mk (A ++ '[' :: (F ++ ']' :: B))) pos len = String.mk (A ++ B) := by
  subst hp hl
  unfold remove
  have hlen : ((A ++ '[' :: (F ++ ']' :: B)).length : Int)
      = (A.length : Int) + 1 + (F.length : Int) + 1 + (B.length : Int) := by
    simp only [List.length_append, List.length_cons]
    push_cast
    ring
  have hpos : (if (A.length : Int) < 0 then (A.length : Int)
      + ((A.length : Int) + 1 + (F.length : Int) + 1 + (B.length : Int)) else (A.length : Int))
      = (A.length : Int) := if_neg (by omega)
  simp only [hlen, hpos]
  rw [if_neg (by omega)]
  have h1 : ((A.length : Int)).toNat = A.length := by omega
  have ht : (A ++ '[' :: (F ++ ']' :: B)).take A.length = A := List.take_left' rfl
  by_cases hB : B = []
  · subst hB
    rw [if_pos (by simp only [List.length_nil]; omega), h1, ht]
    simp
  · have hBl : 0 < B.length := List.length_pos.2 hB
    rw [if_neg (by omega), if_pos (by omega), h1, ht]
    have h2 : ((A.length : Int) + ((F.length : Int) + 2)).toNat = A.length + 1 + F.length + 1 := by
      omega
    have hd : (A ++ '[' :: (F ++ ']' :: B)).drop (A.length + 1 + F.length + 1) = B := by
      rw [show A ++ '[' :: (F ++ ']' :: B) = (A ++ '[' :: (F ++ [']'])) ++ B by simp]
      exact List.drop_left' (by simp; omega)
    rw [h2, hd]

end QString

namespace VibesGraphicsItem

variable {R G : Type}

/-- The document after a "format" string has been processed, when the trimmed
string is `A [F] B`. -/
theorem parseFormat_of_trimmed (json : QJsonObject R) (format : String) (A F B : List Char)
    (hformat : json.value "format" = QJsonValue.string format)
    (htrimmed : QString.trimmed format = String.mk (A ++ '[' :: (F ++ ']' :: B)))
    (hA : '[' ∉ A) (hB : ']' ∉ B) :
    parseFormat json =
      (if QString.trimmed (String.mk (A ++ B)) ≠ "" then
        (json.insert "FaceColor" (QJsonValue.string (QString.trimmed (String.mk F)))).insert
          "EdgeColor" (QJsonValue.string (QString.trimmed (String.mk (A ++ B))))
      else json.insert "FaceColor" (QJsonValue.string (QString.trimmed (String.mk F)))).remove
        "format" := by
  have hc : json.contains "format" = true :=
    QJsonObject.contains_of_value_ne json "format" (by rw [hformat]; exact fun h => by cases h)
  have hlt : (A.length : Int) < (A.length : Int) + 1 + (F.length : Int) := by omega
  unfold parseFormat
  simp only [hc, hformat, QJsonValue.isString, QJsonValue.toString, Bool.and_self, if_true,
    htrimmed, QString.indexOf_brackets A F B hA, QString.lastIndexOf_brackets A F B hB]
  rw [if_pos hlt]
  simp only [QString.mid_brackets A F B ((A.length : Int) + 1)
      ((A.length : Int) + 1 + (F.length : Int) - (A.length : Int) - 1) rfl (by ring),
    QString.remove_brackets A F B (A.length : Int)
      ((A.length : Int) + 1 + (F.length : Int) - (A.length : Int) + 1) rfl (by ring)]

/-- The document after the "format" string `pre [F] suf` has been processed. -/
theorem parseFormat_brackets (json : QJsonObject R) (pre F suf : List Char)
    (hformat : json.value "format"
      = QJsonValue.string (String.mk (pre ++ '[' :: (F ++ ']' :: suf))))
    (hpre : '[' ∉ pre) (hsuf : ']' ∉ suf) :
    parseFormat json =
      (if QString.trimmed (String.mk (pre ++ suf)) ≠ "" then
        (json.insert "FaceColor" (QJsonValue.string (QString.trimmed (String.mk F)))).insert
          "EdgeColor" (QJsonValue.string (QString.trimmed (String.mk (pre ++ suf))))
      else json.insert "FaceColor" (QJsonValue.string (QString.trimmed (String.mk F)))).remove
        "format" := by
  have hA : '[' ∉ pre.dropWhile QChar.isSpace := fun h =>
    hpre ((List.dropWhile_suffix _).subset h)
  have hB : ']' ∉ (suf.reverse.dropWhile QChar.isSpace).reverse := fun h =>
    hsuf (List.mem_reverse.1 ((List.dropWhile_suffix _).subset (List.mem_reverse.1 h)))
  have htrim : QString.trimmed (String.mk (pre ++ '[' :: (F ++ ']' :: suf)))
      = String.mk (pre.dropWhile QChar.isSpace
        ++ '[' :: (F ++ ']' :: (suf.reverse.dropWhile QChar.isSpace).reverse)) := by
    unfold QString.trimmed
    rw [QString.trimmedChars_brackets]
  have hjoin : QString.trimmed (String.mk (pre.dropWhile QChar.isSpace
        ++ (suf.reverse.dropWhile QChar.isSpace).reverse))
      = QString.trimmed (String.mk (pre ++ suf)) := by
    unfold QString.trimmed
    rw [QString.trimmedChars_join]
  rw [parseFormat_of_trimmed json _ _ F _ hformat htrim hA hB, hjoin]

/-- The document after a "format" string without brackets has been processed. -/
theorem parseFormat_plain (json : QJsonObject R) (format : String)
    (hformat : json.value "format" = QJsonValue.string format)
    (hopen : '[' ∉ format.data) (hclose : ']' ∉ format.data) :
    parseFormat json =
      (if QString.trimmed (QString.trimmed format) ≠ "" then
        json.insert "EdgeColor" (QJsonValue.string (QString.trimmed (QString.trimmed format)))
      else json).remove "format" := by
  have hc : json.contains "format" = true :=
    QJsonObject.contains_of_value_ne json "format" (by rw [hformat]; exact fun h => by cases h)
  have hsub : ∀ c : Char, c ∈ QString.trimmedChars format.data → c ∈ format.data := by
    intro c h
    unfold QString.trimmedChars at h
    exact (List.dropWhile_suffix _).subset
      (List.mem_reverse.1 ((List.dropWhile_suffix _).subset (List.mem_reverse.1 h)))
  have h1 : QString.indexOf (QString.trimmed format) '[' = -1 :=
    QString.indexOfFrom_not_mem _ _ _ (fun h => hopen (hsub _ h))
  have h2 : QString.lastIndexOf (QString.trimmed format) ']' = -1 := by
    unfold QString.lastIndexOf
    have : QString.indexOfFrom ']' (QString.trimmed format).data.reverse 0 = -1 :=
      QString.indexOfFrom_not_mem _ _ _ (fun h => hclose (hsub _ (List.mem_reverse.1 h)))
    simp [this]
  unfold parseFormat
  simp only [hc, hformat, QJsonValue.isString, QJsonValue.toString, Bool.and_self, if_true, h1, h2,
    lt_irrefl, if_false]

end VibesGraphicsItem

namespace QString

/-- Trimming twice is trimming once. -/
theorem trimmed_trimmed (s : String) : trimmed (trimmed s) = trimmed s := by
  have h1 : trimmedChars (s.data.dropWhile QChar.isSpace) = trimmedChars s.data := by
    have := trimmedChars_join s.data []
    simpa using this
  have h2 : ∀ l : List Char,
      trimmedChars ((l.reverse.dropWhile QChar.isSpace).reverse) = trimmedChars l := by
    intro l
    have := trimmedChars_join [] l
    simpa using this
  show String.mk (trimmedChars (trimmedChars s.data)) = String.mk (trimmedChars s.data)
  have h3 : trimmedChars (trimmedChars s.data) = trimmedChars s.data := by
    conv_lhs => rw [show trimmedChars s.data
      = ((s.data.dropWhile QChar.isSpace).reverse.dropWhile QChar.isSpace).reverse from rfl]
    rw [h2, h1]
  rw [h3]

end QString

namespace VibesGraphicsItem

variable {R G : Type}

/-- C28. For every document whose "format" is the string `pre [F] suf`, with no
`[` in `pre` and no `]` in `suf`, the processing of "format" in `parseJson` sets
FaceColor to `F` trimmed, sets EdgeColor to `pre suf` trimmed when that is not
empty and leaves EdgeColor as it was otherwise, and removes "format". For a
"format" string without brackets FaceColor is left as it was and the whole
string, trimmed, becomes EdgeColor when it is not empty. On every object that is
not a group the document that `parseJson` leaves is the one so processed. -/
theorem parseFormat_split [Zero R] [Sub R] (json : QJsonObject R) (format : String)
    (hformat : json.value "format" = QJsonValue.string format) :
    (∀ pre F suf : String, format = pre ++ "[" ++ F ++ "]" ++ suf →
      '[' ∉ pre.data → ']' ∉ suf.data →
      (parseFormat json).value "FaceColor" = QJsonValue.string (QString.trimmed F) ∧
        (QString.trimmed (pre ++ suf) ≠ "" →
          (parseFormat json).value "EdgeColor"
            = QJsonValue.string (QString.trimmed (pre ++ suf))) ∧
        (QString.trimmed (pre ++ suf) = "" →
          (parseFormat json).value "EdgeColor" = json.value "EdgeColor" ∧
            (parseFormat json).contains "EdgeColor" = json.contains "EdgeColor")) ∧
    ('[' ∉ format.data → ']' ∉ format.data →
      (parseFormat json).value "FaceColor" = json.value "FaceColor" ∧
        (parseFormat json).contains "FaceColor" = json.contains "FaceColor" ∧
        (QString.trimmed format ≠ "" →
          (parseFormat json).value "EdgeColor" = QJsonValue.string (QString.trimmed format)) ∧
        (QString.trimmed format = "" →
          (parseFormat json).value "EdgeColor" = json.value "EdgeColor" ∧
            (parseFormat json).contains "EdgeColor" = json.contains "EdgeColor")) ∧
    (parseFormat json).contains "format" = false ∧
    ∀ (V : SubclassMethods R G) (self : VibesGraphicsItem R G),
      self.type ≠ ItemType.VibesGraphicsGroupType →
      (parseJson V self json).2.1 = parseFormat json := by
  refine ⟨?_, ?_, ?_, ?_⟩
  · intro pre F suf hsplit hpre hsuf
    have hdata : format = String.mk (pre.data ++ '[' :: (F.data ++ ']' :: suf.data)) := by
      rw [hsplit]
      apply String.ext
      simp [String.data_append]
    have h := parseFormat_brackets json pre.data F.data suf.data (hdata ▸ hformat) hpre hsuf
    have hps : String.mk (pre.data ++ suf.data) = pre ++ suf := by
      apply String.ext
      simp [String.data_append]
    have hF : String.mk F.data = F := rfl
    rw [hps, hF] at h
    rw [h]
    refine ⟨?_, ?_, ?_⟩
    · rw [QJsonObject.value_remove_ne _ _ _ (by decide)]
      split
      · rw [QJsonObject.value_insert_ne _ _ _ _ (by decide),
          QJsonObject.value_insert_self _ _ _ (by rfl)]
      · rw [QJsonObject.value_insert_self _ _ _ (by rfl)]
    · intro hne
      rw [if_pos hne, QJsonObject.value_remove_ne _ _ _ (by decide),
        QJsonObject.value_insert_self _ _ _ (by rfl)]
    · intro he
      rw [if_neg (not_not.2 he), QJsonObject.value_remove_ne _ _ _ (by decide),
        QJsonObject.contains_remove_ne _ _ _ (by decide),
        QJsonObject.value_insert_ne _ _ _ _ (by decide),
        QJsonObject.contains_insert_ne _ _ _ _ (by decide)]
      exact ⟨rfl, rfl⟩
  · intro hopen hclose
    have h := parseFormat_plain json format hformat hopen hclose
    rw [QString.trimmed_trimmed] at h
    rw [h]
    refine ⟨?_, ?_, ?_, ?_⟩
    · rw [QJsonObject.value_remove_ne _ _ _ (by decide)]
      split
      · rw [QJsonObject.value_insert_ne _ _ _ _ (by decide)]
      · rfl
    · rw [QJsonObject.contains_remove_ne _ _ _ (by decide)]
      split
      · rw [QJsonObject.contains_insert_ne _ _ _ _ (by decide)]
      · rfl
    · intro hne
      rw [if_pos hne, QJsonObject.value_remove_ne _ _ _ (by decide),
        QJsonObject.value_insert_self _ _ _ (by rfl)]
    · intro he
      rw [if_neg (not_not.2 he), QJsonObject.value_remove_ne _ _ _ (by decide),
        QJsonObject.contains_remove_ne _ _ _ (by decide)]
      exact ⟨rfl, rfl⟩
  · have hc : json.contains "format" = true :=
      QJsonObject.contains_of_value_ne json "format" (by rw [hformat]; exact fun h => by cases h)
    unfold parseFormat
    simp only [hc, hformat, QJsonValue.isString, Bool.and_self, if_true]
    exact QJsonObject.contains_remove_self _ _
  · intro V self hself
    show parseGroupColors V.unicode self (parseFormat json) = parseFormat json
    unfold parseGroupColors
    rw [if_neg hself]

/-- The "format" string `[r]b--` on a box: FaceColor "r", EdgeColor "b--", no
"format" key. -/
theorem parseFormat_split_witness :
    (parseFormat ([("type", QJsonValue.string "box"), ("format", QJsonValue.string "[r]b--")] :
        QJsonObject Int)).value "FaceColor" = QJsonValue.string "r" ∧
      (parseFormat ([("type", QJsonValue.string "box"), ("format", QJsonValue.string "[r]b--")] :
        QJsonObject Int)).value "EdgeColor" = QJsonValue.string "b--" ∧
      (parseFormat ([("type", QJsonValue.string "box"), ("format", QJsonValue.string "[r]b--")] :
        QJsonObject Int)).contains "format" = false ∧
      ((VibesGraphicsItem.new SubclassMethods.rejecting ItemType.VibesGraphicsBoxType).parseJson
          SubclassMethods.rejecting
          [("type", QJsonValue.string "box"), ("format", QJsonValue.string "[r]b--")]).2.1
        = parseFormat [("type", QJsonValue.string "box"), ("format", QJsonValue.string "[r]b--")] :=
  have h := parseFormat_split (G := Unit)
    ([("type", QJsonValue.string "box"), ("format", QJsonValue.string "[r]b--")] : QJsonObject Int)
    "[r]b--" rfl
  have hs := h.1 "" "r" "b--" (by decide) (by decide) (by decide)
  ⟨hs.1.trans (congrArg QJsonValue.string (by decide)),
    (hs.2.1 (by decide)).trans (congrArg QJsonValue.string (by decide)), h.2.2.1,
    h.2.2.2 SubclassMethods.rejecting _ (by decide)⟩

end VibesGraphicsItem

/-! ## The pass over the shapes after an axis change -/

namespace VibesGraphicsItem

variable {R G : Type}

theorem existsInProj_iff (self : VibesGraphicsItem R G) (dimX dimY : Int) :
    self.existsInProj dimX dimY = true ↔
      0 ≤ dimX ∧ dimX < self.dimension ∧ 0 ≤ dimY ∧ dimY < self.dimension := by
  simp only [existsInProj, hasDim, dimension, maxDim, Bool.and_eq_true, decide_eq_true_eq, ge_iff_le]
  tauto

variable [Zero R] [Sub R]

/-- What `setProj` returns does not depend on the members of the object. -/
theorem setProj_fst_childItems (V : SubclassMethods R G) (self : VibesGraphicsItem R G)
    (childItems : List (VibesGraphicsItem R G)) (dimX dimY : Int) :
    (setProj V { self with childItems := childItems } dimX dimY).1 = (setProj V self dimX dimY).1 := by
  unfold setProj
  simp only [existsInProj, hasDim]
  split
  · unfold computeProjection
    simp only
    split <;> rfl
  · rfl

/-- A projection that is asked for axes that the object does not cover is not
computed: `setProj` only records the axes. -/
theorem setProj_of_not_existsInProj (V : SubclassMethods R G) (self : VibesGraphicsItem R G)
    (dimX dimY : Int) (h : self.existsInProj dimX dimY = false) :
    setProj V self dimX dimY = (false, { self with _dimX := dimX, _dimY := dimY }) := by
  unfold setProj
  have h2 : ({ self with _dimX := dimX, _dimY := dimY } : VibesGraphicsItem R G).existsInProj
      dimX dimY = false := h
  simp only [h2, Bool.false_eq_true, if_false]

theorem setProj_fst_existsInProj (V : SubclassMethods R G) (self : VibesGraphicsItem R G)
    (dimX dimY : Int) (h : (setProj V self dimX dimY).1 = true) :
    self.existsInProj dimX dimY = true := by
  cases he : self.existsInProj dimX dimY
  · rw [setProj_of_not_existsInProj V self dimX dimY he] at h
    cases h
  · rfl

/-- The projections of boxes and of groups always succeed. -/
theorem setProj_fst_box_group (V : SubclassMethods R G) (self : VibesGraphicsItem R G)
    (dimX dimY : Int)
    (h : self.type = ItemType.VibesGraphicsBoxType ∨ self.type = ItemType.VibesGraphicsGroupType) :
    (setProj V self dimX dimY).1 = self.existsInProj dimX dimY := by
  cases he : self.existsInProj dimX dimY
  · rw [setProj_of_not_existsInProj V self dimX dimY he]
  · unfold setProj
    have h2 : ({ self with _dimX := dimX, _dimY := dimY } : VibesGraphicsItem R G).existsInProj
        dimX dimY = true := he
    simp only [h2, if_true]
    unfold computeProjection
    rcases h with h | h
    · simp only [h]
      rfl
    · simp only [h]

/-- The fields that `setProj` never writes. -/
theorem setProj_keeps (V : SubclassMethods R G) (self : VibesGraphicsItem R G) (dimX dimY : Int) :
    (setProj V self dimX dimY).2._nbDim = self._nbDim ∧
      (setProj V self dimX dimY).2.visible = self.visible ∧
      (setProj V self dimX dimY).2._name = self._name := by
  unfold setProj
  simp only
  split
  · unfold computeProjection
    simp only
    split <;> exact ⟨rfl, rfl, rfl⟩
  · exact ⟨rfl, rfl, rfl⟩

end VibesGraphicsItem

namespace VibesScene2D

variable {R G : Type} [Zero R] [Sub R]

theorem updateDimsItems_eq_map (V : SubclassMethods R G) (dimX dimY : Int)
    (items : List (VibesGraphicsItem R G)) :
    updateDimsItems V dimX dimY items = items.map (updateDimsItem V dimX dimY) := by
  induction items with
  | nil => simp [updateDimsItems]
  | cons item items ih => simp [updateDimsItems, ih]

/-- The body of the loop of `updateDims` on an item that casts to
`VibesGraphicsItem*`. -/
theorem updateDimsItem_of_cast (V : SubclassMethods R G) (dimX dimY : Int)
    (item : VibesGraphicsItem R G) (hcast : vibesgraphicsitem_cast item.type = true) :
    updateDimsItem V dimX dimY item =
      { (VibesGraphicsItem.setProj V
          { item with childItems := updateDimsItems V dimX dimY item.childItems } dimX dimY).2 with
        visible := (VibesGraphicsItem.setProj V item dimX dimY).1 } := by
  obtain ⟨type, json, nbDim, dX, dY, name, visible, rect, graphics, childItems⟩ := item
  have hfst := VibesGraphicsItem.setProj_fst_childItems V
    (⟨type, json, nbDim, dX, dY, name, visible, rect, graphics, childItems⟩ :
      VibesGraphicsItem R G) (updateDimsItems V dimX dimY childItems) dimX dimY
  simp only at hfst hcast
  rw [← hfst]
  simp only [updateDimsItem, hcast, if_true]
  split
  · rename_i h
    rw [h]
  · rename_i h
    have h2 := Bool.eq_false_iff.2 h
    rw [h2]

/-- The pass of `updateDims`. An accepted `setDimX`, `setDimY` or `setDims` runs
the pass over all the shapes of the scene, none left out. The pass calls
`setVisible` on each shape with the value that `setProj` returned for the new
axes: with `true` only if the dimension `N` of the shape covers both axes,
`0 ≤ dimX < N` and `0 ≤ dimY < N`; with `false`, and without computing the
projection, the geometry being left as it was, if `N` does not cover them; for a
box or a group, with `true` exactly when `N` covers them. The members of a group
go through the same pass. -/
theorem updateDims_setVisible (V : SubclassMethods R G) (s : VibesScene2D R G) (dimX dimY : Int) :
    ((s.setDimX V dimX).result = true →
      (s.setDimX V dimX).scene.items = s.items.map (updateDimsItem V dimX s.dimY)) ∧
    ((s.setDimY V dimY).result = true →
      (s.setDimY V dimY).scene.items = s.items.map (updateDimsItem V s.dimX dimY)) ∧
    ((s.setDims V dimX dimY).result = true →
      (s.setDims V dimX dimY).scene.items = s.items.map (updateDimsItem V dimX dimY)) ∧
    ∀ item : VibesGraphicsItem R G, vibesgraphicsitem_cast item.type = true →
      (updateDimsItem V dimX dimY item).dimension = item.dimension ∧
      (updateDimsItem V dimX dimY item).childItems
        = item.childItems.map (updateDimsItem V dimX dimY) ∧
      (updateDimsItem V dimX dimY item).visible = (VibesGraphicsItem.setProj V item dimX dimY).1 ∧
      ((updateDimsItem V dimX dimY item).visible = true →
        0 ≤ dimX ∧ dimX < item.dimension ∧ 0 ≤ dimY ∧ dimY < item.dimension) ∧
      (¬ (0 ≤ dimX ∧ dimX < item.dimension ∧ 0 ≤ dimY ∧ dimY < item.dimension) →
        (updateDimsItem V dimX dimY item).visible = false ∧
          (updateDimsItem V dimX dimY item).rect = item.rect ∧
          (updateDimsItem V dimX dimY item).graphics = item.graphics) ∧
      (item.type = ItemType.VibesGraphicsBoxType ∨ item.type = ItemType.VibesGraphicsGroupType →
        ((updateDimsItem V dimX dimY item).visible = true ↔
          0 ≤ dimX ∧ dimX < item.dimension ∧ 0 ≤ dimY ∧ dimY < item.dimension)) := by
  refine ⟨?_, ?_, ?_, ?_⟩
  · intro h
    unfold setDimX at h ⊢
    split
    · simp only [updateDims, updateDimsItems_eq_map]
      rfl
    · rename_i hc
      rw [if_neg hc] at h
      cases h
  · intro h
    unfold setDimY at h ⊢
    split
    · simp only [updateDims, updateDimsItems_eq_map]
      rfl
    · rename_i hc
      rw [if_neg hc] at h
      cases h
  · intro h
    unfold setDims at h ⊢
    split
    · rename_i h1
      rw [if_pos h1] at h
      unfold setDimY at h ⊢
      split
      · simp only [updateDims, updateDimsItems_eq_map]
        rw [h1]
        rfl
      · rename_i hc
        rw [if_neg hc] at h
        cases h
    · rename_i h1
      rw [if_neg h1] at h
      split
      · rename_i h2
        rw [if_pos h2] at h
        unfold setDimX at h ⊢
        split
        · simp only [updateDims, updateDimsItems_eq_map]
          rw [h2]
          rfl
        · rename_i hc
          rw [if_neg hc] at h
          cases h
      · rename_i h2
        rw [if_neg h2] at h
        split
        · simp only [updateDims, updateDimsItems_eq_map]
          rfl
        · rename_i hc
          rw [if_neg hc] at h
          cases h
  · intro item hcast
    have hitem := updateDimsItem_of_cast V dimX dimY item hcast
    have hvis : (updateDimsItem V dimX dimY item).visible
        = (VibesGraphicsItem.setProj V item dimX dimY).1 := by
      rw [hitem]
    have hex := VibesGraphicsItem.existsInProj_iff item dimX dimY
    refine ⟨?_, ?_, hvis, ?_, ?_, ?_⟩
    · rw [hitem]
      exact (VibesGraphicsItem.setProj_keeps V _ dimX dimY).1
    · rw [hitem]
      show (VibesGraphicsItem.setProj V
        { item with childItems := updateDimsItems V dimX dimY item.childItems }
        dimX dimY).2.childItems = _
      rw [VibesGraphicsItem.setProj_childItems, updateDimsItems_eq_map]
    · intro h
      rw [hvis] at h
      exact hex.1 (VibesGraphicsItem.setProj_fst_existsInProj V item dimX dimY h)
    · intro hno
      have he : item.existsInProj dimX dimY = false := by
        cases h : item.existsInProj dimX dimY
        · rfl
        · exact absurd (hex.1 h) hno
      have hs0 := VibesGraphicsItem.setProj_of_not_existsInProj V
        { item with childItems := updateDimsItems V dimX dimY item.childItems } dimX dimY he
      refine ⟨?_, ?_, ?_⟩
      · rw [hvis, VibesGraphicsItem.setProj_of_not_existsInProj V item dimX dimY he]
      · rw [hitem]
        show (VibesGraphicsItem.setProj V
          { item with childItems := updateDimsItems V dimX dimY item.childItems }
          dimX dimY).2.rect = item.rect
        rw [hs0]
      · rw [hitem]
        show (VibesGraphicsItem.setProj V
          { item with childItems := updateDimsItems V dimX dimY item.childItems }
          dimX dimY).2.graphics = item.graphics
        rw [hs0]
    · intro hbg
      rw [hvis, VibesGraphicsItem.setProj_fst_box_group V item dimX dimY hbg]
      exact hex

end VibesScene2D

namespace VibesScene2D

/-- In the scene with the boxes `[0,1,0,1,0,1]` and `[0,1,0,1]`, the pass of an
accepted `setDims(0, 2)` leaves the first box visible and hides the second. -/
theorem updateDims_setVisible_two_boxes :
    (twoBoxScene.setDims SubclassMethods.rejecting 0 2).scene.items
        = twoBoxScene.items.map (updateDimsItem SubclassMethods.rejecting 0 2) ∧
      ((twoBoxScene.setDims SubclassMethods.rejecting 0 2).scene.items.map
          fun item => (item.dimension, item.isVisible [])) = [(3, true), (2, false)] :=
  have h := updateDims_setVisible SubclassMethods.rejecting twoBoxScene 0 2
  ⟨h.2.2.1 (by decide), by decide⟩

/-- C29. The scene `anglesScene` holds two shapes that are in no group, a
3-dimensional box and the ellipse
`{"type":"ellipse","center":[0,0,0],"angles":[0,90]}`, which validation accepts
with `N = 3`. `setDims(1, 2)` is accepted; after the pass both shapes have the
dimension 3, which covers the axes 1 and 2, the box is visible, and the ellipse
is hidden: its projection returned false. -/
theorem updateDims_hides_covering_ellipse :
    (VibesGraphicsEllipse.parseJsonGraphics VibesGraphicsEllipse.new
        (anglesDocument [0, 0, 0] [0, 90])).1 = true ∧
      (anglesScene.items.map fun item => (item.type, item.dimension))
        = [(ItemType.VibesGraphicsBoxType, 3), (ItemType.VibesGraphicsEllipseType, 3)] ∧
      (anglesScene.setDims
        (SubclassMethods.ellipses CMath.integers QUnicodeTables.unchanged) 1 2).result = true ∧
      ((anglesScene.setDims
          (SubclassMethods.ellipses CMath.integers QUnicodeTables.unchanged) 1 2).scene.items.map
          fun item => (item.type, item.dimension, item.existsInProj 1 2, item.isVisible []))
        = [(ItemType.VibesGraphicsBoxType, 3, true, true),
            (ItemType.VibesGraphicsEllipseType, 3, true, false)] := by
  decide

end VibesScene2D

/-! ## Shapes added at axes that they do not cover -/

namespace VibesGraphicsItem

variable {R G : Type} [Zero R] [Sub R]

/-- Validation never touches the visibility of the object. -/
theorem parseJsonWith_visible (V : SubclassMethods R G)
    (f : VibesGraphicsItem R G → QJsonObject R → VibesGraphicsItem R G)
    (self : VibesGraphicsItem R G) (json : QJsonObject R) :
    (parseJsonWith V f self json).2.2.visible = self.visible := by
  have hname : ∀ j : QJsonObject R, (parseName self j).visible = self.visible := by
    intro j
    unfold parseName setName
    split
    · split <;> rfl
    · rfl
  have hgraphics : ∀ (s : VibesGraphicsItem R G) (j : QJsonObject R),
      (parseJsonGraphicsWith V f s j).2.visible = s.visible := by
    intro s j
    unfold parseJsonGraphicsWith
    split
    · rfl
    · unfold VibesGraphicsBox.parseJsonGraphics
      split
      · simp only
        split
        · split <;> rfl
        · rfl
      · rfl
    · rfl
  unfold parseJsonWith
  simp only
  rw [hgraphics, hname]

/-- `setJson` never calls `setVisible`. -/
theorem setJson_visible (V : SubclassMethods R G) (self : VibesGraphicsItem R G)
    (json : QJsonObject R) (dimX dimY : Int) :
    (setJson V self json dimX dimY).2.visible = self.visible := by
  unfold setJson parseJson
  simp only
  split
  · exact parseJsonWith_visible V _ self json
  · simp only
    rw [(setProj_keeps V _ dimX dimY).2.1]
    exact parseJsonWith_visible V _ self json

end VibesGraphicsItem

namespace VibesScene2D

/-- C30 at the failing input. Every shape that `addJsonShapeItem` returns is
visible, whatever the axes of the scene. In the scene `sideScene`, whose axes are
`(0, 2)`, the document `{"type":"box","bounds":[0,1,0,1]}` is validated with
`N = 2` and added: the box does not cover the axis 2, it is visible, and its
rectangle is the null rectangle of a new box, which no projection gave it. The
pass of `updateDims` over the same box at the same axes hides it. -/
theorem addJsonShapeItem_uncovered_visible {R G : Type} [Zero R] [Sub R]
    (V : SubclassMethods R G) (s : VibesScene2D R G) (shape : QJsonObject R) :
    (∀ item, (s.addJsonShapeItem V shape).1 = some item → item.visible = true) ∧
    (sideScene.dimX, sideScene.dimY, sideScene.nbDim) = (0, 2, 3) ∧
    ((sideScene.addJsonShapeItem SubclassMethods.rejecting (boxDocument [0, 1, 0, 1])).1.map
        fun item => (item.dimension, item.existsInProj 0 2, item.visible,
          item.rect.x, item.rect.y, item.rect.w, item.rect.h))
      = some (2, false, true, 0, 0, 0, 0) ∧
    ((sideScene.addJsonShapeItem SubclassMethods.rejecting (boxDocument [0, 1, 0, 1])).2.items.map
        fun item => (item.dimension, item.visible)) = [(3, true), (2, true)] ∧
    ((sideScene.addJsonShapeItem SubclassMethods.rejecting (boxDocument [0, 1, 0, 1])).1.map
        fun item => (updateDimsItem SubclassMethods.rejecting 0 2 item).visible) = some false := by
  refine ⟨?_, by decide, rfl, by decide, by decide⟩
  intro item hitem
  rcases addJsonShapeItem_kinds shape with hno | ⟨t, hkind⟩
  · rw [addJsonShapeItem_no_kind V s shape hno] at hitem
    cases hitem
  · rw [addJsonShapeItem_of_kind V s shape t hkind] at hitem
    cases hv : ((VibesGraphicsItem.new V t).setJson V shape s.dimX s.dimY).1
    · simp [hv] at hitem
    · rw [if_neg (by simp [hv])] at hitem
      cases hitem
      exact VibesGraphicsItem.setJson_visible V _ shape s.dimX s.dimY

end VibesScene2D

/-! ## Arrows -/

namespace VibesGraphicsArrow

variable {R : Type}

/-- Validation of a document of type "arrow", from the matrix test. -/
theorem parseJsonGraphics_arrow [LinearOrder R] [Zero R]
    (self : VibesGraphicsItem R (List (ChildPrimitive R))) (json : QJsonObject R)
    (htype : json.value "type" = QJsonValue.string "arrow") :
    parseJsonGraphics self json =
      if (VibesGraphicsItem.isJsonMatrix (json.value "points")).1 = true ∧
          0 ≤ (json.value "tip_length").toDouble ∧
          2 ≤ (VibesGraphicsItem.isJsonMatrix (json.value "points")).2.2 then
        (true, { self with _nbDim := (VibesGraphicsItem.isJsonMatrix (json.value "points")).2.2 })
      else (false, self) := by
  have hc : json.contains "type" = true :=
    QJsonObject.contains_of_value_ne json "type" (by rw [htype]; exact fun h => by cases h)
  unfold parseJsonGraphics
  simp only [hc, htype, QJsonValue.toString, if_true]
  by_cases h1 : (VibesGraphicsItem.isJsonMatrix (json.value "points")).1 = true
  · by_cases h0 : (json.value "tip_length").toDouble < 0
    · simp [h1, h0, not_le.2 h0]
    · by_cases h2 : 2 ≤ (VibesGraphicsItem.isJsonMatrix (json.value "points")).2.2
      · simp [h1, h0, h2, not_lt.1 h0]
      · simp [h1, h0, h2]
  · simp [h1]

/-- C31. For a document whose type is "arrow", validation succeeds exactly when
"points" is a non-empty array of rows that all have the same number `n ≥ 2` of
columns and the number under "tip_length" is not negative, where a "tip_length"
that is absent or is not a number counts as `0`; and then `N = n`. -/
theorem parseJsonGraphics_arrow_iff [LinearOrder R] [Zero R]
    (self : VibesGraphicsItem R (List (ChildPrimitive R)))
    (json : QJsonObject R) (htype : json.value "type" = QJsonValue.string "arrow") :
    ((parseJsonGraphics self json).1 = true ↔
        (∃ (rows : List (QJsonArray R)) (n : Nat),
          json.value "points" = QJsonValue.array (rows.map QJsonValue.array) ∧
            rows ≠ [] ∧ 2 ≤ n ∧ ∀ r ∈ rows, r.length = n) ∧
          0 ≤ (json.value "tip_length").toDouble) ∧
      (∀ (rows : List (QJsonArray R)) (n : Nat),
        json.value "points" = QJsonValue.array (rows.map QJsonValue.array) →
        rows ≠ [] → 2 ≤ n → (∀ r ∈ rows, r.length = n) →
        0 ≤ (json.value "tip_length").toDouble →
        (parseJsonGraphics self json).1 = true ∧
          (parseJsonGraphics self json).2.dimension = (n : Int)) ∧
      (json.contains "tip_length" = false → (json.value "tip_length").toDouble = 0) ∧
      ((∀ d : R, json.value "tip_length" ≠ QJsonValue.double d) →
        (json.value "tip_length").toDouble = 0) := by
  have hcond : ∀ (rows : List (QJsonArray R)) (n : Nat),
      json.value "points" = QJsonValue.array (rows.map QJsonValue.array) →
      rows ≠ [] → 2 ≤ n → (∀ r ∈ rows, r.length = n) →
      ((VibesGraphicsItem.isJsonMatrix (json.value "points")).1 = true ∧
        2 ≤ (VibesGraphicsItem.isJsonMatrix (json.value "points")).2.2) ∧
      (VibesGraphicsItem.isJsonMatrix (json.value "points")).2.2 = (n : Int) := by
    intro rows n hv hne hn hlen
    rw [hv, VibesGraphicsItem.isJsonMatrix_rows rows n hne hlen]
    refine ⟨⟨?_, ?_⟩, rfl⟩
    · simp only [decide_eq_true_eq]
      omega
    · show (2 : Int) ≤ (n : Int)
      exact_mod_cast hn
  rw [parseJsonGraphics_arrow self json htype]
  refine ⟨⟨?_, ?_⟩, ?_, ?_, ?_⟩
  · intro h
    split_ifs at h with hm
    obtain ⟨rows, n, hv, hne, _, hlen, hcols⟩ := VibesGraphicsItem.isJsonMatrix_true _ hm.1
    refine ⟨⟨rows, n, hv, hne, ?_, hlen⟩, hm.2.1⟩
    have := hm.2.2
    rw [hcols] at this
    exact_mod_cast this
  · rintro ⟨⟨rows, n, hv, hne, hn, hlen⟩, htip⟩
    rw [if_pos ⟨(hcond rows n hv hne hn hlen).1.1, htip, (hcond rows n hv hne hn hlen).1.2⟩]
  · intro rows n hv hne hn hlen htip
    rw [if_pos ⟨(hcond rows n hv hne hn hlen).1.1, htip, (hcond rows n hv hne hn hlen).1.2⟩]
    exact ⟨rfl, (hcond rows n hv hne hn hlen).2⟩
  · intro hc
    rw [QJsonObject.value_of_not_contains json "tip_length" hc]
    rfl
  · intro hd
    cases hv : json.value "tip_length" with
    | double d => exact absurd hv (hd d)
    | null => rfl
    | bool _ => rfl
    | string _ => rfl
    | array _ => rfl
    | object _ => rfl
    | undefined => rfl

theorem parseJsonGraphics_arrow_iff_witness :
    (parseJsonGraphics VibesGraphicsArrow.new (arrowDocument [[0, 0], [1, 1]])).1 = true ∧
      (parseJsonGraphics VibesGraphicsArrow.new (arrowDocument [[0, 0], [1, 1]])).2.dimension = 2 :=
  (parseJsonGraphics_arrow_iff VibesGraphicsArrow.new (arrowDocument [[0, 0], [1, 1]]) rfl).2.1
    [[QJsonValue.double 0, QJsonValue.double 0], [QJsonValue.double 1, QJsonValue.double 1]] 2
    rfl (by simp) (le_refl 2) (by simp) (by decide)

end VibesGraphicsArrow

namespace VibesGraphicsArrow

/-- C39. The arrow documents `{"points":[[0,0],[1,1]]}`, without "tip_length", and
`{"points":[[0,0],[1,1]],"tip_length":0}` are both accepted by validation, with
`N = 2`, and on the arrows that store them the conditions asserted by projection
do not hold, because the number under "tip_length" is not above `0`; with
"tip_length" `1` they hold. -/
theorem computeProjectionAsserts_zero_tip :
    ((parseJsonGraphics VibesGraphicsArrow.new (arrowDocument [[0, 0], [1, 1]])).1 = true ∧
      (arrowItem [[0, 0], [1, 1]]).dimension = 2 ∧
      computeProjectionAsserts (arrowItem [[0, 0], [1, 1]]) = false) ∧
    ((parseJsonGraphics VibesGraphicsArrow.new (arrowTipDocument [[0, 0], [1, 1]] 0)).1 = true ∧
      computeProjectionAsserts
        { (parseJsonGraphics VibesGraphicsArrow.new (arrowTipDocument [[0, 0], [1, 1]] 0)).2 with
          _json := arrowTipDocument [[0, 0], [1, 1]] 0 } = false) ∧
    ((parseJsonGraphics VibesGraphicsArrow.new (arrowTipDocument [[0, 0], [1, 1]] 1)).1 = true ∧
      computeProjectionAsserts
        { (parseJsonGraphics VibesGraphicsArrow.new (arrowTipDocument [[0, 0], [1, 1]] 1)).2 with
          _json := arrowTipDocument [[0, 0], [1, 1]] 1 } = true) := by
  refine ⟨⟨?_, ?_, ?_⟩, ⟨?_, ?_⟩, ?_, ?_⟩ <;> decide

end VibesGraphicsArrow

/-! ## Pies -/

namespace VibesGraphicsPie

variable {R : Type}

end VibesGraphicsPie

/-! ## Ellipses given by angles alone -/

namespace VibesGraphicsEllipse

/-- C37. The ellipse document `{"center":[0,0],"angles":[0,90]}` is accepted by
validation, with `N = 2`; on the ellipse that stores it the conditions asserted by
projection do not hold at the axes `(0, 1)`, because it has neither "axis" with
"orientation" nor "covariance", and projection returns false and leaves the
ellipse as it was. -/
theorem computeProjection_angles_only :
    (parseJsonGraphics VibesGraphicsEllipse.new (anglesDocument [0, 0] [0, 90])).1 = true ∧
      (anglesItem [0, 0] [0, 90]).dimension = 2 ∧
      (anglesItem [0, 0] [0, 90]).existsInProj 0 1 = true ∧
      ((anglesItem [0, 0] [0, 90])._json.contains "axis" &&
          (anglesItem [0, 0] [0, 90])._json.contains "orientation" ||
        (anglesItem [0, 0] [0, 90])._json.contains "covariance") = false ∧
      computeProjectionAsserts (anglesItem [0, 0] [0, 90]) 0 1 = false ∧
      computeProjection CMath.integers (anglesItem [0, 0] [0, 90]) 0 1
        = (false, anglesItem [0, 0] [0, 90]) := by
  refine ⟨?_, ?_, ?_, ?_, ?_, ?_⟩
  · decide
  · decide
  · decide
  · decide
  · decide
  · rfl

end VibesGraphicsEllipse

/-! ## A rejected document and the name -/

namespace VibesGraphicsItem

/-- C32. The box `[0,1,0,1]` named "a" is given the document
`{"type":"box","bounds":[0,1],"name":"b"}` with `setJson`: the call returns false,
the stored document and the dimension are those before the call, and the name is
"b", the name of the rejected document. -/
theorem setJson_rejected_applies_name :
    namedBox.name = "a" ∧
      (setJson SubclassMethods.rejecting namedBox renamingDocument 0 1).1 = false ∧
      (setJson SubclassMethods.rejecting namedBox renamingDocument 0 1).2.json = namedBox.json ∧
      (setJson SubclassMethods.rejecting namedBox renamingDocument 0 1).2.dimension
        = namedBox.dimension ∧
      (setJson SubclassMethods.rejecting namedBox renamingDocument 0 1).2.name = "b" := by
  refine ⟨?_, ?_, ?_, ?_, ?_⟩
  · decide
  · decide
  · rfl
  · decide
  · decide

end VibesGraphicsItem

namespace VibesGraphicsEllipse

/-- A document that has "angles" is validated without a look at its "covariance":
`{"center":[0,0],"angles":[0,90],"covariance":[1]}` is accepted with `N = 2`, its
covariance has 1 entry, and on the ellipse that stores it the conditions asserted
by projection do not hold at the axes `(0, 1)`, where projection reads the
covariance at the indices `0`, `2` and `3`. -/
theorem parseJsonGraphics_angles_skips_covariance :
    (parseJsonGraphics VibesGraphicsEllipse.new
        (anglesDocument [0, 0] [0, 90] ++ [("covariance", QJsonArray.ofNumbers [1])])).1 = true ∧
      (parseJsonGraphics VibesGraphicsEllipse.new
        (anglesDocument [0, 0] [0, 90] ++ [("covariance", QJsonArray.ofNumbers [1])])).2.dimension
        = 2 ∧
      ((anglesDocument [0, 0] [0, 90] ++
        [("covariance", QJsonArray.ofNumbers [1])]).value "covariance").toArray.size = 1 ∧
      computeProjectionAsserts
        { (parseJsonGraphics VibesGraphicsEllipse.new
            (anglesDocument [0, 0] [0, 90] ++ [("covariance", QJsonArray.ofNumbers [1])])).2 with
          _json := anglesDocument [0, 0] [0, 90] ++ [("covariance", QJsonArray.ofNumbers [1])] }
        0 1 = false := by
  refine ⟨?_, ?_, ?_, ?_⟩ <;> decide

end VibesGraphicsEllipse

/-! ## When an axis change is accepted -/

namespace VibesScene2D

variable {R G : Type} [Zero R] [Sub R]

/-- C36. On a scene reached from a new scene, `setDims(dx, dy)` returns true
exactly when `0 ≤ dx < nbDim`, `0 ≤ dy < nbDim`, `dx ≠ dy` and `(dx, dy)` is not
the current `(dimX, dimY)`; when it returns true the scene has `dimX = dx` and
`dimY = dy` and the same `nbDim` after the call. `setDimX(d)` returns true exactly
when `0 ≤ d < nbDim`, `d ≠ dimX` and `d ≠ dimY`. -/
theorem setDims_accepted_iff (V : SubclassMethods R G) (s : VibesScene2D R G)
    (h : Reachable V s) (dx dy d : Int) :
    ((s.setDims V dx dy).result = true ↔
        (0 ≤ dx ∧ dx < s.nbDim) ∧ (0 ≤ dy ∧ dy < s.nbDim) ∧ dx ≠ dy ∧
          (dx, dy) ≠ (s.dimX, s.dimY)) ∧
      ((s.setDims V dx dy).result = true →
        (s.setDims V dx dy).scene.dimX = dx ∧ (s.setDims V dx dy).scene.dimY = dy ∧
          (s.setDims V dx dy).scene.nbDim = s.nbDim) ∧
      ((s.setDimX V d).result = true ↔ (0 ≤ d ∧ d < s.nbDim) ∧ d ≠ s.dimX ∧ d ≠ s.dimY) := by
  have hv := Reachable.dimsValid V s h
  simp only [DimsValid] at hv
  refine ⟨?_, ?_, ?_⟩
  · unfold VibesScene2D.setDims VibesScene2D.setDimX VibesScene2D.setDimY
    simp only [ne_eq, Prod.mk.injEq]
    split_ifs with h1 h2 h3 h4 h5
    all_goals simp only [Bool.false_eq_true, false_iff, true_iff]
    all_goals omega
  · intro hr
    unfold VibesScene2D.setDims at hr ⊢
    split_ifs at hr ⊢ with h1 h2 h3
    · have := setDimY_accepted V s dy hr
      exact ⟨this.2.1.trans h1.symm, this.1, this.2.2⟩
    · have := setDimX_accepted V s dx hr
      exact ⟨this.1, this.2.1.trans h2.symm, this.2.2⟩
    · exact ⟨rfl, rfl, rfl⟩
  · unfold VibesScene2D.setDimX
    split_ifs with h1
    all_goals simp only [Bool.false_eq_true, false_iff, true_iff]
    all_goals omega

/-- On the scene with a 3-dimensional box at the axes `(2, 0)`, `setDims(0, 1)` is
accepted and leaves the axes `(0, 1)` with `nbDim = 3`. -/
theorem setDims_accepted_iff_witness :
    (exampleScene.setDims SubclassMethods.rejecting 0 1).result = true ∧
      (exampleScene.setDims SubclassMethods.rejecting 0 1).scene.dimX = 0 ∧
      (exampleScene.setDims SubclassMethods.rejecting 0 1).scene.dimY = 1 ∧
      (exampleScene.setDims SubclassMethods.rejecting 0 1).scene.nbDim = exampleScene.nbDim :=
  have h := setDims_accepted_iff SubclassMethods.rejecting exampleScene exampleScene_reachable 0 1 0
  have hr := h.1.2 (by decide)
  ⟨hr, h.2.1 hr⟩

end VibesScene2D

/-! ## The vehicle after its center changed -/

namespace VibesGraphicsVehicle

/-- C34. A vehicle is built at the center `(0, 0)` with length 4 and orientation 0
and projected on the axes `(0, 1)`; its center is then changed to `(10, 0)` and it
is projected again. The projection returns true, sets the transform origin to
`(10, 0)` and keeps the polygon `(-1, 1), (3, 0), (-1, -1)` built around the old
center, so that the triangle is drawn at those vertices. A vehicle built from the
document with the center `(10, 0)` has the polygon `(9, 1), (13, 0), (9, -1)`, and
is drawn there. -/
theorem computeProjection_keeps_polygon :
    (parseJsonGraphics VibesGraphicsVehicle.new (vehicleDocument [10, 0] 4 0)).1 = true ∧
      (vehicleItem [10, 0] 4 0)._json = movedVehicle._json ∧
      computeProjection (vehicleItem [10, 0] 4 0) 0 1 =
        (true, { vehicleItem [10, 0] 4 0 with
          graphics := [⟨[⟨9, 1⟩, ⟨13, 0⟩, ⟨9, -1⟩], ⟨10, 0⟩, 0, 1⟩] }) ∧
      computeProjection movedVehicle 0 1 =
        (true, { vehicleItem [10, 0] 4 0 with
          graphics := [⟨[⟨-1, 1⟩, ⟨3, 0⟩, ⟨-1, -1⟩], ⟨10, 0⟩, 0, 1⟩] }) ∧
      (computeProjection (vehicleItem [10, 0] 4 0) 0 1).2.graphics.map
          (QGraphicsPolygonItem.renderedVertices CTrig.integers)
        = [[⟨9, 1⟩, ⟨13, 0⟩, ⟨9, -1⟩]] ∧
      (computeProjection movedVehicle 0 1).2.graphics.map
          (QGraphicsPolygonItem.renderedVertices CTrig.integers)
        = [[⟨-1, 1⟩, ⟨3, 0⟩, ⟨-1, -1⟩]] := by
  refine ⟨?_, ?_, ?_, ?_, ?_, ?_⟩
  · decide
  · rfl
  · rfl
  · rfl
  · rfl
  · rfl

end VibesGraphicsVehicle

/-! ## Reads of projection inside the arrays -/

namespace VibesGraphicsItem

variable {R : Type}

/-- The four indices that the projection of a box reads are inside an array of
`c` entries, `c` even, for axes below `c / 2`. -/
theorem bounds_indices_lt (c dimX dimY : Int) (hc : c % 2 = 0) (hX0 : 0 ≤ dimX)
    (hX : dimX < c / 2) (hY0 : 0 ≤ dimY) (hY : dimY < c / 2) :
    ∀ i ∈ [2 * dimX, 2 * dimX + 1, 2 * dimY, 2 * dimY + 1], 0 ≤ i ∧ i < c := by
  intro i hi
  simp only [List.mem_cons, List.mem_singleton, List.not_mem_nil, or_false] at hi
  rcases hi with rfl | rfl | rfl | rfl <;> omega

/-- The rows of a matrix of bounds accepted by the validation of sets of boxes
hold the four indices that projection reads, for axes below `N`. -/
theorem matrix_indices_lt (value : QJsonValue R)
    (h1 : (isJsonMatrix value).1 = true) (h2 : (isJsonMatrix value).2.2 % 2 = 0)
    (dimX dimY : Int) (hX0 : 0 ≤ dimX) (hX : dimX < (isJsonMatrix value).2.2 / 2)
    (hY0 : 0 ≤ dimY) (hY : dimY < (isJsonMatrix value).2.2 / 2) :
    ∀ line ∈ value.toArray, ∀ i ∈ [2 * dimX, 2 * dimX + 1, 2 * dimY, 2 * dimY + 1],
      0 ≤ i ∧ i < line.toArray.size := by
  obtain ⟨rows, n, hv, _, _, hlen, hcols⟩ := isJsonMatrix_true value h1
  rw [hcols] at h2 hX hY
  intro line hline
  rw [hv] at hline
  obtain ⟨r, hr, rfl⟩ := List.mem_map.1 hline
  have hsize : (QJsonValue.array r).toArray.size = (n : Int) := by
    show ((r.length : Nat) : Int) = (n : Int)
    rw [hlen r hr]
  rw [hsize]
  exact bounds_indices_lt (n : Int) dimX dimY h2 hX0 hX hY0 hY

end VibesGraphicsItem

namespace VibesGraphicsEllipse

variable {R : Type}

/-- C38. Projection reads inside the arrays on validated documents. For a
document accepted by the validation of a box and axes `dimX`, `dimY` that the
validated box has, the indices `2·dimX`, `2·dimX + 1`, `2·dimY`, `2·dimY + 1` are
inside the array "bounds"; for a document accepted by the validation of
`VibesGraphicsBoxes` or of `VibesGraphicsBoxesUnion` they are inside every row of
"bounds". For a document accepted by the validation of an ellipse, with a center
of `n` entries, and axes that the validated ellipse has, the indices
`dimX + n·dimX`, `dimX + n·dimY`, `dimY + n·dimY` are below `n²`; and when the
document is given by its covariance, having neither "axis" with "orientation" nor
"angles", validation has checked that the array "covariance" has `n²` entries, so
that the three indices are inside it. -/
theorem computeProjection_reads_in_range :
    (∀ (G : Type) (self : VibesGraphicsItem R G) (json : QJsonObject R) (dimX dimY : Int),
      (VibesGraphicsBox.parseJsonGraphics self json).1 = true →
      (VibesGraphicsBox.parseJsonGraphics self json).2.existsInProj dimX dimY = true →
      ∀ i ∈ [2 * dimX, 2 * dimX + 1, 2 * dimY, 2 * dimY + 1],
        0 ≤ i ∧ i < (json.value "bounds").toArray.size) ∧
    (∀ (self : VibesGraphicsItem R (List (QRectF R))) (json : QJsonObject R) (dimX dimY : Int),
      (VibesGraphicsBoxes.parseJsonGraphics self json).1 = true →
      (VibesGraphicsBoxes.parseJsonGraphics self json).2.existsInProj dimX dimY = true →
      ∀ line ∈ (json.value "bounds").toArray,
        ∀ i ∈ [2 * dimX, 2 * dimX + 1, 2 * dimY, 2 * dimY + 1],
          0 ≤ i ∧ i < line.toArray.size) ∧
    (∀ (self : VibesGraphicsItem R (List (QRectF R))) (json : QJsonObject R) (dimX dimY : Int),
      (VibesGraphicsBoxesUnion.parseJsonGraphics self json).1 = true →
      (VibesGraphicsBoxesUnion.parseJsonGraphics self json).2.existsInProj dimX dimY = true →
      ∀ line ∈ (json.value "bounds").toArray,
        ∀ i ∈ [2 * dimX, 2 * dimX + 1, 2 * dimY, 2 * dimY + 1],
          0 ≤ i ∧ i < line.toArray.size) ∧
    (∀ (self : VibesGraphicsItem R (QGraphicsEllipseItem R)) (json : QJsonObject R)
        (dimX dimY : Int),
      (parseJsonGraphics self json).1 = true →
      (parseJsonGraphics self json).2.existsInProj dimX dimY = true →
      (∀ i ∈ [dimX + (json.value "center").toArray.size * dimX,
            dimX + (json.value "center").toArray.size * dimY,
            dimY + (json.value "center").toArray.size * dimY],
          0 ≤ i ∧
            i < (json.value "center").toArray.size * (json.value "center").toArray.size) ∧
        ((json.contains "axis" && json.contains "orientation") = false →
          json.contains "angles" = false →
          json.contains "covariance" = true ∧
            (json.value "covariance").toArray.size
              = (json.value "center").toArray.size * (json.value "center").toArray.size)) := by
  refine ⟨?_, ?_, ?_, ?_⟩
  · intro G self json dimX dimY h hproj
    rw [VibesGraphicsItem.existsInProj_iff] at hproj
    have key : (json.value "bounds").toArray.size % 2 = 0 ∧
        (VibesGraphicsBox.parseJsonGraphics self json).2.dimension
          = (json.value "bounds").toArray.size / 2 := by
      unfold VibesGraphicsBox.parseJsonGraphics at h ⊢
      simp only [VibesGraphicsItem.dimension, VibesGraphicsItem.maxDim] at h ⊢
      split_ifs at h ⊢ with h1 h2 h3
      exact ⟨by omega, rfl⟩
    rw [key.2] at hproj
    exact VibesGraphicsItem.bounds_indices_lt _ dimX dimY key.1 hproj.1 hproj.2.1 hproj.2.2.1
      hproj.2.2.2
  · intro self json dimX dimY h hproj
    rw [VibesGraphicsItem.existsInProj_iff] at hproj
    have key : (VibesGraphicsItem.isJsonMatrix (json.value "bounds")).1 = true ∧
        (VibesGraphicsItem.isJsonMatrix (json.value "bounds")).2.2 % 2 = 0 ∧
        (VibesGraphicsBoxes.parseJsonGraphics self json).2.dimension
          = (VibesGraphicsItem.isJsonMatrix (json.value "bounds")).2.2 / 2 := by
      unfold VibesGraphicsBoxes.parseJsonGraphics at h ⊢
      simp only [VibesGraphicsItem.dimension, VibesGraphicsItem.maxDim] at h ⊢
      split_ifs at h ⊢ with h1 h2 h3 h4 h5
      exact ⟨by simpa using h3, by simpa using h4, rfl⟩
    rw [key.2.2] at hproj
    exact VibesGraphicsItem.matrix_indices_lt _ key.1 key.2.1 dimX dimY
      hproj.1 hproj.2.1 hproj.2.2.1 hproj.2.2.2
  · intro self json dimX dimY h hproj
    rw [VibesGraphicsItem.existsInProj_iff] at hproj
    have key : (VibesGraphicsItem.isJsonMatrix (json.value "bounds")).1 = true ∧
        (VibesGraphicsItem.isJsonMatrix (json.value "bounds")).2.2 % 2 = 0 ∧
        (VibesGraphicsBoxesUnion.parseJsonGraphics self json).2.dimension
          = (VibesGraphicsItem.isJsonMatrix (json.value "bounds")).2.2 / 2 := by
      unfold VibesGraphicsBoxesUnion.parseJsonGraphics at h ⊢
      simp only [VibesGraphicsItem.dimension, VibesGraphicsItem.maxDim] at h ⊢
      split_ifs at h ⊢ with h1 h2 h3 h4 h5
      exact ⟨by simpa using h3, by simpa using h4, rfl⟩
    rw [key.2.2] at hproj
    exact VibesGraphicsItem.matrix_indices_lt _ key.1 key.2.1 dimX dimY
      hproj.1 hproj.2.1 hproj.2.2.1 hproj.2.2.2
  · intro self json dimX dimY h hproj
    rw [VibesGraphicsItem.existsInProj_iff] at hproj
    have hdim : (parseJsonGraphics self json).2.dimension = (json.value "center").toArray.size := by
      unfold parseJsonGraphics at h ⊢
      simp only [VibesGraphicsItem.dimension, VibesGraphicsItem.maxDim] at h ⊢
      split_ifs at h ⊢ <;> rfl
    rw [hdim] at hproj
    constructor
    · obtain ⟨hX0, hX, hY0, hY⟩ := hproj
      intro i hi
      simp only [List.mem_cons, List.mem_singleton, List.not_mem_nil, or_false] at hi
      rcases hi with rfl | rfl | rfl <;> constructor <;> nlinarith
    · intro hform hangles
      unfold parseJsonGraphics at h
      simp only [hform, hangles, Bool.false_eq_true, if_false] at h
      split_ifs at h with h1 h2 h3 h4 h5
      refine ⟨h4, ?_⟩
      rw [← pow_two]
      exact not_not.1 h5

end VibesGraphicsEllipse

namespace VibesGraphicsEllipse

/-- The indices read for the box `[0,1,0,1,0,1]` at the axes `(0, 2)` are inside its
6 bounds, and those read for the covariance `[1,0,0,1]` of an ellipse with the
center `[0,0]` at the axes `(0, 1)` are inside its 4 entries. -/
theorem computeProjection_reads_in_range_witness :
    (∀ i ∈ [2 * (0 : Int), 2 * 0 + 1, 2 * 2, 2 * 2 + 1],
        0 ≤ i ∧ i < ((boxDocument [0, 1, 0, 1, 0, 1]).value "bounds").toArray.size) ∧
      (∀ i ∈ [(0 : Int) + ((covarianceDocument [0, 0] [1, 0, 0, 1]).value "center").toArray.size * 0,
            0 + ((covarianceDocument [0, 0] [1, 0, 0, 1]).value "center").toArray.size * 1,
            1 + ((covarianceDocument [0, 0] [1, 0, 0, 1]).value "center").toArray.size * 1],
          0 ≤ i ∧
            i < ((covarianceDocument [0, 0] [1, 0, 0, 1]).value "center").toArray.size *
              ((covarianceDocument [0, 0] [1, 0, 0, 1]).value "center").toArray.size) ∧
      ((covarianceDocument [0, 0] [1, 0, 0, 1]).contains "covariance" = true ∧
        ((covarianceDocument [0, 0] [1, 0, 0, 1]).value "covariance").toArray.size
          = ((covarianceDocument [0, 0] [1, 0, 0, 1]).value "center").toArray.size *
            ((covarianceDocument [0, 0] [1, 0, 0, 1]).value "center").toArray.size) :=
  have h := (computeProjection_reads_in_range (R := Int)).2.2.2 VibesGraphicsEllipse.new
    (covarianceDocument [0, 0] [1, 0, 0, 1]) 0 1 (by decide) (by decide)
  ⟨(computeProjection_reads_in_range (R := Int)).1 Unit
      (VibesGraphicsItem.new SubclassMethods.rejecting ItemType.VibesGraphicsBoxType)
      (boxDocument [0, 1, 0, 1, 0, 1]) 0 2 (by decide) (by decide),
    h.1, h.2 (by decide) (by decide)⟩

end VibesGraphicsEllipse

/-! ## The covariance of an ellipse -/

namespace VibesGraphicsEllipse

variable {R : Type} [LinearOrderedField R]

/-- The correlated case of `axisAngleFromCovarianceK` when `pow(x, 2)` is `x·x` and
`==` is equality. -/
theorem axisAngleFromCovarianceK_correlated (m : CMath R)
    (hpow : ∀ x : R, m.pow x ((2 : Int) : R) = x * x)
    (heq : ∀ x y : R, m.eq x y = true ↔ x = y)
    (sxx syy sxy k : R) (hxy : sxy ≠ 0) :
    axisAngleFromCovarianceK m sxx syy sxy k =
      (k * m.sqrt ((sxx + syy) / 2 +
          m.sqrt ((sxx + syy) * (sxx + syy) / 4 - (sxx * syy - sxy * sxy))),
        k * m.sqrt ((sxx + syy) / 2 -
          m.sqrt ((sxx + syy) * (sxx + syy) / 4 - (sxx * syy - sxy * sxy))),
        m.atan2
            (((sxx + syy) / 2 +
                m.sqrt ((sxx + syy) * (sxx + syy) / 4 - (sxx * syy - sxy * sxy)) - sxy - sxx) /
              (sxy + syy - ((sxx + syy) / 2 +
                m.sqrt ((sxx + syy) * (sxx + syy) / 4 - (sxx * syy - sxy * sxy)))))
            1 * 180 * m.M_1_PI) := by
  have h0 : m.eq sxy 0 = false := by
    cases h : m.eq sxy 0
    · rfl
    · exact absurd ((heq sxy 0).1 h) hxy
  have hrefl : ∀ x : R, m.eq x x = true := fun x => (heq x x).2 rfl
  unfold axisAngleFromCovarianceK
  simp only [h0, hpow, hrefl, Bool.false_eq_true, if_false, Bool.not_true, Bool.or_self]
  push_cast
  rfl

/-- The square root of the radicand: the radicand is not negative. -/
theorem radicand_nonneg (sxx syy sxy : R) :
    0 ≤ (sxx + syy) * (sxx + syy) / 4 - (sxx * syy - sxy * sxy) := by
  have h : (sxx + syy) * (sxx + syy) / 4 - (sxx * syy - sxy * sxy)
      = (sxx - syy) * (sxx - syy) / 4 + sxy * sxy := by ring
  rw [h]
  have h1 := mul_self_nonneg (sxx - syy)
  have h2 := mul_self_nonneg sxy
  positivity

end VibesGraphicsEllipse

namespace VibesGraphicsEllipse

variable {R : Type} [LinearOrderedField R]

/-- C35. Over an ordered field, with `sqrt` the non-negative square root of
non-negative numbers, `pow(x, 2) = x·x` and `==` equality: when `sxy ≠ 0` the
radicand `trace²/4 − det` is not negative, and with
`eval1 = trace/2 + sqrt(trace²/4 − det)` and `eval2 = trace/2 − sqrt(trace²/4 − det)`
one has `eval1 + eval2 = sxx + syy`, `eval1·eval2 = sxx·syy − sxy²` and
`eval2 ≤ eval1`; the numbers `e` with `det(M − e·I) = 0` for
`M = [[sxx, sxy], [sxy, syy]]` are exactly `eval1` and `eval2`;
`axisAngleFromCovarianceK` gives `wx = k·sqrt(eval1)` and `wy = k·sqrt(eval2)`. The
projection of an ellipse whose document has "covariance", has no "sigma" and has
not both "axis" and "orientation" returns true and sets the rectangle from the
`wx` and `wy` that `axisAngleFromCovarianceK` gives for `k = 5`. -/
theorem axisAngleFromCovarianceK_eigenvalues (m : CMath R)
    (hsqrt : ∀ x : R, 0 ≤ x → 0 ≤ m.sqrt x ∧ m.sqrt x * m.sqrt x = x)
    (hpow : ∀ x : R, m.pow x ((2 : Int) : R) = x * x)
    (heq : ∀ x y : R, m.eq x y = true ↔ x = y)
    (sxx syy sxy k : R) (hxy : sxy ≠ 0) :
    (∃ rad eval1 eval2 : R,
      rad = (sxx + syy) * (sxx + syy) / 4 - (sxx * syy - sxy * sxy) ∧ 0 ≤ rad ∧
      eval1 = (sxx + syy) / 2 + m.sqrt rad ∧ eval2 = (sxx + syy) / 2 - m.sqrt rad ∧
      eval1 + eval2 = sxx + syy ∧ eval1 * eval2 = sxx * syy - sxy * sxy ∧ eval2 ≤ eval1 ∧
      (∀ e : R, (sxx - e) * (syy - e) - sxy * sxy = 0 ↔ e = eval1 ∨ e = eval2) ∧
      (axisAngleFromCovarianceK m sxx syy sxy k).1 = k * m.sqrt eval1 ∧
      (axisAngleFromCovarianceK m sxx syy sxy k).2.1 = k * m.sqrt eval2) ∧
    ∀ (self : VibesGraphicsItem R (QGraphicsEllipseItem R)) (dimX dimY : Int),
      (self._json.contains "axis" && self._json.contains "orientation") = false →
      self._json.contains "covariance" = true → self._json.contains "sigma" = false →
      (computeProjection m self dimX dimY).1 = true ∧
        (computeProjection m self dimX dimY).2.graphics.rect =
          ⟨-(axisAngleFromCovarianceK m
              (((self._json.value "covariance").toArray.at_
                (dimX + (self._json.value "center").toArray.size * dimX)).toDouble)
              (((self._json.value "covariance").toArray.at_
                (dimY + (self._json.value "center").toArray.size * dimY)).toDouble)
              (((self._json.value "covariance").toArray.at_
                (dimX + (self._json.value "center").toArray.size * dimY)).toDouble) 5).1,
            -(axisAngleFromCovarianceK m
              (((self._json.value "covariance").toArray.at_
                (dimX + (self._json.value "center").toArray.size * dimX)).toDouble)
              (((self._json.value "covariance").toArray.at_
                (dimY + (self._json.value "center").toArray.size * dimY)).toDouble)
              (((self._json.value "covariance").toArray.at_
                (dimX + (self._json.value "center").toArray.size * dimY)).toDouble) 5).2.1,
            2 * (axisAngleFromCovarianceK m
              (((self._json.value "covariance").toArray.at_
                (dimX + (self._json.value "center").toArray.size * dimX)).toDouble)
              (((self._json.value "covariance").toArray.at_
                (dimY + (self._json.value "center").toArray.size * dimY)).toDouble)
              (((self._json.value "covariance").toArray.at_
                (dimX + (self._json.value "center").toArray.size * dimY)).toDouble) 5).1,
            2 * (axisAngleFromCovarianceK m
              (((self._json.value "covariance").toArray.at_
                (dimX + (self._json.value "center").toArray.size * dimX)).toDouble)
              (((self._json.value "covariance").toArray.at_
                (dimY + (self._json.value "center").toArray.size * dimY)).toDouble)
              (((self._json.value "covariance").toArray.at_
                (dimX + (self._json.value "center").toArray.size * dimY)).toDouble) 5).2.1⟩ := by
  constructor
  · have hrad := radicand_nonneg sxx syy sxy
    obtain ⟨hq0, hq⟩ := hsqrt _ hrad
    refine ⟨_, _, _, rfl, hrad, rfl, rfl, by ring, ?_, by linarith, ?_, ?_, ?_⟩
    · linear_combination (-1 : R) * hq
    · intro e
      have hfac : (sxx - e) * (syy - e) - sxy * sxy
          = (e - ((sxx + syy) / 2 +
                m.sqrt ((sxx + syy) * (sxx + syy) / 4 - (sxx * syy - sxy * sxy)))) *
              (e - ((sxx + syy) / 2 -
                m.sqrt ((sxx + syy) * (sxx + syy) / 4 - (sxx * syy - sxy * sxy)))) := by
        linear_combination hq
      rw [hfac, mul_eq_zero, sub_eq_zero, sub_eq_zero]
    · rw [axisAngleFromCovarianceK_correlated m hpow heq sxx syy sxy k hxy]
    · rw [axisAngleFromCovarianceK_correlated m hpow heq sxx syy sxy k hxy]
  · intro self dimX dimY hform hcov hsigma
    unfold computeProjection
    simp only [hform, hcov, hsigma, Bool.false_eq_true, if_false, if_true]
    push_cast
    exact ⟨trivial, rfl⟩

/-- C40. Over an ordered field, with `sqrt` the non-negative square root of
non-negative numbers, `pow(x, 2) = x·x` and `==` equality: when `sxy ≠ 0` and
`sxy + syy − eval1 ≠ 0`, where `eval1 = trace/2 + sqrt(trace²/4 − det)`, the number
`v = (eval1 − sxy − sxx)/(sxy + syy − eval1)` satisfies `M·(1, v) = eval1·(1, v)` for
`M = [[sxx, sxy], [sxy, syy]]`; `eval1` is a root of `det(M − e·I)` and no root is
larger; and the angle that `axisAngleFromCovarianceK` gives is `atan2(v, 1)`
converted to degrees, `atan2(v, 1)·180·M_1_PI`. -/
theorem axisAngleFromCovarianceK_eigenvector (m : CMath R)
    (hsqrt : ∀ x : R, 0 ≤ x → 0 ≤ m.sqrt x ∧ m.sqrt x * m.sqrt x = x)
    (hpow : ∀ x : R, m.pow x ((2 : Int) : R) = x * x)
    (heq : ∀ x y : R, m.eq x y = true ↔ x = y)
    (sxx syy sxy k eval1 v : R) (hxy : sxy ≠ 0)
    (he1 : eval1 = (sxx + syy) / 2 +
      m.sqrt ((sxx + syy) * (sxx + syy) / 4 - (sxx * syy - sxy * sxy)))
    (hden : sxy + syy - eval1 ≠ 0)
    (hv : v = (eval1 - sxy - sxx) / (sxy + syy - eval1)) :
    (sxx * 1 + sxy * v = eval1 * 1 ∧ sxy * 1 + syy * v = eval1 * v) ∧
      (sxx - eval1) * (syy - eval1) - sxy * sxy = 0 ∧
      (∀ e : R, (sxx - e) * (syy - e) - sxy * sxy = 0 → e ≤ eval1) ∧
      (axisAngleFromCovarianceK m sxx syy sxy k).2.2 = m.atan2 v 1 * 180 * m.M_1_PI := by
  have hrad := radicand_nonneg sxx syy sxy
  obtain ⟨hq0, hq⟩ := hsqrt _ hrad
  have hchar : (sxx - eval1) * (syy - eval1) - sxy * sxy = 0 := by
    rw [he1]
    linear_combination hq
  refine ⟨⟨?_, ?_⟩, hchar, ?_, ?_⟩
  · rw [hv]
    field_simp
    linear_combination hchar
  · rw [hv]
    field_simp
    linear_combination (-1 : R) * hchar
  · intro e he
    have hfac : (sxx - e) * (syy - e) - sxy * sxy
        = (e - eval1) * (e - ((sxx + syy) / 2 -
              m.sqrt ((sxx + syy) * (sxx + syy) / 4 - (sxx * syy - sxy * sxy)))) := by
      rw [he1]
      linear_combination hq
    rw [hfac, mul_eq_zero, sub_eq_zero, sub_eq_zero] at he
    rcases he with he | he
    · exact le_of_eq he
    · rw [he, he1]
      linarith
  · rw [axisAngleFromCovarianceK_correlated m hpow heq sxx syy sxy k hxy, hv, he1]

end VibesGraphicsEllipse

namespace VibesGraphicsEllipse

/-- Over the real numbers, with the square root of the reals, for the covariance
`[[2, 1], [1, 2]]` and `k = 5`: the eigenvalues are `3` and `1`, and the semi-axes
are `5·sqrt(3)` and `5·sqrt(1)`. -/
theorem axisAngleFromCovarianceK_eigenvalues_witness :
    ((1 : ℝ) ≠ 0) ∧
      (axisAngleFromCovarianceK
        (⟨Real.sqrt, fun y x => Complex.arg ⟨x, y⟩, fun x y => x ^ y, 1 / Real.pi,
          fun x => ⌊x⌋, fun x y => decide (x = y)⟩ : CMath ℝ) 2 2 1 5).1 = 5 * Real.sqrt 3 ∧
      (axisAngleFromCovarianceK
        (⟨Real.sqrt, fun y x => Complex.arg ⟨x, y⟩, fun x y => x ^ y, 1 / Real.pi,
          fun x => ⌊x⌋, fun x y => decide (x = y)⟩ : CMath ℝ) 2 2 1 5).2.1 = 5 * Real.sqrt 1 := by
  obtain ⟨⟨rad, eval1, eval2, hrad, _, he1, he2, _, _, _, _, hwx, hwy⟩, _⟩ :=
    axisAngleFromCovarianceK_eigenvalues
      (⟨Real.sqrt, fun y x => Complex.arg ⟨x, y⟩, fun x y => x ^ y, 1 / Real.pi,
        fun x => ⌊x⌋, fun x y => decide (x = y)⟩ : CMath ℝ)
      (fun x hx => ⟨Real.sqrt_nonneg x, Real.mul_self_sqrt hx⟩)
      (fun x => by
        show x ^ (((2 : Int) : ℝ)) = x * x
        rw [show (((2 : Int) : ℝ)) = (2 : ℝ) by norm_num, Real.rpow_two, pow_two])
      (fun x y => by simp) 2 2 1 5 one_ne_zero
  have h1 : rad = 1 := by rw [hrad]; norm_num
  rw [h1] at he1 he2
  simp only [Real.sqrt_one] at he1 he2
  have h3 : eval1 = 3 := by rw [he1]; norm_num
  have h4 : eval2 = 1 := by rw [he2]; norm_num
  rw [h3] at hwx
  rw [h4] at hwy
  exact ⟨one_ne_zero, hwx, hwy⟩

/-- Over the real numbers, for the covariance `[[1, -1], [-1, 1]]`: `eval1 = 2`,
`v = -1`, and `(1, -1)` is an eigenvector for the eigenvalue `2`. -/
theorem axisAngleFromCovarianceK_eigenvector_witness :
    ((-1 : ℝ) ≠ 0 ∧ (-1 : ℝ) + 1 - 2 ≠ 0) ∧
      ((1 : ℝ) * 1 + (-1) * (-1) = 2 * 1 ∧ (-1 : ℝ) * 1 + 1 * (-1) = 2 * (-1)) ∧
      (axisAngleFromCovarianceK
        (⟨Real.sqrt, fun y x => Complex.arg ⟨x, y⟩, fun x y => x ^ y, 1 / Real.pi,
          fun x => ⌊x⌋, fun x y => decide (x = y)⟩ : CMath ℝ) 1 1 (-1) 5).2.2
        = Complex.arg ⟨1, -1⟩ * 180 * (1 / Real.pi) :=
  have h := axisAngleFromCovarianceK_eigenvector
    (⟨Real.sqrt, fun y x => Complex.arg ⟨x, y⟩, fun x y => x ^ y, 1 / Real.pi,
      fun x => ⌊x⌋, fun x y => decide (x = y)⟩ : CMath ℝ)
    (fun x hx => ⟨Real.sqrt_nonneg x, Real.mul_self_sqrt hx⟩)
    (fun x => by
      show x ^ (((2 : Int) : ℝ)) = x * x
      rw [show (((2 : Int) : ℝ)) = (2 : ℝ) by norm_num, Real.rpow_two, pow_two])
    (fun x y => by simp) 1 1 (-1) 5 2 (-1) (by norm_num)
    (by
      show (2 : ℝ) = (1 + 1) / 2 + Real.sqrt ((1 + 1) * (1 + 1) / 4 - (1 * 1 - (-1) * (-1)))
      rw [show ((1 : ℝ) + 1) * (1 + 1) / 4 - (1 * 1 - (-1) * (-1)) = 1 by norm_num,
        Real.sqrt_one]
      norm_num)
    (by norm_num) (by norm_num)
  ⟨⟨by norm_num, by norm_num⟩, h.1, h.2.2.2⟩

end VibesGraphicsEllipse
